import Mathlib

/-!
# GLC_lib geometry tools (`glc_geomtools.cpp`)

A shallow embedding of the 2D geometry helpers of GLC_lib: segment and interval
intersection, the cone test, the diagonal test and the ear-clipping
triangulation.  The C++ `double` is read as an exact rational number, the C++
`int` as a mathematical integer (every index computed here lies between `-1`
and the size of the list, so no overflow arises), `QList`/`QVector` as `List`.
The two segment functions are given a second time with every operation
rounded (`findIntersectionFl`, `isIntersectedFl`), for the properties that
rounding and underflow decide.
The tolerance `EPSILON` comes from `glc_maths.h` and is a parameter of every
function that reads it.

Three things a C++ run can do that a total function cannot are made explicit
in the result type `Except Fault`: an element access outside a list, a failed
`Q_ASSERT`, and a division whose divisor is zero (which has no exact value).
The recursion of `triangulate` is bounded by the number of vertices it starts
from; a run that would need more nested calls ends in `Fault.stackExhausted`.
A square root that is not a rational number has no value here either: the
normalisation of a vector whose length is not rational ends in
`Fault.irrational`.
-/

namespace glc

/-- What stops a run short of a value. -/
inductive Fault where
  | indexOutOfRange
  | assertFailed
  | divideByZero
  | stackExhausted
  | irrational
deriving DecidableEq

/-- Modelled from the spec: the value type `GLC_Vector2d` of `glc_vector2d.h`,
two coordinates read through `getX()` and `getY()`. -/
@[ext]
structure GLC_Vector2d where
  x : ℚ
  y : ℚ
deriving DecidableEq

namespace GLC_Vector2d

/-- Modelled from the spec: `operator+` of `GLC_Vector2d`, coordinate-wise. -/
def add (a b : GLC_Vector2d) : GLC_Vector2d := ⟨a.x + b.x, a.y + b.y⟩

/-- Modelled from the spec: `operator-` of `GLC_Vector2d`, coordinate-wise. -/
def sub (a b : GLC_Vector2d) : GLC_Vector2d := ⟨a.x - b.x, a.y - b.y⟩

/-- Modelled from the spec: `operator*` of a `GLC_Vector2d` and a scalar. -/
def scale (a : GLC_Vector2d) (s : ℚ) : GLC_Vector2d := ⟨a.x * s, a.y * s⟩

/-- Modelled from the spec: `operator*` of two `GLC_Vector2d`, the dot
product. -/
def dot (a b : GLC_Vector2d) : ℚ := a.x * b.x + a.y * b.y

/-- Modelled from the spec: `operator^` of two `GLC_Vector2d`, the scalar
cross product `a.x * b.y - a.y * b.x`. -/
def cross (a b : GLC_Vector2d) : ℚ := a.x * b.y - a.y * b.x

end GLC_Vector2d

open GLC_Vector2d

/-- The quotient `a / b` of two `double`s, which has an exact value only when
`b` is not zero. -/
def divide (a b : ℚ) : Except Fault ℚ :=
  if b = 0 then .error .divideByZero else .ok (a / b)

/-- Sequencing of two steps of a run: the first fault ends it. -/
def andThen {α β : Type} (r : Except Fault α) (f : α → Except Fault β) : Except Fault β :=
  match r with
  | .error e => .error e
  | .ok a => f a

/-- `glc::findIntersection(u0, u1, v0, v1)`: the intersection of the intervals
`[u0, u1]` and `[v0, v1]`, as the list of its boundary values. -/
def findIntersectionInterval (u0 u1 v0 v1 : ℚ) : Except Fault (List ℚ) :=
  if ¬ (u0 < u1 ∧ v0 < v1) then .error .assertFailed
  else if u1 < v0 ∨ u0 > v1 then .ok []
  else if u1 > v0 then
    if u0 < v1 then
      .ok [if u0 < v0 then v0 else u0, if u1 > v1 then v1 else u1]
    else .ok [u0]
  else .ok [u1]

/-- `glc::findIntersection(s1p1, s1p2, s2p1, s2p2)`: the intersection points of
two 2D segments. -/
def findIntersection (EPSILON : ℚ) (s1p1 s1p2 s2p1 s2p2 : GLC_Vector2d) :
    Except Fault (List GLC_Vector2d) :=
  let D0 := sub s1p2 s1p1
  let D1 := sub s2p2 s2p1
  let E := sub s2p1 s1p1
  let kross := cross D0 D1
  let sqrKross := kross * kross
  let sqrLen0 := D0.x * D0.x + D0.y * D0.y
  let sqrLen1 := D1.x * D1.x + D1.y * D1.y
  if sqrKross > EPSILON * sqrLen0 * sqrLen1 then
    andThen (divide (cross E D1) kross) fun s =>
    if s < 0 ∨ s > 1 then .ok []
    else
      andThen (divide (cross E D0) kross) fun t =>
      if t < 0 ∨ t > 1 then .ok []
      else .ok [add s1p1 (scale D0 s)]
  else
    let sqrLenE := E.x * E.x + E.y * E.y
    let kross := cross E D0
    let sqrKross := kross * kross
    if sqrKross > EPSILON * sqrLen0 * sqrLenE then .ok []
    else
      andThen (divide (dot D0 E) sqrLen0) fun s0 =>
      andThen (divide (dot D0 D1) sqrLen0) fun s1 =>
      let sMin := min s0 s1
      let sMax := max s0 s1
      andThen (findIntersectionInterval 0 1 sMin sMax) fun overlaps =>
      .ok (overlaps.map fun o => add s1p1 (scale D0 o))

/-- `glc::isIntersected(s1p1, s1p2, s2p1, s2p2)`: whether two 2D segments
intersect. -/
def isIntersected (EPSILON : ℚ) (s1p1 s1p2 s2p1 s2p2 : GLC_Vector2d) :
    Except Fault Bool :=
  let D0 := sub s1p2 s1p1
  let D1 := sub s2p2 s2p1
  let E := sub s2p1 s1p1
  let kross := cross D0 D1
  let sqrKross := kross * kross
  let sqrLen0 := D0.x * D0.x + D0.y * D0.y
  let sqrLen1 := D1.x * D1.x + D1.y * D1.y
  if sqrKross > EPSILON * sqrLen0 * sqrLen1 then
    andThen (divide (cross E D1) kross) fun s =>
    if s < 0 ∨ s > 1 then .ok false
    else
      andThen (divide (cross E D0) kross) fun t =>
      if t < 0 ∨ t > 1 then .ok false
      else .ok true
  else
    let sqrLenE := E.x * E.x + E.y * E.y
    let kross := cross E D0
    let sqrKross := kross * kross
    if sqrKross > EPSILON * sqrLen0 * sqrLenE then .ok false
    else
      andThen (divide (dot D0 E) sqrLen0) fun s0 =>
      andThen (divide (dot D0 D1) sqrLen0) fun d =>
      let s1 := s0 + d
      let sMin := min s0 s1
      let sMax := max s0 s1
      andThen (findIntersectionInterval 0 1 sMin sMax) fun overlaps =>
      if overlaps.length = 0 then .ok false else .ok true

/-- `glc::segmentInCone(V0, V1, VM, VP)`: whether the segment from `V0` to `V1`
lies in the cone of the polygon at `V0`, between the previous vertex `VM` and
the next vertex `VP`. -/
def segmentInCone (V0 V1 VM VP : GLC_Vector2d) : Bool :=
  let diff := sub V1 V0
  let edgeL := sub VM V0
  let edgeR := sub VP V0
  if cross edgeR edgeL < 0 then
    decide (cross diff edgeR > 0) && decide (cross diff edgeL < 0)
  else
    decide (cross diff edgeR > 0) || decide (cross diff edgeL < 0)

/-- The element access `list[i]` of `QList`, defined for `0 <= i < size`. -/
def elemAt {α : Type} (list : List α) (i : Int) : Except Fault α :=
  if i < 0 then .error .indexOutOfRange
  else
    match list[i.toNat]? with
    | some a => .ok a
    | none => .error .indexOutOfRange

/-- `QList::removeAt(i)`: removes the element at position `i`, and does nothing
when `i` is not a position of the list. -/
def removeAt {α : Type} (list : List α) (i : Int) : List α :=
  if 0 ≤ i ∧ i < list.length then list.eraseIdx i.toNat else list

/-- The `while (j0 < size)` loop of `glc::isDiagonal`, with `k = size - j0`
iterations left: the edge from `polygon[j1]` to `polygon[j0]` is tested against
the segment from `polygon[i0]` to `polygon[i1]` unless it shares an end with
it. -/
def isDiagonalLoop (EPSILON : ℚ) (polygon : List GLC_Vector2d) (i0 i1 : Int) :
    Nat → Int → Int → Except Fault Bool
  | 0, _, _ => .ok true
  | k + 1, j0, j1 =>
    if j0 ≠ i0 ∧ j0 ≠ i1 ∧ j1 ≠ i0 ∧ j1 ≠ i1 then
      andThen (elemAt polygon i0) fun p0 =>
      andThen (elemAt polygon i1) fun p1 =>
      andThen (elemAt polygon j0) fun q0 =>
      andThen (elemAt polygon j1) fun q1 =>
      andThen (isIntersected EPSILON p0 p1 q0 q1) fun hit =>
      if hit then .ok false else isDiagonalLoop EPSILON polygon i0 i1 k (j0 + 1) j0
    else isDiagonalLoop EPSILON polygon i0 i1 k (j0 + 1) j0

/-- `glc::isDiagonal(polygon, i0, i1)`: whether the segment from `polygon[i0]`
to `polygon[i1]` is a diagonal of the polygon.  The C++ `%` is the truncating
remainder `Int.tmod`, undefined for a zero divisor. -/
def isDiagonal (EPSILON : ℚ) (polygon : List GLC_Vector2d) (i0 i1 : Int) :
    Except Fault Bool :=
  let size : Int := polygon.length
  if size = 0 then .error .divideByZero
  else
    let iM := Int.tmod (i0 - 1) size
    let iM := if iM < 0 then size - 1 else iM
    let iP := Int.tmod (i0 + 1) size
    andThen (elemAt polygon i0) fun V0 =>
    andThen (elemAt polygon i1) fun V1 =>
    andThen (elemAt polygon iM) fun VM =>
    andThen (elemAt polygon iP) fun VP =>
    if ¬ segmentInCone V0 V1 VM VP then .ok false
    else isDiagonalLoop EPSILON polygon i0 i1 polygon.length 0 (size - 1)

/-- The three lists `glc::triangulate` works on: the polygon and the index
list, both shrunk in place, and the triangle list it appends to. -/
structure Lists where
  polygon : List GLC_Vector2d
  index : List Int
  tList : List Int
deriving DecidableEq

/-- The `while (i0 < size)` loop of `glc::triangulate` up to the first ear,
with `k = size - i0` iterations left: the positions `(i0, i1, i2)` of the first
triple for which `isDiagonal(polygon, i0, i2)` holds, or `none` when the loop
ends without one. -/
def triangulateLoop (EPSILON : ℚ) (polygon : List GLC_Vector2d) :
    Nat → Int → Int → Int → Except Fault (Option (Int × Int × Int))
  | 0, _, _, _ => .ok none
  | k + 1, i0, i1, i2 =>
    andThen (isDiagonal EPSILON polygon i0 i2) fun ear =>
    if ear then .ok (some (i0, i1, i2))
    else
      triangulateLoop EPSILON polygon k (i0 + 1)
        (Int.tmod (i1 + 1) polygon.length) (Int.tmod (i2 + 1) polygon.length)

/-- `glc::triangulate(polygon, index, tList)` with at most `depth` nested
calls below this one. -/
def triangulateAux (EPSILON : ℚ) : Nat → Lists → Except Fault Lists
  | depth, ⟨polygon, index, tList⟩ =>
    if polygon.length = 3 then
      andThen (elemAt index 0) fun a =>
      andThen (elemAt index 1) fun b =>
      andThen (elemAt index 2) fun c =>
      .ok ⟨polygon, index, tList ++ [a, b, c]⟩
    else
      andThen (triangulateLoop EPSILON polygon polygon.length 0 1 2) fun found =>
      match found with
      | none => .ok ⟨polygon, index, tList⟩
      | some (i0, i1, i2) =>
        andThen (elemAt index i0) fun a =>
        andThen (elemAt index i1) fun b =>
        andThen (elemAt index i2) fun c =>
        match depth with
        | 0 => .error .stackExhausted
        | d + 1 =>
          triangulateAux EPSILON d
            ⟨removeAt polygon i1, removeAt index i1, tList ++ [a, b, c]⟩

/-- `glc::triangulate(polygon, index, tList)`: ear clipping of a polygon; the
result holds the three lists as the call leaves them. -/
def triangulate (EPSILON : ℚ) (polygon : List GLC_Vector2d) (index tList : List Int) :
    Except Fault Lists :=
  triangulateAux EPSILON polygon.length ⟨polygon, index, tList⟩

/-- Decidable equality of results, component by component. -/
instance instDecidableEqRun {α : Type} [DecidableEq α] : DecidableEq (Except Fault α)
  | .ok a, .ok b =>
    if h : a = b then isTrue (by rw [h]) else isFalse (fun h2 => h (Except.ok.inj h2))
  | .error a, .error b =>
    if h : a = b then isTrue (by rw [h]) else isFalse (fun h2 => h (Except.error.inj h2))
  | .ok _, .error _ => isFalse (fun h => Except.noConfusion h)
  | .error _, .ok _ => isFalse (fun h => Except.noConfusion h)

/-- The point `P` lies on the closed segment from `a` to `b`. -/
def OnSegment (P a b : GLC_Vector2d) : Prop :=
  ∃ l : ℚ, 0 ≤ l ∧ l ≤ 1 ∧ P = add a (scale (sub b a) l)

/-- The closed segments from `a` to `b` and from `c` to `d` have a point in
common. -/
def Meet (a b c d : GLC_Vector2d) : Prop :=
  ∃ P : GLC_Vector2d, OnSegment P a b ∧ OnSegment P c d

/-- The squared length `x * x + y * y` that the segment functions compute for
`D0`, `D1` and `E`. -/
def sqrLen (v : GLC_Vector2d) : ℚ := v.x * v.x + v.y * v.y

/-- The first test of the segment functions, "the lines are not parallel":
`sqrKross > EPSILON * sqrLen0 * sqrLen1` with `kross = D0 ^ D1`. -/
def NonParallel (EPSILON : ℚ) (s1p1 s1p2 s2p1 s2p2 : GLC_Vector2d) : Prop :=
  cross (sub s1p2 s1p1) (sub s2p2 s2p1) * cross (sub s1p2 s1p1) (sub s2p2 s2p1)
    > EPSILON * sqrLen (sub s1p2 s1p1) * sqrLen (sub s2p2 s2p1)

/-- The second test of the segment functions, "the lines are different":
`sqrKross > EPSILON * sqrLen0 * sqrLenE` with `kross = E ^ D0`. -/
def DistinctLines (EPSILON : ℚ) (s1p1 s1p2 s2p1 : GLC_Vector2d) : Prop :=
  cross (sub s2p1 s1p1) (sub s1p2 s1p1) * cross (sub s2p1 s1p1) (sub s1p2 s1p1)
    > EPSILON * sqrLen (sub s1p2 s1p1) * sqrLen (sub s2p1 s1p1)

/-- No position of the polygon passes the ear test of `triangulate`:
`isDiagonal(polygon, i0, (i0 + 2) % size)` is false at every `i0`. -/
def NoEar (EPSILON : ℚ) (polygon : List GLC_Vector2d) : Prop :=
  ∀ i0 : Nat, i0 < polygon.length →
    isDiagonal EPSILON polygon i0 (Int.tmod (i0 + 2) polygon.length) = .ok false

/-- Modelled from the spec: the value type `GLC_Vector4d` of `glc_vector4d.h`,
a 3D vector read through `getX()`, `getY()` and `getZ()`. -/
@[ext]
structure GLC_Vector4d where
  x : ℚ
  y : ℚ
  z : ℚ
deriving DecidableEq

namespace GLC_Vector4d

/-- Modelled from the spec: `operator-` of `GLC_Vector4d`, coordinate-wise. -/
def sub (a b : GLC_Vector4d) : GLC_Vector4d := ⟨a.x - b.x, a.y - b.y, a.z - b.z⟩

/-- Modelled from the spec: `operator^` of two `GLC_Vector4d`, the 3D cross
product. -/
def cross (a b : GLC_Vector4d) : GLC_Vector4d :=
  ⟨a.y * b.z - a.z * b.y, a.z * b.x - a.x * b.z, a.x * b.y - a.y * b.x⟩

/-- Modelled from the spec: `operator*` of two `GLC_Vector4d`, the 3D dot
product. -/
def dot (a b : GLC_Vector4d) : ℚ := a.x * b.x + a.y * b.y + a.z * b.z

end GLC_Vector4d

/-- The `for (int i= 3; i < max; ++i)` loop of `glc::polygonIsConvex`, with
`k = max - i` iterations left, entered with the current `edge2` and `vertex2`:
`none` when the loop returns false, otherwise the `edge2` and `vertex2` it
ends with.  The mesh is read through `getVertex`. -/
def polygonIsConvexLoop (getVertex : Int → GLC_Vector4d) (vertexs : List Int)
    (direction : Bool) :
    Nat → Int → GLC_Vector4d → GLC_Vector4d →
      Except Fault (Option (GLC_Vector4d × GLC_Vector4d))
  | 0, _, edge2, vertex2 => .ok (some (edge2, vertex2))
  | k + 1, i, edge2, vertex2 =>
    let edge1 := edge2
    let vertex1 := vertex2
    andThen (elemAt vertexs i) fun vi =>
    let vertex2 := getVertex vi
    let edge2 := GLC_Vector4d.sub vertex2 vertex1
    if decide ((GLC_Vector4d.cross edge1 edge2).z ≥ 0) ≠ direction then .ok none
    else polygonIsConvexLoop getVertex vertexs direction k (i + 1) edge2 vertex2

/-- `glc::polygonIsConvex(pMesh, vertexs)`: whether the polygon of the mesh
vertices `vertexs` is convex.  The mesh is read through `getVertex`. -/
def polygonIsConvex (getVertex : Int → GLC_Vector4d) (vertexs : List Int) :
    Except Fault Bool :=
  let max := vertexs.length
  if max < 4 then .ok true
  else
    andThen (elemAt vertexs 0) fun v0 =>
    andThen (elemAt vertexs 1) fun v1 =>
    let vertex1 := getVertex v0
    let vertex2 := getVertex v1
    let edge1 := GLC_Vector4d.sub vertex2 vertex1
    let vertex1 := vertex2
    andThen (elemAt vertexs 2) fun v2 =>
    let vertex2 := getVertex v2
    let edge2 := GLC_Vector4d.sub vertex2 vertex1
    let direction := decide ((GLC_Vector4d.cross edge1 edge2).z ≥ 0)
    andThen (polygonIsConvexLoop getVertex vertexs direction (max - 3) 3 edge2 vertex2)
      fun left =>
    match left with
    | none => .ok false
    | some (edge2, vertex2) =>
      let edge1 := edge2
      let vertex1 := vertex2
      andThen (elemAt vertexs 0) fun v0 =>
      let vertex2 := getVertex v0
      let edge2 := GLC_Vector4d.sub vertex2 vertex1
      if decide ((GLC_Vector4d.cross edge1 edge2).z ≥ 0) ≠ direction then .ok false
      else .ok true

/-- The mesh vertex at position `k` of the vertex list. -/
def vertexOf (getVertex : Int → GLC_Vector4d) (vertexs : List Int) (k : Nat) :
    GLC_Vector4d :=
  getVertex (vertexs.getD k 0)

/-- The z component of the cross product of the two consecutive edges at
position `k` of the closed cycle: the edge that arrives at vertex `k` and the
edge that leaves it. -/
def turnZ (getVertex : Int → GLC_Vector4d) (vertexs : List Int) (k : Nat) : ℚ :=
  (GLC_Vector4d.cross
    (GLC_Vector4d.sub (vertexOf getVertex vertexs k)
      (vertexOf getVertex vertexs ((k + vertexs.length - 1) % vertexs.length)))
    (GLC_Vector4d.sub (vertexOf getVertex vertexs ((k + 1) % vertexs.length))
      (vertexOf getVertex vertexs k))).z

/-- A mesh whose vertex `i` is the `i`-th point of a list, in the plane
`z = 0`. -/
def planarMesh (points : List (ℚ × ℚ)) (i : Int) : GLC_Vector4d :=
  ⟨(points.getD i.toNat (0, 0)).1, (points.getD i.toNat (0, 0)).2, 0⟩

/-- The vertex at position `k` of the polygon. -/
def pointAt (polygon : List GLC_Vector2d) (k : Nat) : GLC_Vector2d :=
  polygon.getD k ⟨0, 0⟩

/-- The edges `(j1, j0)` that the `while (j0 < size)` loop of
`glc::isDiagonal` goes through when it runs to its end, with `k = size - j0`
iterations left. -/
def isDiagonalEdges : Nat → Int → Int → List (Int × Int)
  | 0, _, _ => []
  | k + 1, j0, j1 => (j1, j0) :: isDiagonalEdges k (j0 + 1) j0

/-- The run ends with a value, or stops on a division by zero or on the failed
assertion of the interval function: it makes no access outside a list and does
not exhaust the depth it is given. -/
def RangeSafe {α : Type} (r : Except Fault α) : Prop :=
  ∀ e, r = .error e → e = .divideByZero ∨ e = .assertFailed

/-- The call of `glc::triangulate` on the lists `s` makes its nested call on
the lists `s2`: the polygon has not three vertices, the scan stops at a triple
`(i0, i1, i2)`, the triangle `index[i0], index[i1], index[i2]` is appended and
position `i1` is removed from `polygon` and from `index`. -/
def RecursiveCall (EPSILON : ℚ) (s s2 : Lists) : Prop :=
  s.polygon.length ≠ 3 ∧
  ∃ i0 i1 i2 a b c,
    triangulateLoop EPSILON s.polygon s.polygon.length 0 1 2 = .ok (some (i0, i1, i2)) ∧
    elemAt s.index i0 = .ok a ∧ elemAt s.index i1 = .ok b ∧ elemAt s.index i2 = .ok c ∧
    s2 = ⟨removeAt s.polygon i1, removeAt s.index i1, s.tList ++ [a, b, c]⟩

/-- Modelled from the spec: the world axis X of `glc_maths.h`. -/
def AxeX : GLC_Vector4d := ⟨1, 0, 0⟩

/-- Modelled from the spec: the world axis Y of `glc_maths.h`. -/
def AxeY : GLC_Vector4d := ⟨0, 1, 0⟩

/-- Modelled from the spec: the world axis Z of `glc_maths.h`. -/
def AxeZ : GLC_Vector4d := ⟨0, 0, 1⟩

/-- Modelled from the spec: `GLC_Vector4d::isNull()`, whether the vector is
the zero vector, read exactly. -/
def GLC_Vector4d.isNull (v : GLC_Vector4d) : Bool := decide (v = ⟨0, 0, 0⟩)

/-- The square root of a rational number that is the square of a rational
number. -/
def sqrtExact (q : ℚ) : Except Fault ℚ :=
  if Rat.sqrt q * Rat.sqrt q = q then .ok (Rat.sqrt q) else .error .irrational

/-- Modelled from the spec: `GLC_Vector4d::setNormal(1.0)`, the vector scaled
to the length one. -/
def GLC_Vector4d.setNormal (v : GLC_Vector4d) : Except Fault GLC_Vector4d :=
  andThen (sqrtExact (GLC_Vector4d.dot v v)) fun norm =>
  andThen (divide v.x norm) fun x =>
  andThen (divide v.y norm) fun y =>
  andThen (divide v.z norm) fun z =>
  .ok ⟨x, y, z⟩

/-- Modelled from the spec: the transformation
`GLC_Matrix4x4(rotationAxis, angle)` applied to the vector `v`, the rotation of
`angle` about `rotationAxis`, for the axis `a = normal ^ refNormal` and the
angle `acos(c)`, `c = normal * refNormal`, of two vectors of length one.  The
length of `a` is then the sine of the angle, and the formula of Rodrigues
`c v + sin (u ^ v) + (1 - c) (u * v) u` for the unit axis `u = a / sin` is
`c v + a ^ v + ((a * v) / (1 + c)) a`. -/
def rotate (rotationAxis : GLC_Vector4d) (cosAngle : ℚ) (v : GLC_Vector4d) : GLC_Vector4d :=
  let k := GLC_Vector4d.dot rotationAxis v / (1 + cosAngle)
  let w := GLC_Vector4d.cross rotationAxis v
  ⟨cosAngle * v.x + w.x + k * rotationAxis.x,
    cosAngle * v.y + w.y + k * rotationAxis.y,
    cosAngle * v.z + w.z + k * rotationAxis.z⟩

/-- Modelled from the spec: `GLC_Vector4d::toVector2d(mask)`, the 2D vector
left when the coordinate along the axis `mask` is dropped. -/
def GLC_Vector4d.toVector2d (v mask : GLC_Vector4d) : GLC_Vector2d :=
  if mask.x ≠ 0 then ⟨v.y, v.z⟩
  else if mask.y ≠ 0 then ⟨v.x, v.z⟩
  else ⟨v.x, v.y⟩

/-- The normal of the face that `glc::triangulateMeshPoly` computes from the
first three vertices (the lines "Compute face normal"). -/
def faceNormal (originVectors : List GLC_Vector4d) : Except Fault GLC_Vector4d :=
  andThen (elemAt originVectors 0) fun vect1 =>
  andThen (elemAt originVectors 1) fun vect2 =>
  andThen (elemAt originVectors 2) fun vect3 =>
  let edge1 := GLC_Vector4d.sub vect2 vect1
  let edge2 := GLC_Vector4d.sub vect3 vect2
  GLC_Vector4d.setNormal (GLC_Vector4d.cross edge1 edge2)

/-- The 2D polygon that `glc::triangulateMeshPoly` builds from the face `face`
of the mesh read through `getVertex`: the vertices of the face, the change of
frame to the plane of the polygon, and the projection (the code up to the
call of `triangulate`). -/
def triangulateMeshPolyPolygon (getVertex : Int → GLC_Vector4d) (face : List Int) :
    Except Fault (List GLC_Vector2d) :=
  let originVectors := face.map getVertex
  andThen (faceNormal originVectors) fun polygonPlaneNormal =>
  let rotationAxis := GLC_Vector4d.cross polygonPlaneNormal AxeZ
  let frame : GLC_Vector4d × GLC_Vector4d :=
    if GLC_Vector4d.isNull rotationAxis then
      let rotationAxis := GLC_Vector4d.cross polygonPlaneNormal AxeX
      if GLC_Vector4d.isNull rotationAxis then
        (GLC_Vector4d.cross polygonPlaneNormal AxeY, AxeY)
      else (rotationAxis, AxeX)
    else (rotationAxis, AxeZ)
  let rotationAxis := frame.1
  let refNormal := frame.2
  let cosAngle := GLC_Vector4d.dot polygonPlaneNormal refNormal
  .ok (originVectors.map fun v =>
    GLC_Vector4d.toVector2d (rotate rotationAxis cosAngle v) refNormal)

/-- A mesh whose vertex `i` is the `i`-th point of a list of 3D points. -/
def listMesh (points : List GLC_Vector4d) (i : Int) : GLC_Vector4d :=
  points.getD i.toNat ⟨0, 0, 0⟩

/-! ### The segment functions with every operation rounded

The definitions above read a `double` as the exact rational it stands for.
The definitions below keep the rounding: every arithmetic operation of the
source is followed by `fl`, the map from the exact result to the `double` that
is stored.  With `fl = id` they are the definitions above; with
`fl = roundDouble` they are the IEEE 754 binary64 arithmetic, rounded to
nearest with ties to even and with gradual underflow, on values that stay
finite.  Comparisons, `fmin` and `fmax` are exact in both. -/

/-- The power `2 ^ e` of two, as a rational number. -/
def pow2 (e : Int) : ℚ :=
  if 0 ≤ e then ((2 ^ e.toNat : Nat) : ℚ) else 1 / ((2 ^ (-e).toNat : Nat) : ℚ)

/-- Halving `n` until it is below two, at most `fuel` times; the count. -/
def log2Aux : Nat → Nat → Nat
  | 0, _ => 0
  | fuel + 1, n => if n < 2 then 0 else log2Aux fuel (n / 2) + 1

/-- The binary exponent of a natural number `n ≥ 1`: the `k` with
`2 ^ k ≤ n < 2 ^ (k + 1)`. -/
def log2Nat (n : Nat) : Nat := log2Aux n n

/-- The binary exponent of a positive rational `a`: the `e` with
`2 ^ e ≤ a < 2 ^ (e + 1)`.  The difference of the exponents of numerator and
denominator is `e` or `e + 1`. -/
def floorLog2 (a : ℚ) : Int :=
  let e0 : Int := (log2Nat a.num.natAbs : Int) - (log2Nat a.den : Int)
  if pow2 e0 ≤ a then e0 else e0 - 1

/-- The integer nearest to a rational `m ≥ 0`, the even one of the two when
`m` lies halfway. -/
def roundHalfEven (m : ℚ) : Nat :=
  let f : Nat := m.num.toNat / m.den
  let r : ℚ := m - (f : ℚ)
  if r < 1 / 2 then f
  else if 1 / 2 < r then f + 1
  else if f % 2 = 0 then f else f + 1

/-- The `double` (IEEE 754 binary64: 53 significant bits, least exponent
`-1022`, subnormal numbers) nearest to the rational `q`, ties to even.  The
exponent is not bounded from above: a result beyond the largest `double` is
kept as a rational instead of becoming an infinity. -/
def roundDouble (q : ℚ) : ℚ :=
  if q = 0 then 0
  else
    let a : ℚ := if q < 0 then -q else q
    let e : Int := max (floorLog2 a) (-1022)
    let quantum : ℚ := pow2 (e - 52)
    let n : Nat := roundHalfEven (a / quantum)
    if q < 0 then -((n : ℚ) * quantum) else (n : ℚ) * quantum

/-- Modelled from the spec: `operator+` of `GLC_Vector2d`, each coordinate
rounded by `fl`. -/
def addFl (fl : ℚ → ℚ) (a b : GLC_Vector2d) : GLC_Vector2d :=
  ⟨fl (a.x + b.x), fl (a.y + b.y)⟩

/-- Modelled from the spec: `operator-` of `GLC_Vector2d`, each coordinate
rounded by `fl`. -/
def subFl (fl : ℚ → ℚ) (a b : GLC_Vector2d) : GLC_Vector2d :=
  ⟨fl (a.x - b.x), fl (a.y - b.y)⟩

/-- Modelled from the spec: `operator*` of a `GLC_Vector2d` and a scalar, each
coordinate rounded by `fl`. -/
def scaleFl (fl : ℚ → ℚ) (a : GLC_Vector2d) (s : ℚ) : GLC_Vector2d :=
  ⟨fl (a.x * s), fl (a.y * s)⟩

/-- Modelled from the spec: the dot product `operator*`, the two products and
their sum rounded by `fl`. -/
def dotFl (fl : ℚ → ℚ) (a b : GLC_Vector2d) : ℚ :=
  fl (fl (a.x * b.x) + fl (a.y * b.y))

/-- Modelled from the spec: the scalar cross product `operator^`, the two
products and their difference rounded by `fl`. -/
def crossFl (fl : ℚ → ℚ) (a b : GLC_Vector2d) : ℚ :=
  fl (fl (a.x * b.y) - fl (a.y * b.x))

/-- The expression `v.getX() * v.getX() + v.getY() * v.getY()` of the source,
the two products and their sum rounded by `fl`. -/
def sqrLenFl (fl : ℚ → ℚ) (v : GLC_Vector2d) : ℚ :=
  fl (fl (v.x * v.x) + fl (v.y * v.y))

/-- The quotient `a / b` rounded by `fl`; a zero divisor is kept as a fault,
as in `divide`. -/
def divideFl (fl : ℚ → ℚ) (a b : ℚ) : Except Fault ℚ :=
  if b = 0 then .error .divideByZero else .ok (fl (a / b))

/-- The point-returning `glc::findIntersection` with every operation rounded by
`fl`. -/
def findIntersectionFl (fl : ℚ → ℚ) (EPSILON : ℚ) (s1p1 s1p2 s2p1 s2p2 : GLC_Vector2d) :
    Except Fault (List GLC_Vector2d) :=
  let D0 := subFl fl s1p2 s1p1
  let D1 := subFl fl s2p2 s2p1
  let E := subFl fl s2p1 s1p1
  let kross := crossFl fl D0 D1
  let sqrKross := fl (kross * kross)
  let sqrLen0 := sqrLenFl fl D0
  let sqrLen1 := sqrLenFl fl D1
  if sqrKross > fl (fl (EPSILON * sqrLen0) * sqrLen1) then
    andThen (divideFl fl (crossFl fl E D1) kross) fun s =>
    if s < 0 ∨ s > 1 then .ok []
    else
      andThen (divideFl fl (crossFl fl E D0) kross) fun t =>
      if t < 0 ∨ t > 1 then .ok []
      else .ok [addFl fl s1p1 (scaleFl fl D0 s)]
  else
    let sqrLenE := sqrLenFl fl E
    let kross := crossFl fl E D0
    let sqrKross := fl (kross * kross)
    if sqrKross > fl (fl (EPSILON * sqrLen0) * sqrLenE) then .ok []
    else
      andThen (divideFl fl (dotFl fl D0 E) sqrLen0) fun s0 =>
      andThen (divideFl fl (dotFl fl D0 D1) sqrLen0) fun s1 =>
      let sMin := min s0 s1
      let sMax := max s0 s1
      andThen (findIntersectionInterval 0 1 sMin sMax) fun overlaps =>
      .ok (overlaps.map fun o => addFl fl s1p1 (scaleFl fl D0 o))

/-- The function `glc::isIntersected` with every operation rounded by `fl`. -/
def isIntersectedFl (fl : ℚ → ℚ) (EPSILON : ℚ) (s1p1 s1p2 s2p1 s2p2 : GLC_Vector2d) :
    Except Fault Bool :=
  let D0 := subFl fl s1p2 s1p1
  let D1 := subFl fl s2p2 s2p1
  let E := subFl fl s2p1 s1p1
  let kross := crossFl fl D0 D1
  let sqrKross := fl (kross * kross)
  let sqrLen0 := sqrLenFl fl D0
  let sqrLen1 := sqrLenFl fl D1
  if sqrKross > fl (fl (EPSILON * sqrLen0) * sqrLen1) then
    andThen (divideFl fl (crossFl fl E D1) kross) fun s =>
    if s < 0 ∨ s > 1 then .ok false
    else
      andThen (divideFl fl (crossFl fl E D0) kross) fun t =>
      if t < 0 ∨ t > 1 then .ok false
      else .ok true
  else
    let sqrLenE := sqrLenFl fl E
    let kross := crossFl fl E D0
    let sqrKross := fl (kross * kross)
    if sqrKross > fl (fl (EPSILON * sqrLen0) * sqrLenE) then .ok false
    else
      andThen (divideFl fl (dotFl fl D0 E) sqrLen0) fun s0 =>
      andThen (divideFl fl (dotFl fl D0 D1) sqrLen0) fun d =>
      let s1 := fl (s0 + d)
      let sMin := min s0 s1
      let sMax := max s0 s1
      andThen (findIntersectionInterval 0 1 sMin sMax) fun overlaps =>
      if overlaps.length = 0 then .ok false else .ok true

/-- The non-parallel test `sqrKross > EPSILON * sqrLen0 * sqrLen1` of the two
segment functions, as computed with the rounding `fl`. -/
def NonParallelFl (fl : ℚ → ℚ) (EPSILON : ℚ) (s1p1 s1p2 s2p1 s2p2 : GLC_Vector2d) : Prop :=
  fl (crossFl fl (subFl fl s1p2 s1p1) (subFl fl s2p2 s2p1)
      * crossFl fl (subFl fl s1p2 s1p1) (subFl fl s2p2 s2p1))
    > fl (fl (EPSILON * sqrLenFl fl (subFl fl s1p2 s1p1)) * sqrLenFl fl (subFl fl s2p2 s2p1))
/-- The polygon is strictly convex and listed clockwise: every three vertices
taken in the order of the list turn clockwise,
`(p_j - p_i) ^ (p_k - p_i) < 0` for all `i < j < k`. -/
def StrictlyConvexClockwise (polygon : List GLC_Vector2d) : Prop :=
  ∀ i j k, i < j → j < k → k < polygon.length →
    cross (sub (pointAt polygon j) (pointAt polygon i))
      (sub (pointAt polygon k) (pointAt polygon i)) < 0

/-- Seen from the first vertex `p_0`, the other vertices follow one another
clockwise: `(p_j - p_0) ^ (p_k - p_0) < 0` for all `1 ≤ j < k`.  A strictly
convex polygon listed clockwise is such a polygon. -/
def ClockwiseFromFirst (polygon : List GLC_Vector2d) : Prop :=
  ∀ j k, 1 ≤ j → j < k → k < polygon.length →
    cross (sub (pointAt polygon j) (pointAt polygon 0))
      (sub (pointAt polygon k) (pointAt polygon 0)) < 0

/-- No vertex `p_v` is within the tolerance of the line of a diagonal
`p_0 p_u` that comes two positions or more before it: the test
"the lines are different" of the segment functions passes for the segment
from `p_0` to `p_u` and the point `p_v`, for all `2 ≤ u` and `u + 2 ≤ v`.
A polygon of three or four vertices has no such pair. -/
def ClearOfDiagonals (EPSILON : ℚ) (polygon : List GLC_Vector2d) : Prop :=
  ∀ u v, 2 ≤ u → u + 2 ≤ v → v < polygon.length →
    DistinctLines EPSILON (pointAt polygon 0) (pointAt polygon u) (pointAt polygon v)

end glc

namespace glc

open GLC_Vector2d

/-! ## Interval intersection -/

/-- C10: for `u0 < u1` and `v0 < v1` the interval `findIntersection` returns
the empty list exactly when the closed intervals are disjoint, the one value
`u1` when `u1 = v0`, the one value `u0` when `u0 = v1`, and otherwise the two
values `max u0 v0`, `min u1 v1` in that order, the first strictly below the
second. -/
theorem findIntersectionInterval_cases (u0 u1 v0 v1 : ℚ) (hu : u0 < u1) (hv : v0 < v1) :
    (findIntersectionInterval u0 u1 v0 v1 = .ok [] ↔ (u1 < v0 ∨ u0 > v1)) ∧
    (u1 = v0 → findIntersectionInterval u0 u1 v0 v1 = .ok [u1]) ∧
    (u0 = v1 → findIntersectionInterval u0 u1 v0 v1 = .ok [u0]) ∧
    (¬ (u1 < v0 ∨ u0 > v1) → u1 ≠ v0 → u0 ≠ v1 →
      findIntersectionInterval u0 u1 v0 v1 = .ok [max u0 v0, min u1 v1] ∧
        max u0 v0 < min u1 v1) := by
  have hpre : ¬ ¬ (u0 < u1 ∧ v0 < v1) := not_not.mpr ⟨hu, hv⟩
  refine ⟨?_, ?_, ?_, ?_⟩
  · constructor
    · intro h
      by_contra hd
      unfold findIntersectionInterval at h
      rw [if_neg hpre, if_neg hd] at h
      split_ifs at h <;> simp at h
    · intro hd
      unfold findIntersectionInterval
      rw [if_neg hpre, if_pos hd]
  · intro h
    subst h
    unfold findIntersectionInterval
    rw [if_neg hpre, if_neg (by push_neg; exact ⟨le_refl _, by linarith⟩),
      if_neg (lt_irrefl _)]
  · intro h
    subst h
    unfold findIntersectionInterval
    rw [if_neg hpre, if_neg (by push_neg; exact ⟨by linarith, le_refl _⟩),
      if_pos (by linarith), if_neg (lt_irrefl _)]
  · intro hd h1 h2
    push_neg at hd
    have a1 : v0 < u1 := lt_of_le_of_ne hd.1 (Ne.symm h1)
    have a2 : u0 < v1 := lt_of_le_of_ne hd.2 h2
    constructor
    · unfold findIntersectionInterval
      rw [if_neg hpre, if_neg (by push_neg; exact hd), if_pos a1, if_pos a2]
      congr 2
      · by_cases c : u0 < v0
        · rw [if_pos c, max_eq_right (le_of_lt c)]
        · rw [if_neg c, max_eq_left (not_lt.mp c)]
      · congr 1
        by_cases c : u1 > v1
        · rw [if_pos c, min_eq_right (le_of_lt c)]
        · rw [if_neg c, min_eq_left (not_lt.mp c)]
    · exact lt_min (max_lt hu a1) (max_lt a2 hv)

/-- Witness of C10 on the intervals `[0, 1]` and `[1/2, 2]`. -/
theorem findIntersectionInterval_cases_witness :
    ((0 : ℚ) < 1 ∧ (1 / 2 : ℚ) < 2) ∧
    ((findIntersectionInterval 0 1 (1 / 2) 2 = .ok [] ↔ ((1 : ℚ) < 1 / 2 ∨ (0 : ℚ) > 2)) ∧
    ((1 : ℚ) = 1 / 2 → findIntersectionInterval 0 1 (1 / 2) 2 = .ok [1]) ∧
    ((0 : ℚ) = 2 → findIntersectionInterval 0 1 (1 / 2) 2 = .ok [0]) ∧
    (¬ ((1 : ℚ) < 1 / 2 ∨ (0 : ℚ) > 2) → (1 : ℚ) ≠ 1 / 2 → (0 : ℚ) ≠ 2 →
      findIntersectionInterval 0 1 (1 / 2) 2 = .ok [max 0 (1 / 2), min 1 2] ∧
        max (0 : ℚ) (1 / 2) < min 1 2)) :=
  ⟨by norm_num, findIntersectionInterval_cases 0 1 (1 / 2) 2 (by norm_num) (by norm_num)⟩

/-! ## Triangulation of a triangle -/

/-- C3: on a polygon of exactly three vertices with the index list `[a, b, c]`,
`triangulate` appends the one triple `a, b, c` to `tList` and leaves `polygon`
and `index` as they are, whatever the coordinates and the tolerance. -/
theorem triangulate_three (EPSILON : ℚ) (polygon : List GLC_Vector2d) (a b c : Int)
    (tList : List Int) (h : polygon.length = 3) :
    triangulate EPSILON polygon [a, b, c] tList
      = .ok ⟨polygon, [a, b, c], tList ++ [a, b, c]⟩ := by
  unfold triangulate triangulateAux
  rw [if_pos h]
  rfl

/-- Witness of C3 on the triangle `(0,0), (1,0), (0,1)`. -/
theorem triangulate_three_witness :
    ([(⟨0, 0⟩ : GLC_Vector2d), ⟨1, 0⟩, ⟨0, 1⟩].length = 3) ∧
    triangulate 0 [⟨0, 0⟩, ⟨1, 0⟩, ⟨0, 1⟩] [5, 6, 7] [9]
      = .ok ⟨[⟨0, 0⟩, ⟨1, 0⟩, ⟨0, 1⟩], [5, 6, 7], [9] ++ [5, 6, 7]⟩ :=
  ⟨rfl, triangulate_three 0 [⟨0, 0⟩, ⟨1, 0⟩, ⟨0, 1⟩] 5 6 7 [9] rfl⟩

/-! ## Segment intersection, lines not parallel -/

/-- The squared length of a vector is not negative. -/
theorem sqrLen_nonneg (v : GLC_Vector2d) : 0 ≤ sqrLen v := by
  unfold sqrLen
  nlinarith [mul_self_nonneg v.x, mul_self_nonneg v.y]

/-- Past the first test the divisor `kross` is not zero. -/
theorem kross_ne_zero_of_nonParallel {EPSILON : ℚ} {a b c d : GLC_Vector2d}
    (h0 : 0 ≤ EPSILON) (hnp : NonParallel EPSILON a b c d) :
    cross (sub b a) (sub d c) ≠ 0 := by
  intro hk
  unfold NonParallel at hnp
  rw [hk] at hnp
  have h1 := mul_nonneg (mul_nonneg h0 (sqrLen_nonneg (sub b a))) (sqrLen_nonneg (sub d c))
  linarith

/-- Past the first test, `findIntersection` is the test of the two line
parameters `s` and `t` against `[0, 1]`. -/
theorem findIntersection_eq_of_nonParallel {EPSILON : ℚ} {a b c d : GLC_Vector2d}
    (h0 : 0 ≤ EPSILON) (hnp : NonParallel EPSILON a b c d) :
    findIntersection EPSILON a b c d =
      if cross (sub c a) (sub d c) / cross (sub b a) (sub d c) < 0 ∨
          cross (sub c a) (sub d c) / cross (sub b a) (sub d c) > 1 then .ok []
      else if cross (sub c a) (sub b a) / cross (sub b a) (sub d c) < 0 ∨
          cross (sub c a) (sub b a) / cross (sub b a) (sub d c) > 1 then .ok []
      else .ok [add a (scale (sub b a)
        (cross (sub c a) (sub d c) / cross (sub b a) (sub d c)))] := by
  have hk := kross_ne_zero_of_nonParallel h0 hnp
  unfold NonParallel sqrLen at hnp
  unfold findIntersection
  simp only [if_pos hnp, divide, if_neg hk, andThen]

/-- Two points given by parameters on two lines that are not parallel are the
same point only at the parameters `s` and `t` that the code computes. -/
theorem params_of_common_point {a b c d : GLC_Vector2d} {l1 l2 : ℚ}
    (hk : cross (sub b a) (sub d c) ≠ 0)
    (h : add a (scale (sub b a) l1) = add c (scale (sub d c) l2)) :
    l1 = cross (sub c a) (sub d c) / cross (sub b a) (sub d c) ∧
    l2 = cross (sub c a) (sub b a) / cross (sub b a) (sub d c) := by
  obtain ⟨ax, ay⟩ := a
  obtain ⟨bx, by1⟩ := b
  obtain ⟨cx, cy⟩ := c
  obtain ⟨dx, dy⟩ := d
  simp only [add, scale, sub, cross, GLC_Vector2d.mk.injEq] at h hk ⊢
  obtain ⟨hx, hy⟩ := h
  constructor
  · rw [eq_div_iff hk]
    linear_combination (dy - cy) * hx - (dx - cx) * hy
  · rw [eq_div_iff hk]
    linear_combination (by1 - ay) * hx - (bx - ax) * hy

/-- The two parameters `s` and `t` that the code computes give the same point
on the two lines. -/
theorem point_of_params {a b c d : GLC_Vector2d}
    (hk : cross (sub b a) (sub d c) ≠ 0) :
    add a (scale (sub b a) (cross (sub c a) (sub d c) / cross (sub b a) (sub d c))) =
    add c (scale (sub d c) (cross (sub c a) (sub b a) / cross (sub b a) (sub d c))) := by
  obtain ⟨ax, ay⟩ := a
  obtain ⟨bx, by1⟩ := b
  obtain ⟨cx, cy⟩ := c
  obtain ⟨dx, dy⟩ := d
  simp only [add, scale, sub, cross, GLC_Vector2d.mk.injEq] at hk ⊢
  constructor
  · field_simp
    ring
  · field_simp
    ring

/-- C4: for two segments that pass the non-parallel test, with a tolerance that
is not negative, the point-returning `findIntersection` returns exactly one
point when the closed segments have a common point, and that point lies on
both segments and is their only common point; it returns no point when they
have none. -/
theorem findIntersection_nonParallel (EPSILON : ℚ) (s1p1 s1p2 s2p1 s2p2 : GLC_Vector2d)
    (h0 : 0 ≤ EPSILON) (hnp : NonParallel EPSILON s1p1 s1p2 s2p1 s2p2) :
    (Meet s1p1 s1p2 s2p1 s2p2 →
      ∃ P, findIntersection EPSILON s1p1 s1p2 s2p1 s2p2 = .ok [P] ∧
        OnSegment P s1p1 s1p2 ∧ OnSegment P s2p1 s2p2 ∧
        ∀ Q, OnSegment Q s1p1 s1p2 → OnSegment Q s2p1 s2p2 → Q = P) ∧
    (¬ Meet s1p1 s1p2 s2p1 s2p2 →
      findIntersection EPSILON s1p1 s1p2 s2p1 s2p2 = .ok []) := by
  have hk := kross_ne_zero_of_nonParallel h0 hnp
  have heq := findIntersection_eq_of_nonParallel h0 hnp
  have huniq : ∀ Q, OnSegment Q s1p1 s1p2 → OnSegment Q s2p1 s2p2 →
      (0 ≤ cross (sub s2p1 s1p1) (sub s2p2 s2p1) / cross (sub s1p2 s1p1) (sub s2p2 s2p1) ∧
        cross (sub s2p1 s1p1) (sub s2p2 s2p1) / cross (sub s1p2 s1p1) (sub s2p2 s2p1) ≤ 1) ∧
      (0 ≤ cross (sub s2p1 s1p1) (sub s1p2 s1p1) / cross (sub s1p2 s1p1) (sub s2p2 s2p1) ∧
        cross (sub s2p1 s1p1) (sub s1p2 s1p1) / cross (sub s1p2 s1p1) (sub s2p2 s2p1) ≤ 1) ∧
      Q = add s1p1 (scale (sub s1p2 s1p1)
        (cross (sub s2p1 s1p1) (sub s2p2 s2p1) / cross (sub s1p2 s1p1) (sub s2p2 s2p1))) := by
    rintro Q ⟨l1, h1a, h1b, hQ1⟩ ⟨l2, h2a, h2b, hQ2⟩
    obtain ⟨e1, e2⟩ := params_of_common_point hk (hQ1.symm.trans hQ2)
    rw [← e1, ← e2]
    exact ⟨⟨h1a, h1b⟩, ⟨h2a, h2b⟩, hQ1⟩
  constructor
  · rintro ⟨Q, hQ1, hQ2⟩
    obtain ⟨⟨hs0, hs1⟩, ⟨ht0, ht1⟩, -⟩ := huniq Q hQ1 hQ2
    refine ⟨_, ?_, ⟨_, hs0, hs1, rfl⟩, ⟨_, ht0, ht1, point_of_params hk⟩, ?_⟩
    · rw [heq, if_neg (by push_neg; exact ⟨hs0, hs1⟩), if_neg (by push_neg; exact ⟨ht0, ht1⟩)]
    · intro Q2 h1 h2
      exact (huniq Q2 h1 h2).2.2
  · intro hno
    rw [heq]
    by_cases hs : cross (sub s2p1 s1p1) (sub s2p2 s2p1) / cross (sub s1p2 s1p1) (sub s2p2 s2p1) < 0 ∨
        cross (sub s2p1 s1p1) (sub s2p2 s2p1) / cross (sub s1p2 s1p1) (sub s2p2 s2p1) > 1
    · rw [if_pos hs]
    · rw [if_neg hs]
      by_cases ht : cross (sub s2p1 s1p1) (sub s1p2 s1p1) / cross (sub s1p2 s1p1) (sub s2p2 s2p1) < 0 ∨
          cross (sub s2p1 s1p1) (sub s1p2 s1p1) / cross (sub s1p2 s1p1) (sub s2p2 s2p1) > 1
      · rw [if_pos ht]
      · exfalso
        push_neg at hs ht
        exact hno ⟨_, ⟨_, hs.1, hs.2, rfl⟩, ⟨_, ht.1, ht.2, point_of_params hk⟩⟩

/-- Witness of C4 on the crossing segments `(0,0)-(2,2)` and `(0,2)-(2,0)`,
which meet in `(1,1)`. -/
theorem findIntersection_nonParallel_witness :
    ((0 : ℚ) ≤ 1 / 10000000000 ∧
      NonParallel (1 / 10000000000) ⟨0, 0⟩ ⟨2, 2⟩ ⟨0, 2⟩ ⟨2, 0⟩ ∧
      Meet ⟨0, 0⟩ ⟨2, 2⟩ ⟨0, 2⟩ ⟨2, 0⟩ ∧
      findIntersection (1 / 10000000000) ⟨0, 0⟩ ⟨2, 2⟩ ⟨0, 2⟩ ⟨2, 0⟩ = .ok [⟨1, 1⟩]) ∧
    ((Meet ⟨0, 0⟩ ⟨2, 2⟩ ⟨0, 2⟩ ⟨2, 0⟩ →
      ∃ P, findIntersection (1 / 10000000000) ⟨0, 0⟩ ⟨2, 2⟩ ⟨0, 2⟩ ⟨2, 0⟩ = .ok [P] ∧
        OnSegment P ⟨0, 0⟩ ⟨2, 2⟩ ∧ OnSegment P ⟨0, 2⟩ ⟨2, 0⟩ ∧
        ∀ Q, OnSegment Q ⟨0, 0⟩ ⟨2, 2⟩ → OnSegment Q ⟨0, 2⟩ ⟨2, 0⟩ → Q = P) ∧
    (¬ Meet ⟨0, 0⟩ ⟨2, 2⟩ ⟨0, 2⟩ ⟨2, 0⟩ →
      findIntersection (1 / 10000000000) ⟨0, 0⟩ ⟨2, 2⟩ ⟨0, 2⟩ ⟨2, 0⟩ = .ok [])) :=
  ⟨⟨by norm_num, by norm_num [NonParallel, sqrLen, cross, sub],
      ⟨⟨1, 1⟩, ⟨1 / 2, by norm_num, by norm_num, by norm_num [add, scale, sub]⟩,
        ⟨1 / 2, by norm_num, by norm_num, by norm_num [add, scale, sub]⟩⟩,
      by decide!⟩,
    findIntersection_nonParallel (1 / 10000000000) ⟨0, 0⟩ ⟨2, 2⟩ ⟨0, 2⟩ ⟨2, 0⟩
      (by norm_num) (by norm_num [NonParallel, sqrLen, cross, sub])⟩

/-! ## Segment intersection, parallel lines -/

/-- C5: on the collinear segments `(1,0)-(3,0)` and `(0,0)-(2,0)`, whose common
part is the segment `(1,0)-(2,0)`, the point-returning `findIntersection`
returns `(1,0)` and `(3,0)`: it takes `s1 = (D0 * D1) / sqrLen0` where
`isIntersected` takes `s0 + (D0 * D1) / sqrLen0`, and `(3,0)` is not on the
second segment. -/
theorem findIntersection_collinear_overlap_wrong :
    findIntersection (1 / 10000000000) ⟨1, 0⟩ ⟨3, 0⟩ ⟨0, 0⟩ ⟨2, 0⟩
      = .ok [⟨1, 0⟩, ⟨3, 0⟩] ∧
    ¬ OnSegment ⟨3, 0⟩ ⟨0, 0⟩ ⟨2, 0⟩ ∧
    (∀ P, (OnSegment P ⟨1, 0⟩ ⟨3, 0⟩ ∧ OnSegment P ⟨0, 0⟩ ⟨2, 0⟩) ↔
      OnSegment P ⟨1, 0⟩ ⟨2, 0⟩) := by
  refine ⟨by decide!, ?_, ?_⟩
  · rintro ⟨l, h0, h1, h⟩
    simp only [add, scale, sub, GLC_Vector2d.mk.injEq] at h
    linarith [h.1]
  · intro P
    obtain ⟨px, py⟩ := P
    constructor
    · rintro ⟨⟨l, hl0, hl1, hl⟩, ⟨m, hm0, hm1, hm⟩⟩
      simp only [add, scale, sub, GLC_Vector2d.mk.injEq] at hl hm
      refine ⟨px - 1, by linarith [hl.1], by linarith [hm.1], ?_⟩
      simp only [add, scale, sub, GLC_Vector2d.mk.injEq]
      exact ⟨by ring, by linarith [hl.2]⟩
    · rintro ⟨n, hn0, hn1, hn⟩
      simp only [add, scale, sub, GLC_Vector2d.mk.injEq] at hn
      refine ⟨⟨(px - 1) / 2, by linarith [hn.1], by linarith [hn.1], ?_⟩,
        ⟨px / 2, by linarith [hn.1], by linarith [hn.1], ?_⟩⟩
      · simp only [add, scale, sub, GLC_Vector2d.mk.injEq]
        exact ⟨by ring, by linarith [hn.2]⟩
      · simp only [add, scale, sub, GLC_Vector2d.mk.injEq]
        exact ⟨by ring, by linarith [hn.2]⟩

/-- C7: on the collinear, disjoint segments `(0,0)-(1,0)` and `(2,0)-(3,0)`
`isIntersected` returns false while the point-returning `findIntersection`
returns the point `(1,0)`. -/
theorem isIntersected_findIntersection_differ :
    isIntersected (1 / 10000000000) ⟨0, 0⟩ ⟨1, 0⟩ ⟨2, 0⟩ ⟨3, 0⟩ = .ok false ∧
    findIntersection (1 / 10000000000) ⟨0, 0⟩ ⟨1, 0⟩ ⟨2, 0⟩ ⟨3, 0⟩ = .ok [⟨1, 0⟩] ∧
    ¬ Meet ⟨0, 0⟩ ⟨1, 0⟩ ⟨2, 0⟩ ⟨3, 0⟩ := by
  refine ⟨by decide!, by decide!, ?_⟩
  rintro ⟨P, ⟨l, hl0, hl1, hl⟩, ⟨m, hm0, hm1, hm⟩⟩
  obtain ⟨px, py⟩ := P
  simp only [add, scale, sub, GLC_Vector2d.mk.injEq] at hl hm
  linarith [hl.1, hm.1]

/-- C8, as the code has it: two segments with exactly parallel directions
(`D0 ^ D1 = 0`) whose offset passes the distinct-lines test
`(E ^ D0)^2 > EPSILON * sqrLen0 * sqrLenE`, for a tolerance that is not
negative, have no intersection point: `findIntersection` returns the empty
list and `isIntersected` returns false. -/
theorem parallel_distinct_no_intersection (EPSILON : ℚ) (s1p1 s1p2 s2p1 s2p2 : GLC_Vector2d)
    (h0 : 0 ≤ EPSILON) (hpar : cross (sub s1p2 s1p1) (sub s2p2 s2p1) = 0)
    (hdist : DistinctLines EPSILON s1p1 s1p2 s2p1) :
    findIntersection EPSILON s1p1 s1p2 s2p1 s2p2 = .ok [] ∧
    isIntersected EPSILON s1p1 s1p2 s2p1 s2p2 = .ok false := by
  have h1 := mul_nonneg (mul_nonneg h0 (sqrLen_nonneg (sub s1p2 s1p1)))
    (sqrLen_nonneg (sub s2p2 s2p1))
  have hnp : ¬ (cross (sub s1p2 s1p1) (sub s2p2 s2p1) * cross (sub s1p2 s1p1) (sub s2p2 s2p1)
      > EPSILON * ((sub s1p2 s1p1).x * (sub s1p2 s1p1).x + (sub s1p2 s1p1).y * (sub s1p2 s1p1).y)
        * ((sub s2p2 s2p1).x * (sub s2p2 s2p1).x + (sub s2p2 s2p1).y * (sub s2p2 s2p1).y)) := by
    rw [hpar]
    unfold sqrLen at h1
    linarith
  unfold DistinctLines sqrLen at hdist
  constructor
  · unfold findIntersection
    simp only [if_neg hnp, if_pos hdist]
  · unfold isIntersected
    simp only [if_neg hnp, if_pos hdist]

/-- Witness of C8 on the parallel segments `(0,0)-(1,0)` and `(0,5)-(1,5)`. -/
theorem parallel_distinct_no_intersection_witness :
    ((0 : ℚ) ≤ 1 / 10000000000 ∧
      cross (sub ⟨1, 0⟩ ⟨0, 0⟩) (sub ⟨1, 5⟩ ⟨0, 5⟩) = 0 ∧
      DistinctLines (1 / 10000000000) ⟨0, 0⟩ ⟨1, 0⟩ ⟨0, 5⟩) ∧
    (findIntersection (1 / 10000000000) ⟨0, 0⟩ ⟨1, 0⟩ ⟨0, 5⟩ ⟨1, 5⟩ = .ok [] ∧
      isIntersected (1 / 10000000000) ⟨0, 0⟩ ⟨1, 0⟩ ⟨0, 5⟩ ⟨1, 5⟩ = .ok false) :=
  ⟨⟨by norm_num, by norm_num [cross, sub], by norm_num [DistinctLines, sqrLen, cross, sub]⟩,
    parallel_distinct_no_intersection (1 / 10000000000) ⟨0, 0⟩ ⟨1, 0⟩ ⟨0, 5⟩ ⟨1, 5⟩
      (by norm_num) (by norm_num [cross, sub])
      (by norm_num [DistinctLines, sqrLen, cross, sub])⟩

/-- C8 as stated fails: the segments `(0,0)-(2000000,0)` and
`(1000000,1)-(1000001,1)` have nonzero length, exactly parallel directions and
lie on two distinct lines, yet with the tolerance `1e-10` the distinct-lines
test does not pass, `findIntersection` returns two points and `isIntersected`
returns true. -/
theorem parallel_distinct_intersection_reported :
    (⟨0, 0⟩ : GLC_Vector2d) ≠ ⟨2000000, 0⟩ ∧
    (⟨1000000, 1⟩ : GLC_Vector2d) ≠ ⟨1000001, 1⟩ ∧
    cross (sub ⟨2000000, 0⟩ ⟨0, 0⟩) (sub ⟨1000001, 1⟩ ⟨1000000, 1⟩) = 0 ∧
    cross (sub ⟨1000000, 1⟩ ⟨0, 0⟩) (sub ⟨2000000, 0⟩ ⟨0, 0⟩) ≠ 0 ∧
    findIntersection (1 / 10000000000) ⟨0, 0⟩ ⟨2000000, 0⟩ ⟨1000000, 1⟩ ⟨1000001, 1⟩
      = .ok [⟨1, 0⟩, ⟨1000000, 0⟩] ∧
    isIntersected (1 / 10000000000) ⟨0, 0⟩ ⟨2000000, 0⟩ ⟨1000000, 1⟩ ⟨1000001, 1⟩
      = .ok true := by
  refine ⟨by decide!, by decide!, by decide!, by decide!, by decide!, by decide!⟩

/-! ## `isIntersected` against the geometry -/

/-- A segment with two different ends has a squared length that is not zero. -/
theorem sqrLen_sub_ne_zero {a b : GLC_Vector2d} (hab : a ≠ b) : sqrLen (sub b a) ≠ 0 := by
  intro h
  apply hab
  obtain ⟨ax, ay⟩ := a
  obtain ⟨bx, by1⟩ := b
  simp only [sqrLen, sub] at h
  have hx : bx - ax = 0 := by nlinarith [mul_self_nonneg (bx - ax), mul_self_nonneg (by1 - ay)]
  have hy : by1 - ay = 0 := by nlinarith [mul_self_nonneg (bx - ax), mul_self_nonneg (by1 - ay)]
  rw [GLC_Vector2d.mk.injEq]
  exact ⟨by linarith, by linarith⟩

/-- A vector `v` parallel to a vector `u` that is not zero is `u` times the
projection parameter `(u * v) / |u|^2`. -/
theorem parallel_decompose (u v : GLC_Vector2d) (hu : sqrLen u ≠ 0) (h : cross v u = 0) :
    v.x = u.x * (dot u v / sqrLen u) ∧ v.y = u.y * (dot u v / sqrLen u) := by
  obtain ⟨ux, uy⟩ := u
  obtain ⟨vx, vy⟩ := v
  simp only [sqrLen, cross, dot] at hu h ⊢
  constructor
  · field_simp
    linear_combination uy * h
  · field_simp
    linear_combination (-ux) * h

/-- The identity of Lagrange in the plane: `(u ^ v)^2 + (u * v)^2 = |u|^2 |v|^2`. -/
theorem cross_sq_add_dot_sq (u v : GLC_Vector2d) :
    cross u v * cross u v + dot u v * dot u v = sqrLen u * sqrLen v := by
  simp only [cross, dot, sqrLen]
  ring

/-- Past the first test, `isIntersected` is the test of the two line parameters
`s` and `t` against `[0, 1]`. -/
theorem isIntersected_eq_of_nonParallel {EPSILON : ℚ} {a b c d : GLC_Vector2d}
    (h0 : 0 ≤ EPSILON) (hnp : NonParallel EPSILON a b c d) :
    isIntersected EPSILON a b c d =
      if cross (sub c a) (sub d c) / cross (sub b a) (sub d c) < 0 ∨
          cross (sub c a) (sub d c) / cross (sub b a) (sub d c) > 1 then .ok false
      else if cross (sub c a) (sub b a) / cross (sub b a) (sub d c) < 0 ∨
          cross (sub c a) (sub b a) / cross (sub b a) (sub d c) > 1 then .ok false
      else .ok true := by
  have hk := kross_ne_zero_of_nonParallel h0 hnp
  unfold NonParallel sqrLen at hnp
  unfold isIntersected
  simp only [if_pos hnp, divide, if_neg hk, andThen]

/-- Two segments on lines that are not parallel meet exactly when both line
parameters `s` and `t` are in `[0, 1]`. -/
theorem meet_iff_of_kross_ne_zero {a b c d : GLC_Vector2d}
    (hk : cross (sub b a) (sub d c) ≠ 0) :
    Meet a b c d ↔
      (0 ≤ cross (sub c a) (sub d c) / cross (sub b a) (sub d c) ∧
        cross (sub c a) (sub d c) / cross (sub b a) (sub d c) ≤ 1) ∧
      (0 ≤ cross (sub c a) (sub b a) / cross (sub b a) (sub d c) ∧
        cross (sub c a) (sub b a) / cross (sub b a) (sub d c) ≤ 1) := by
  constructor
  · rintro ⟨Q, ⟨l1, h1a, h1b, hQ1⟩, ⟨l2, h2a, h2b, hQ2⟩⟩
    obtain ⟨e1, e2⟩ := params_of_common_point hk (hQ1.symm.trans hQ2)
    rw [← e1, ← e2]
    exact ⟨⟨h1a, h1b⟩, ⟨h2a, h2b⟩⟩
  · rintro ⟨⟨hs0, hs1⟩, ⟨ht0, ht1⟩⟩
    exact ⟨_, ⟨_, hs0, hs1, rfl⟩, ⟨_, ht0, ht1, point_of_params hk⟩⟩

/-- In the collinear branch, with a first segment of nonzero length and a
second direction that is not orthogonal to the first, `isIntersected` is the
overlap test of `[0, 1]` and `[sMin, sMax]`. -/
theorem isIntersected_eq_of_collinear {EPSILON : ℚ} {a b c d : GLC_Vector2d}
    (hnp : ¬ NonParallel EPSILON a b c d) (hnd : ¬ DistinctLines EPSILON a b c)
    (hL : sqrLen (sub b a) ≠ 0) (hd : dot (sub b a) (sub d c) ≠ 0) :
    isIntersected EPSILON a b c d =
      .ok (decide
        (min (dot (sub b a) (sub c a) / sqrLen (sub b a))
            (dot (sub b a) (sub c a) / sqrLen (sub b a)
              + dot (sub b a) (sub d c) / sqrLen (sub b a)) ≤ 1 ∧
          0 ≤ max (dot (sub b a) (sub c a) / sqrLen (sub b a))
            (dot (sub b a) (sub c a) / sqrLen (sub b a)
              + dot (sub b a) (sub d c) / sqrLen (sub b a)))) := by
  have hdd : dot (sub b a) (sub d c) / sqrLen (sub b a) ≠ 0 := div_ne_zero hd hL
  unfold NonParallel sqrLen at hnp
  unfold DistinctLines sqrLen at hnd
  unfold sqrLen at hL hdd ⊢
  unfold isIntersected
  simp only [if_neg hnp, if_neg hnd, divide, if_neg hL, andThen]
  generalize dot (sub b a) (sub c a) / ((sub b a).x * (sub b a).x + (sub b a).y * (sub b a).y)
    = s0
  generalize dot (sub b a) (sub d c) / ((sub b a).x * (sub b a).x + (sub b a).y * (sub b a).y)
    = dd at hdd
  have hlt : min s0 (s0 + dd) < max s0 (s0 + dd) := by
    rcases lt_or_gt_of_ne hdd with h | h
    · rw [min_eq_right (by linarith), max_eq_left (by linarith)]
      linarith
    · rw [min_eq_left (by linarith), max_eq_right (by linarith)]
      linarith
  have hpre : ¬ ¬ ((0 : ℚ) < 1 ∧ min s0 (s0 + dd) < max s0 (s0 + dd)) :=
    not_not.mpr ⟨by norm_num, hlt⟩
  unfold findIntersectionInterval
  rw [if_neg hpre]
  by_cases hdis : (1 : ℚ) < min s0 (s0 + dd) ∨ (0 : ℚ) > max s0 (s0 + dd)
  · rw [if_pos hdis]
    have : ¬ (min s0 (s0 + dd) ≤ 1 ∧ 0 ≤ max s0 (s0 + dd)) := by
      rintro ⟨h1, h2⟩
      rcases hdis with h | h <;> linarith
    rw [decide_eq_false this]
    rfl
  · rw [if_neg hdis]
    have : min s0 (s0 + dd) ≤ 1 ∧ 0 ≤ max s0 (s0 + dd) := by
      push_neg at hdis
      exact hdis
    rw [decide_eq_true this]
    split_ifs <;> rfl

/-- Two collinear segments, the second given on the line of the first by the
parameters `s0` and `s0 + dd`, meet exactly when `[0, 1]` and the interval
between the two parameters overlap. -/
theorem meet_iff_of_params {a b c d : GLC_Vector2d} {s0 dd : ℚ} (hab : a ≠ b)
    (hE : (sub c a).x = (sub b a).x * s0 ∧ (sub c a).y = (sub b a).y * s0)
    (hD : (sub d c).x = (sub b a).x * dd ∧ (sub d c).y = (sub b a).y * dd)
    (hdd : dd ≠ 0) :
    Meet a b c d ↔ (min s0 (s0 + dd) ≤ 1 ∧ 0 ≤ max s0 (s0 + dd)) := by
  obtain ⟨ax, ay⟩ := a
  obtain ⟨bx, by1⟩ := b
  obtain ⟨cx, cy⟩ := c
  obtain ⟨dx, dy⟩ := d
  simp only [sub] at hE hD
  obtain ⟨hEx, hEy⟩ := hE
  obtain ⟨hDx, hDy⟩ := hD
  have hne : bx - ax ≠ 0 ∨ by1 - ay ≠ 0 := by
    by_contra hcon
    push_neg at hcon
    apply hab
    rw [GLC_Vector2d.mk.injEq]
    exact ⟨by linarith [hcon.1], by linarith [hcon.2]⟩
  rw [min_le_iff, le_max_iff]
  constructor
  · rintro ⟨P, ⟨l, hl0, hl1, hP1⟩, ⟨m, hm0, hm1, hP2⟩⟩
    have hPP := hP1.symm.trans hP2
    simp only [add, scale, sub, GLC_Vector2d.mk.injEq] at hPP
    obtain ⟨hx, hy⟩ := hPP
    have hl : l = s0 + dd * m := by
      rcases hne with h | h
      · have : (bx - ax) * (l - (s0 + dd * m)) = 0 := by
          linear_combination hx + hEx + m * hDx
        rcases mul_eq_zero.mp this with h2 | h2
        · exact absurd h2 h
        · linarith
      · have : (by1 - ay) * (l - (s0 + dd * m)) = 0 := by
          linear_combination hy + hEy + m * hDy
        rcases mul_eq_zero.mp this with h2 | h2
        · exact absurd h2 h
        · linarith
    rcases lt_or_gt_of_ne hdd with h | h
    · have e1 : dd ≤ dd * m := by nlinarith
      have e2 : dd * m ≤ 0 := by nlinarith
      exact ⟨Or.inr (by linarith), Or.inl (by linarith)⟩
    · have e1 : 0 ≤ dd * m := by nlinarith
      have e2 : dd * m ≤ dd := by nlinarith
      exact ⟨Or.inl (by linarith), Or.inr (by linarith)⟩
  · rintro ⟨hmin, hmax⟩
    -- the parameter of a common point on the first segment
    obtain ⟨l, hl0, hl1, hm0, hm1⟩ : ∃ l : ℚ, 0 ≤ l ∧ l ≤ 1 ∧
        0 ≤ (l - s0) / dd ∧ (l - s0) / dd ≤ 1 := by
      rcases lt_or_gt_of_ne hdd with h | h
      · have hs1 : s0 + dd ≤ 1 := by rcases hmin with h1 | h1 <;> linarith
        have hs0 : 0 ≤ s0 := by rcases hmax with h1 | h1 <;> linarith
        refine ⟨max 0 (s0 + dd), le_max_left _ _, max_le (by norm_num) hs1, ?_, ?_⟩
        · apply div_nonneg_of_nonpos _ (le_of_lt h)
          have : max 0 (s0 + dd) ≤ s0 := max_le hs0 (by linarith)
          linarith
        · rw [div_le_one_of_neg h]
          have : s0 + dd ≤ max 0 (s0 + dd) := le_max_right _ _
          linarith
      · have hs0 : s0 ≤ 1 := by rcases hmin with h1 | h1 <;> linarith
        have hs1 : 0 ≤ s0 + dd := by rcases hmax with h1 | h1 <;> linarith
        refine ⟨max 0 s0, le_max_left _ _, max_le (by norm_num) hs0, ?_, ?_⟩
        · apply div_nonneg _ (le_of_lt h)
          have : s0 ≤ max 0 s0 := le_max_right _ _
          linarith
        · rw [div_le_one h]
          have : max 0 s0 ≤ s0 + dd := max_le hs1 (by linarith)
          linarith
    refine ⟨_, ⟨l, hl0, hl1, rfl⟩, ⟨(l - s0) / dd, hm0, hm1, ?_⟩⟩
    have hmul : dd * ((l - s0) / dd) = l - s0 := mul_div_cancel₀ _ hdd
    simp only [add, scale, sub, GLC_Vector2d.mk.injEq]
    constructor
    · linear_combination (-1 : ℚ) * hEx - ((l - s0) / dd) * hDx - (bx - ax) * hmul
    · linear_combination (-1 : ℚ) * hEy - ((l - s0) / dd) * hDy - (by1 - ay) * hmul

/-- C9: for two segments of nonzero length that pass the non-parallel test, or
that are exactly collinear (`D0 ^ D1 = 0` and `E ^ D0 = 0`), and a tolerance
that is not negative, `isIntersected` returns true when the closed segments
have a common point and false when they have none. -/
theorem isIntersected_iff_meet (EPSILON : ℚ) (s1p1 s1p2 s2p1 s2p2 : GLC_Vector2d)
    (h0 : 0 ≤ EPSILON) (h1 : s1p1 ≠ s1p2) (h2 : s2p1 ≠ s2p2)
    (h : NonParallel EPSILON s1p1 s1p2 s2p1 s2p2 ∨
      (cross (sub s1p2 s1p1) (sub s2p2 s2p1) = 0 ∧
        cross (sub s2p1 s1p1) (sub s1p2 s1p1) = 0)) :
    (Meet s1p1 s1p2 s2p1 s2p2 → isIntersected EPSILON s1p1 s1p2 s2p1 s2p2 = .ok true) ∧
    (¬ Meet s1p1 s1p2 s2p1 s2p2 → isIntersected EPSILON s1p1 s1p2 s2p1 s2p2 = .ok false) := by
  rcases h with hnp | ⟨hpar, hcol⟩
  · have hk := kross_ne_zero_of_nonParallel h0 hnp
    rw [isIntersected_eq_of_nonParallel h0 hnp, meet_iff_of_kross_ne_zero hk]
    constructor
    · rintro ⟨⟨hs0, hs1⟩, ⟨ht0, ht1⟩⟩
      rw [if_neg (by push_neg; exact ⟨hs0, hs1⟩), if_neg (by push_neg; exact ⟨ht0, ht1⟩)]
    · intro hno
      split_ifs with hs ht
      · rfl
      · rfl
      · exfalso
        push_neg at hs ht
        exact hno ⟨hs, ht⟩
  · have hL0 := sqrLen_sub_ne_zero h1
    have hL1 := sqrLen_sub_ne_zero h2
    have hdot : dot (sub s1p2 s1p1) (sub s2p2 s2p1) ≠ 0 := by
      intro hz
      have hlag := cross_sq_add_dot_sq (sub s1p2 s1p1) (sub s2p2 s2p1)
      rw [hpar, hz] at hlag
      rcases mul_eq_zero.mp (by linarith : sqrLen (sub s1p2 s1p1) * sqrLen (sub s2p2 s2p1) = 0)
        with h3 | h3
      · exact hL0 h3
      · exact hL1 h3
    have hnp : ¬ NonParallel EPSILON s1p1 s1p2 s2p1 s2p2 := by
      unfold NonParallel
      rw [hpar]
      have := mul_nonneg (mul_nonneg h0 (sqrLen_nonneg (sub s1p2 s1p1)))
        (sqrLen_nonneg (sub s2p2 s2p1))
      linarith
    have hnd : ¬ DistinctLines EPSILON s1p1 s1p2 s2p1 := by
      unfold DistinctLines
      rw [hcol]
      have := mul_nonneg (mul_nonneg h0 (sqrLen_nonneg (sub s1p2 s1p1)))
        (sqrLen_nonneg (sub s2p1 s1p1))
      linarith
    have hpar2 : cross (sub s2p2 s2p1) (sub s1p2 s1p1) = 0 := by
      have : cross (sub s2p2 s2p1) (sub s1p2 s1p1)
          = - cross (sub s1p2 s1p1) (sub s2p2 s2p1) := by
        simp only [cross]
        ring
      rw [this, hpar, neg_zero]
    have hmeet := meet_iff_of_params h1
      (parallel_decompose (sub s1p2 s1p1) (sub s2p1 s1p1) hL0 hcol)
      (parallel_decompose (sub s1p2 s1p1) (sub s2p2 s2p1) hL0 hpar2)
      (div_ne_zero hdot hL0)
    rw [isIntersected_eq_of_collinear hnp hnd hL0 hdot, hmeet]
    constructor
    · intro hm
      rw [decide_eq_true hm]
    · intro hm
      rw [decide_eq_false hm]

/-- Witness of C9 on the collinear segments `(0,0)-(2,0)` and `(1,0)-(3,0)`,
which overlap. -/
theorem isIntersected_iff_meet_witness :
    ((0 : ℚ) ≤ 1 / 10000000000 ∧ (⟨0, 0⟩ : GLC_Vector2d) ≠ ⟨2, 0⟩ ∧
      (⟨1, 0⟩ : GLC_Vector2d) ≠ ⟨3, 0⟩ ∧
      (cross (sub ⟨2, 0⟩ ⟨0, 0⟩) (sub ⟨3, 0⟩ ⟨1, 0⟩) = 0 ∧
        cross (sub ⟨1, 0⟩ ⟨0, 0⟩) (sub ⟨2, 0⟩ ⟨0, 0⟩) = 0) ∧
      isIntersected (1 / 10000000000) ⟨0, 0⟩ ⟨2, 0⟩ ⟨1, 0⟩ ⟨3, 0⟩ = .ok true) ∧
    ((Meet ⟨0, 0⟩ ⟨2, 0⟩ ⟨1, 0⟩ ⟨3, 0⟩ →
        isIntersected (1 / 10000000000) ⟨0, 0⟩ ⟨2, 0⟩ ⟨1, 0⟩ ⟨3, 0⟩ = .ok true) ∧
      (¬ Meet ⟨0, 0⟩ ⟨2, 0⟩ ⟨1, 0⟩ ⟨3, 0⟩ →
        isIntersected (1 / 10000000000) ⟨0, 0⟩ ⟨2, 0⟩ ⟨1, 0⟩ ⟨3, 0⟩ = .ok false)) :=
  ⟨⟨by norm_num, by decide!, by decide!, ⟨by decide!, by decide!⟩, by decide!⟩,
    isIntersected_iff_meet (1 / 10000000000) ⟨0, 0⟩ ⟨2, 0⟩ ⟨1, 0⟩ ⟨3, 0⟩
      (by norm_num) (by decide!) (by decide!) (Or.inr ⟨by decide!, by decide!⟩)⟩

/-! ## Triangulation: the scan for an ear -/

/-- The truncating remainder steps like the index of a cyclic scan. -/
theorem tmod_tmod_succ (a : Int) (n : Nat) (ha : 0 ≤ a) (hpos : 0 < n) :
    Int.tmod (Int.tmod a n + 1) n = Int.tmod (a + 1) n := by
  have hn : (0 : Int) ≤ n := Int.natCast_nonneg n
  have hne : (n : Int) ≠ 0 := by omega
  have e1 : Int.tmod a n = a % n := Int.tmod_eq_emod ha hn
  have h1 : 0 ≤ a % (n : Int) := Int.emod_nonneg a hne
  have e2 : Int.tmod (a % n + 1) n = (a % n + 1) % n := Int.tmod_eq_emod (by omega) hn
  have e3 : Int.tmod (a + 1) n = (a + 1) % n := Int.tmod_eq_emod (by omega) hn
  rw [e1, e2, e3, Int.emod_add_emod]

/-- When `isDiagonal` is false at every position from `i0` on, the scan of
`triangulate` ends without an ear. -/
theorem triangulateLoop_none {EPSILON : ℚ} {polygon : List GLC_Vector2d} (k i0 : Nat)
    (i1 : Int) (hk : k + i0 = polygon.length)
    (h : ∀ j : Nat, i0 ≤ j → j < polygon.length →
      isDiagonal EPSILON polygon j (Int.tmod (j + 2) polygon.length) = .ok false) :
    triangulateLoop EPSILON polygon k i0 i1 (Int.tmod (i0 + 2) polygon.length) = .ok none := by
  induction k generalizing i0 i1 with
  | zero => rfl
  | succ k ih =>
    unfold triangulateLoop
    rw [h i0 le_rfl (by omega)]
    simp only [andThen, Bool.false_eq_true, if_false]
    rw [tmod_tmod_succ _ _ (by omega) (by omega)]
    have := ih (i0 + 1) (Int.tmod (i1 + 1) polygon.length) (by omega)
      (fun j hj hlt => h j (by omega) hlt)
    rw [Nat.cast_add, Nat.cast_one] at this
    rw [show ((i0 : Int) + 2 + 1) = (i0 : Int) + 1 + 2 by ring]
    exact this

/-- C2, as the code has it: on a polygon of more than three vertices in which
`isDiagonal(polygon, i0, (i0 + 2) mod n)` is false at every position `i0`,
`triangulate` returns normally and leaves `polygon`, `index` and `tList` as
they were: the failure is silent. -/
theorem triangulate_no_ear (EPSILON : ℚ) (polygon : List GLC_Vector2d)
    (index tList : List Int) (hn : 3 < polygon.length)
    (h : ∀ i0 : Nat, i0 < polygon.length →
      isDiagonal EPSILON polygon i0 (Int.tmod (i0 + 2) polygon.length) = .ok false) :
    triangulate EPSILON polygon index tList = .ok ⟨polygon, index, tList⟩ := by
  have h2 : (2 : Int) = Int.tmod ((0 : Nat) + 2) polygon.length := by
    rw [Int.tmod_eq_of_lt (by norm_num) (by push_cast; omega)]
    norm_num
  have hloop : triangulateLoop EPSILON polygon polygon.length 0 1 2 = .ok none := by
    have := @triangulateLoop_none EPSILON polygon polygon.length 0 1 (by omega)
      (fun j _ hlt => h j hlt)
    rw [← h2] at this
    exact this
  unfold triangulate triangulateAux
  rw [if_neg (by omega), hloop]
  rfl

/-- Witness of C2 as amended, on the square `(0,0), (1,0), (1,1), (0,1)`. -/
theorem triangulate_no_ear_witness :
    (3 < [(⟨0, 0⟩ : GLC_Vector2d), ⟨1, 0⟩, ⟨1, 1⟩, ⟨0, 1⟩].length ∧
      ∀ i0 : Nat, i0 < [(⟨0, 0⟩ : GLC_Vector2d), ⟨1, 0⟩, ⟨1, 1⟩, ⟨0, 1⟩].length →
        isDiagonal (1 / 10000000000) [⟨0, 0⟩, ⟨1, 0⟩, ⟨1, 1⟩, ⟨0, 1⟩] i0
          (Int.tmod (i0 + 2) [(⟨0, 0⟩ : GLC_Vector2d), ⟨1, 0⟩, ⟨1, 1⟩, ⟨0, 1⟩].length)
          = .ok false) ∧
    triangulate (1 / 10000000000) [⟨0, 0⟩, ⟨1, 0⟩, ⟨1, 1⟩, ⟨0, 1⟩] [0, 1, 2, 3] [9]
      = .ok ⟨[⟨0, 0⟩, ⟨1, 0⟩, ⟨1, 1⟩, ⟨0, 1⟩], [0, 1, 2, 3], [9]⟩ :=
  ⟨⟨by decide, fun i0 hi => by
      simp only [List.length_cons, List.length_nil] at hi
      interval_cases i0 <;> decide!⟩,
    triangulate_no_ear (1 / 10000000000) [⟨0, 0⟩, ⟨1, 0⟩, ⟨1, 1⟩, ⟨0, 1⟩] [0, 1, 2, 3] [9]
      (by decide) (fun i0 hi => by
        simp only [List.length_cons, List.length_nil] at hi
        interval_cases i0 <;> decide!)⟩

/-- C2 as stated fails: on the square `(0,0), (1,0), (1,1), (0,1)`, where
`isDiagonal(polygon, i0, (i0 + 2) mod 4)` is false at each of the four
positions, `triangulate` returns normally, with the three lists unchanged and
no triangle appended, and not with an error. -/
theorem triangulate_silent_on_square :
    isDiagonal (1 / 10000000000) [⟨0, 0⟩, ⟨1, 0⟩, ⟨1, 1⟩, ⟨0, 1⟩] 0 2 = .ok false ∧
    isDiagonal (1 / 10000000000) [⟨0, 0⟩, ⟨1, 0⟩, ⟨1, 1⟩, ⟨0, 1⟩] 1 3 = .ok false ∧
    isDiagonal (1 / 10000000000) [⟨0, 0⟩, ⟨1, 0⟩, ⟨1, 1⟩, ⟨0, 1⟩] 2 0 = .ok false ∧
    isDiagonal (1 / 10000000000) [⟨0, 0⟩, ⟨1, 0⟩, ⟨1, 1⟩, ⟨0, 1⟩] 3 1 = .ok false ∧
    triangulate (1 / 10000000000) [⟨0, 0⟩, ⟨1, 0⟩, ⟨1, 1⟩, ⟨0, 1⟩] [0, 1, 2, 3] []
      = .ok ⟨[⟨0, 0⟩, ⟨1, 0⟩, ⟨1, 1⟩, ⟨0, 1⟩], [0, 1, 2, 3], []⟩ := by
  refine ⟨by decide!, by decide!, by decide!, by decide!, by decide!⟩

/-! ## Triangulation: no fault on a polygon of different vertices -/

/-- When the first test fails with a tolerance below one, the two directions
are not orthogonal. -/
theorem dot_ne_zero_of_not_nonParallel {EPSILON : ℚ} {a b c d : GLC_Vector2d}
    (h1 : EPSILON < 1) (hab : a ≠ b) (hcd : c ≠ d)
    (hnp : ¬ NonParallel EPSILON a b c d) : dot (sub b a) (sub d c) ≠ 0 := by
  intro hz
  have hlag := cross_sq_add_dot_sq (sub b a) (sub d c)
  rw [hz] at hlag
  unfold NonParallel at hnp
  have hL0 : 0 < sqrLen (sub b a) :=
    lt_of_le_of_ne (sqrLen_nonneg _) (Ne.symm (sqrLen_sub_ne_zero hab))
  have hL1 : 0 < sqrLen (sub d c) :=
    lt_of_le_of_ne (sqrLen_nonneg _) (Ne.symm (sqrLen_sub_ne_zero hcd))
  have hp : 0 < (1 - EPSILON) * (sqrLen (sub b a) * sqrLen (sub d c)) :=
    mul_pos (by linarith) (mul_pos hL0 hL1)
  apply hnp
  nlinarith

/-- On two segments of nonzero length, with a tolerance in `[0, 1)`,
`isIntersected` returns a value: no divisor is zero and the assertion of the
interval function holds. -/
theorem isIntersected_ok {EPSILON : ℚ} {a b c d : GLC_Vector2d}
    (h0 : 0 ≤ EPSILON) (h1 : EPSILON < 1) (hab : a ≠ b) (hcd : c ≠ d) :
    ∃ r, isIntersected EPSILON a b c d = .ok r := by
  by_cases hnp : NonParallel EPSILON a b c d
  · rw [isIntersected_eq_of_nonParallel h0 hnp]
    split_ifs
    · exact ⟨false, rfl⟩
    · exact ⟨false, rfl⟩
    · exact ⟨true, rfl⟩
  · by_cases hnd : DistinctLines EPSILON a b c
    · refine ⟨false, ?_⟩
      unfold NonParallel sqrLen at hnp
      unfold DistinctLines sqrLen at hnd
      unfold isIntersected
      simp only [if_neg hnp, if_pos hnd]
    · exact ⟨_, isIntersected_eq_of_collinear hnp hnd (sqrLen_sub_ne_zero hab)
        (dot_ne_zero_of_not_nonParallel h1 hab hcd hnp)⟩

/-- An element access at a position of the list returns the element there. -/
theorem elemAt_ok {α : Type} (l : List α) (i : Int) (h0 : 0 ≤ i) (h1 : i < l.length) :
    ∃ a, elemAt l i = .ok a ∧ l[i.toNat]? = some a := by
  have hlt : i.toNat < l.length := by omega
  refine ⟨l[i.toNat], ?_, List.getElem?_eq_getElem hlt⟩
  unfold elemAt
  rw [if_neg (by omega), List.getElem?_eq_getElem hlt]

/-- Two different positions of a list without repetition hold different
elements. -/
theorem ne_of_nodup_getElem? {α : Type} {l : List α} (hd : l.Nodup) {i j : Nat} {a b : α}
    (hi : l[i]? = some a) (hj : l[j]? = some b) (hij : i ≠ j) : a ≠ b := by
  obtain ⟨hi2, rfl⟩ := List.getElem?_eq_some.mp hi
  obtain ⟨hj2, rfl⟩ := List.getElem?_eq_some.mp hj
  intro h
  exact hij ((hd.getElem_inj_iff).mp h)

/-- The successor position of a cyclic scan. -/
theorem tmod_add_one (i n : Nat) (hi : i < n) :
    Int.tmod ((i : Int) + 1) n = if i + 1 < n then (i : Int) + 1 else 0 := by
  rw [Int.tmod_eq_emod (by omega) (by omega)]
  split_ifs with h
  · exact Int.emod_eq_of_lt (by omega) (by omega)
  · have : (i : Int) + 1 = n := by omega
    rw [this, Int.emod_self]

/-- The position two steps on in a cyclic scan. -/
theorem tmod_add_two (i n : Nat) (hi : i < n) (hn : 3 ≤ n) :
    Int.tmod ((i : Int) + 2) n = if i + 2 < n then (i : Int) + 2 else (i : Int) + 2 - n := by
  rw [Int.tmod_eq_emod (by omega) (by omega)]
  split_ifs with h
  · exact Int.emod_eq_of_lt (by omega) (by omega)
  · rw [Int.emod_eq_sub_self_emod]
    exact Int.emod_eq_of_lt (by omega) (by omega)

/-- The edge scan of `isDiagonal` returns a value on a polygon of different
vertices. -/
theorem isDiagonalLoop_ok {EPSILON : ℚ} {polygon : List GLC_Vector2d}
    (h0 : 0 ≤ EPSILON) (h1 : EPSILON < 1) (hd : polygon.Nodup) {i0 i1 : Int}
    (hi0 : 0 ≤ i0 ∧ i0 < polygon.length) (hi1 : 0 ≤ i1 ∧ i1 < polygon.length)
    (hne : i0 ≠ i1) (k j0 : Nat) (j1 : Int) (hk : k + j0 = polygon.length)
    (hj1 : 0 ≤ j1 ∧ j1 < polygon.length) (hj : j1 ≠ j0) :
    ∃ r, isDiagonalLoop EPSILON polygon i0 i1 k j0 j1 = .ok r := by
  induction k generalizing j0 j1 with
  | zero => exact ⟨true, rfl⟩
  | succ k ih =>
    have hnext := ih (j0 + 1) j0 (by omega) ⟨by omega, by omega⟩ (by push_cast; omega)
    rw [Nat.cast_add, Nat.cast_one] at hnext
    unfold isDiagonalLoop
    split_ifs with hg
    · obtain ⟨p0, e0, g0⟩ := elemAt_ok polygon i0 hi0.1 hi0.2
      obtain ⟨p1, e1, g1⟩ := elemAt_ok polygon i1 hi1.1 hi1.2
      obtain ⟨q0, e2, g2⟩ := elemAt_ok polygon (j0 : Int) (by omega) (by omega)
      obtain ⟨q1, e3, g3⟩ := elemAt_ok polygon j1 hj1.1 hj1.2
      have hp : p0 ≠ p1 := ne_of_nodup_getElem? hd g0 g1 (by omega)
      have hq : q0 ≠ q1 := ne_of_nodup_getElem? hd g2 g3 (by omega)
      obtain ⟨r, er⟩ := isIntersected_ok h0 h1 hp hq
      rw [e0, e1, e2, e3]
      simp only [andThen]
      rw [er]
      cases r
      · simpa using hnext
      · exact ⟨false, by simp⟩
    · exact hnext

/-- On a polygon of at least three different vertices `isDiagonal` returns a
value at every position `i0` and every other position `i1`. -/
theorem isDiagonal_ok {EPSILON : ℚ} {polygon : List GLC_Vector2d}
    (h0 : 0 ≤ EPSILON) (h1 : EPSILON < 1) (hd : polygon.Nodup) (hn : 3 ≤ polygon.length)
    (i0 : Nat) (hi0 : i0 < polygon.length) (i1 : Int)
    (hi1 : 0 ≤ i1 ∧ i1 < polygon.length) (hne : (i0 : Int) ≠ i1) :
    ∃ r, isDiagonal EPSILON polygon i0 i1 = .ok r := by
  have hsize : ¬ ((polygon.length : Int) = 0) := by omega
  have hpos : (0 : Int) < polygon.length := by omega
  have hM : 0 ≤ (if Int.tmod ((i0 : Int) - 1) polygon.length < 0 then
        (polygon.length : Int) - 1 else Int.tmod ((i0 : Int) - 1) polygon.length) ∧
      (if Int.tmod ((i0 : Int) - 1) polygon.length < 0 then
        (polygon.length : Int) - 1 else Int.tmod ((i0 : Int) - 1) polygon.length)
        < polygon.length := by
    have := Int.tmod_lt_of_pos ((i0 : Int) - 1) hpos
    split_ifs with h <;> omega
  have hP : 0 ≤ Int.tmod ((i0 : Int) + 1) polygon.length ∧
      Int.tmod ((i0 : Int) + 1) polygon.length < polygon.length :=
    ⟨Int.tmod_nonneg _ (by omega), Int.tmod_lt_of_pos _ hpos⟩
  obtain ⟨V0, e0, -⟩ := elemAt_ok polygon (i0 : Int) (by omega) (by omega)
  obtain ⟨V1, e1, -⟩ := elemAt_ok polygon i1 hi1.1 hi1.2
  obtain ⟨VM, e2, -⟩ := elemAt_ok polygon _ hM.1 hM.2
  obtain ⟨VP, e3, -⟩ := elemAt_ok polygon _ hP.1 hP.2
  have hloop := @isDiagonalLoop_ok EPSILON polygon h0 h1 hd (i0 : Int) i1
    ⟨by omega, by omega⟩ hi1 hne polygon.length 0 ((polygon.length : Int) - 1)
    (by omega) ⟨by omega, by omega⟩ (by push_cast; omega)
  rw [Nat.cast_zero] at hloop
  unfold isDiagonal
  simp only [if_neg hsize, e0, e1, e2, e3, andThen]
  split_ifs
  · exact hloop
  · exact ⟨false, rfl⟩

/-- On a polygon of at least three different vertices, the scan of
`triangulate` from position `i0` either ends without an ear, `isDiagonal`
being false from `i0` on, or stops at a position `j` with the triple
`(j, (j + 1) % size, (j + 2) % size)`. -/
theorem triangulateLoop_cases {EPSILON : ℚ} {polygon : List GLC_Vector2d}
    (h0 : 0 ≤ EPSILON) (h1 : EPSILON < 1) (hd : polygon.Nodup) (hn : 3 ≤ polygon.length)
    (k i0 : Nat) (hk : k + i0 = polygon.length) :
    (triangulateLoop EPSILON polygon k i0 (Int.tmod (i0 + 1) polygon.length)
        (Int.tmod (i0 + 2) polygon.length) = .ok none ∧
      ∀ j : Nat, i0 ≤ j → j < polygon.length →
        isDiagonal EPSILON polygon j (Int.tmod (j + 2) polygon.length) = .ok false) ∨
    (∃ j : Nat, j < polygon.length ∧
      triangulateLoop EPSILON polygon k i0 (Int.tmod (i0 + 1) polygon.length)
        (Int.tmod (i0 + 2) polygon.length)
        = .ok (some ((j : Int), Int.tmod (j + 1) polygon.length,
            Int.tmod (j + 2) polygon.length))) := by
  induction k generalizing i0 with
  | zero =>
    left
    exact ⟨rfl, fun j hj1 hj2 => absurd hj2 (by omega)⟩
  | succ k ih =>
    have hi0 : i0 < polygon.length := by omega
    have hpos : (0 : Int) < polygon.length := by omega
    have hne : (i0 : Int) ≠ Int.tmod ((i0 : Int) + 2) polygon.length := by
      rw [tmod_add_two i0 _ hi0 hn]
      split_ifs <;> omega
    obtain ⟨r, er⟩ := isDiagonal_ok h0 h1 hd hn i0 hi0 _
      ⟨Int.tmod_nonneg _ (by omega), Int.tmod_lt_of_pos _ hpos⟩ hne
    unfold triangulateLoop
    rw [er]
    simp only [andThen]
    cases r
    · simp only [Bool.false_eq_true, if_false]
      rw [tmod_tmod_succ _ _ (by omega) (by omega), tmod_tmod_succ _ _ (by omega) (by omega)]
      have hrec := ih (i0 + 1) (by omega)
      rw [Nat.cast_add, Nat.cast_one] at hrec
      rw [show ((i0 : Int) + 2 + 1) = (i0 : Int) + 1 + 2 by ring]
      rcases hrec with ⟨hnone, hall⟩ | ⟨j, hj, hsome⟩
      · left
        refine ⟨hnone, fun j hj1 hj2 => ?_⟩
        by_cases hji : j = i0
        · rw [hji]
          exact er
        · exact hall j (by omega) hj2
      · right
        exact ⟨j, hj, hsome⟩
    · right
      exact ⟨i0, hi0, by simp⟩

/-- Removing one position of a list leaves one element less. -/
theorem removeAt_length {α : Type} (l : List α) (i : Int) (h0 : 0 ≤ i) (h1 : i < l.length) :
    (removeAt l i).length = l.length - 1 := by
  unfold removeAt
  rw [if_pos ⟨h0, h1⟩, List.length_eraseIdx, if_pos (by omega)]

/-- Removing one position of a list without repetition leaves a list without
repetition. -/
theorem removeAt_nodup {α : Type} (l : List α) (i : Int) (hd : l.Nodup) :
    (removeAt l i).Nodup := by
  unfold removeAt
  split_ifs
  · exact hd.eraseIdx _
  · exact hd

/-- The run of `triangulate` on a polygon of at least three different
vertices, with as many index entries, within the depth it is given: it
returns, the triangle list has grown by three entries for each vertex removed
and by three more when the polygon left is a triangle; a polygon left with
more than three vertices has no ear. -/
theorem triangulateAux_spec {EPSILON : ℚ} (h0 : 0 ≤ EPSILON) (h1 : EPSILON < 1)
    (depth : Nat) (polygon : List GLC_Vector2d) (index tList : List Int)
    (hn : 3 ≤ polygon.length) (hdepth : polygon.length ≤ depth + 3)
    (hi : index.length = polygon.length) (hd : polygon.Nodup) :
    ∃ r added, triangulateAux EPSILON depth ⟨polygon, index, tList⟩ = .ok r ∧
      r.tList = tList ++ added ∧ 3 ≤ r.polygon.length ∧
      r.polygon.length ≤ polygon.length ∧ r.index.length = r.polygon.length ∧
      added.length = 3 * (polygon.length - r.polygon.length)
        + (if r.polygon.length = 3 then 3 else 0) ∧
      (r.polygon.length ≠ 3 → NoEar EPSILON r.polygon) := by
  induction depth generalizing polygon index tList with
  | zero =>
    have h3 : polygon.length = 3 := by omega
    obtain ⟨a, ea, -⟩ := elemAt_ok index 0 (by omega) (by omega)
    obtain ⟨b, eb, -⟩ := elemAt_ok index 1 (by omega) (by omega)
    obtain ⟨c, ec, -⟩ := elemAt_ok index 2 (by omega) (by omega)
    refine ⟨⟨polygon, index, tList ++ [a, b, c]⟩, [a, b, c], ?_, rfl, hn, le_rfl, hi, ?_, ?_⟩
    · unfold triangulateAux
      simp only [if_pos h3, ea, eb, ec, andThen]
    · simp [h3]
    · intro hne
      exact absurd h3 hne
  | succ d ih =>
    by_cases h3 : polygon.length = 3
    · obtain ⟨a, ea, -⟩ := elemAt_ok index 0 (by omega) (by omega)
      obtain ⟨b, eb, -⟩ := elemAt_ok index 1 (by omega) (by omega)
      obtain ⟨c, ec, -⟩ := elemAt_ok index 2 (by omega) (by omega)
      refine ⟨⟨polygon, index, tList ++ [a, b, c]⟩, [a, b, c], ?_, rfl, hn, le_rfl, hi, ?_, ?_⟩
      · unfold triangulateAux
        simp only [if_pos h3, ea, eb, ec, andThen]
      · simp [h3]
      · intro hne
        exact absurd h3 hne
    · have hpos : (0 : Int) < polygon.length := by omega
      have hloop := triangulateLoop_cases h0 h1 hd hn polygon.length 0 (by omega)
      have e1 : Int.tmod (((0 : Nat) : Int) + 1) polygon.length = 1 := by
        rw [Int.tmod_eq_of_lt (by norm_num) (by push_cast; omega)]
        norm_num
      have e2 : Int.tmod (((0 : Nat) : Int) + 2) polygon.length = 2 := by
        rw [Int.tmod_eq_of_lt (by norm_num) (by push_cast; omega)]
        norm_num
      rw [e1, e2, Nat.cast_zero] at hloop
      rcases hloop with ⟨hnone, hall⟩ | ⟨j, hj, hsome⟩
      · refine ⟨⟨polygon, index, tList⟩, [], ?_, by simp, hn, le_rfl, hi, by simp [h3], ?_⟩
        · unfold triangulateAux
          simp only [if_neg h3, hnone, andThen]
        · intro _ i0 hi0
          exact hall i0 (Nat.zero_le _) hi0
      · have hj1 : 0 ≤ Int.tmod ((j : Int) + 1) polygon.length ∧
            Int.tmod ((j : Int) + 1) polygon.length < polygon.length :=
          ⟨Int.tmod_nonneg _ (by omega), Int.tmod_lt_of_pos _ hpos⟩
        have hj2 : 0 ≤ Int.tmod ((j : Int) + 2) polygon.length ∧
            Int.tmod ((j : Int) + 2) polygon.length < polygon.length :=
          ⟨Int.tmod_nonneg _ (by omega), Int.tmod_lt_of_pos _ hpos⟩
        obtain ⟨a, ea, -⟩ := elemAt_ok index (j : Int) (by omega) (by omega)
        obtain ⟨b, eb, -⟩ := elemAt_ok index _ hj1.1 (by rw [hi]; exact hj1.2)
        obtain ⟨c, ec, -⟩ := elemAt_ok index _ hj2.1 (by rw [hi]; exact hj2.2)
        have hlenP := removeAt_length polygon _ hj1.1 hj1.2
        have hlenI := removeAt_length index _ hj1.1 (by rw [hi]; exact hj1.2)
        obtain ⟨r, added, er, et, hr3, hrle, hri, hadd, hstuck⟩ :=
          ih (removeAt polygon (Int.tmod ((j : Int) + 1) polygon.length))
            (removeAt index (Int.tmod ((j : Int) + 1) polygon.length))
            (tList ++ [a, b, c]) (by omega) (by omega) (by omega)
            (removeAt_nodup _ _ hd)
        refine ⟨r, [a, b, c] ++ added, ?_, ?_, hr3, by omega, hri, ?_, hstuck⟩
        · unfold triangulateAux
          simp only [if_neg h3, hsome, ea, eb, ec, andThen]
          exact er
        · rw [et, List.append_assoc]
        · rw [List.length_append, hadd, hlenP]
          simp only [List.length_cons, List.length_nil]
          omega

/-! ## Triangulation: the number of triangles -/

/-- In exact arithmetic, on a polygon of `n >= 3` different vertices with an
index list of length `n` and a tolerance in `[0, 1)`, `triangulate` returns;
with `m >= 3` the number of vertices it leaves in `polygon`, it has appended
`3 * (n - m)` integers, and three more when `m = 3`.  It has appended exactly
`n - 2` triangles if and only if it leaves a triangle, and a polygon left with
more than three vertices has no position that passes `isDiagonal`. -/
theorem triangulate_count (EPSILON : ℚ) (polygon : List GLC_Vector2d)
    (index tList : List Int) (h0 : 0 ≤ EPSILON) (h1 : EPSILON < 1)
    (hn : 3 ≤ polygon.length) (hi : index.length = polygon.length) (hd : polygon.Nodup) :
    ∃ r added, triangulate EPSILON polygon index tList = .ok r ∧
      r.tList = tList ++ added ∧ 3 ≤ r.polygon.length ∧
      r.polygon.length ≤ polygon.length ∧
      added.length = 3 * (polygon.length - r.polygon.length)
        + (if r.polygon.length = 3 then 3 else 0) ∧
      (added.length = 3 * (polygon.length - 2) ↔ r.polygon.length = 3) ∧
      (r.polygon.length ≠ 3 → NoEar EPSILON r.polygon) := by
  obtain ⟨r, added, er, et, hr3, hrle, -, hadd, hstuck⟩ :=
    triangulateAux_spec h0 h1 polygon.length polygon index tList hn (by omega) hi hd
  refine ⟨r, added, er, et, hr3, hrle, hadd, ?_, hstuck⟩
  rw [hadd]
  split_ifs with h3
  · constructor
    · intro _
      exact h3
    · intro _
      omega
  · constructor
    · intro h
      omega
    · intro h
      exact absurd h h3

/-- The count of `triangulate_count` on the square `(0,0), (0,1), (1,1), (1,0)`,
which `triangulate` cuts into the two triangles `0, 1, 2` and `0, 2, 3`. -/
theorem triangulate_count_witness :
    ((0 : ℚ) ≤ 1 / 10000000000 ∧ (1 / 10000000000 : ℚ) < 1 ∧
      3 ≤ [(⟨0, 0⟩ : GLC_Vector2d), ⟨0, 1⟩, ⟨1, 1⟩, ⟨1, 0⟩].length ∧
      [(0 : Int), 1, 2, 3].length = [(⟨0, 0⟩ : GLC_Vector2d), ⟨0, 1⟩, ⟨1, 1⟩, ⟨1, 0⟩].length ∧
      [(⟨0, 0⟩ : GLC_Vector2d), ⟨0, 1⟩, ⟨1, 1⟩, ⟨1, 0⟩].Nodup ∧
      triangulate (1 / 10000000000) [⟨0, 0⟩, ⟨0, 1⟩, ⟨1, 1⟩, ⟨1, 0⟩] [0, 1, 2, 3] []
        = .ok ⟨[⟨0, 0⟩, ⟨1, 1⟩, ⟨1, 0⟩], [0, 2, 3], [0, 1, 2, 0, 2, 3]⟩) ∧
    (∃ r added,
      triangulate (1 / 10000000000) [⟨0, 0⟩, ⟨0, 1⟩, ⟨1, 1⟩, ⟨1, 0⟩] [0, 1, 2, 3] [] = .ok r ∧
      r.tList = [] ++ added ∧ 3 ≤ r.polygon.length ∧
      r.polygon.length ≤ [(⟨0, 0⟩ : GLC_Vector2d), ⟨0, 1⟩, ⟨1, 1⟩, ⟨1, 0⟩].length ∧
      added.length
        = 3 * ([(⟨0, 0⟩ : GLC_Vector2d), ⟨0, 1⟩, ⟨1, 1⟩, ⟨1, 0⟩].length - r.polygon.length)
          + (if r.polygon.length = 3 then 3 else 0) ∧
      (added.length = 3 * ([(⟨0, 0⟩ : GLC_Vector2d), ⟨0, 1⟩, ⟨1, 1⟩, ⟨1, 0⟩].length - 2)
        ↔ r.polygon.length = 3) ∧
      (r.polygon.length ≠ 3 → NoEar (1 / 10000000000) r.polygon)) :=
  ⟨⟨by norm_num, by norm_num, by decide, rfl, by decide!, by decide!⟩,
    triangulate_count (1 / 10000000000) [⟨0, 0⟩, ⟨0, 1⟩, ⟨1, 1⟩, ⟨1, 0⟩] [0, 1, 2, 3] []
      (by norm_num) (by norm_num) (by decide) rfl (by decide!)⟩

/-- The non-parallel test does not depend on the order of the two segments. -/
theorem nonParallel_swap {EPSILON : ℚ} {a b c d : GLC_Vector2d}
    (hnp : NonParallel EPSILON a b c d) : NonParallel EPSILON c d a b := by
  unfold NonParallel at hnp ⊢
  have e : cross (sub b a) (sub d c) = - cross (sub d c) (sub b a) := by
    simp only [cross]
    ring
  rw [e] at hnp
  nlinarith

/-- With the segments swapped the two line parameters trade places. -/
theorem params_swap (a b c d : GLC_Vector2d) :
    cross (sub a c) (sub b a) / cross (sub d c) (sub b a)
      = cross (sub c a) (sub b a) / cross (sub b a) (sub d c) ∧
    cross (sub a c) (sub d c) / cross (sub d c) (sub b a)
      = cross (sub c a) (sub d c) / cross (sub b a) (sub d c) := by
  have e1 : cross (sub a c) (sub b a) = - cross (sub c a) (sub b a) := by
    simp only [cross, sub]
    ring
  have e2 : cross (sub a c) (sub d c) = - cross (sub c a) (sub d c) := by
    simp only [cross, sub]
    ring
  have e3 : cross (sub d c) (sub b a) = - cross (sub b a) (sub d c) := by
    simp only [cross]
    ring
  rw [e1, e2, e3, neg_div_neg_eq, neg_div_neg_eq]
  exact ⟨rfl, rfl⟩

/-- In exact arithmetic, for two segments that pass the non-parallel test,
with a tolerance that is not negative, the point-returning `findIntersection`
returns the same list, of one point or none, whichever segment comes first. -/
theorem findIntersection_swap (EPSILON : ℚ) (s1p1 s1p2 s2p1 s2p2 : GLC_Vector2d)
    (h0 : 0 ≤ EPSILON) (hnp : NonParallel EPSILON s1p1 s1p2 s2p1 s2p2) :
    findIntersection EPSILON s1p1 s1p2 s2p1 s2p2
      = findIntersection EPSILON s2p1 s2p2 s1p1 s1p2 := by
  have hk := kross_ne_zero_of_nonParallel h0 hnp
  have hpt := point_of_params hk
  obtain ⟨e1, e2⟩ := params_swap s1p1 s1p2 s2p1 s2p2
  rw [findIntersection_eq_of_nonParallel h0 hnp,
    findIntersection_eq_of_nonParallel h0 (nonParallel_swap hnp), e1, e2, ← hpt]
  by_cases hs : cross (sub s2p1 s1p1) (sub s2p2 s2p1) / cross (sub s1p2 s1p1) (sub s2p2 s2p1) < 0 ∨
      cross (sub s2p1 s1p1) (sub s2p2 s2p1) / cross (sub s1p2 s1p1) (sub s2p2 s2p1) > 1
  · rw [if_pos hs]
    split_ifs <;> rfl
  · rw [if_neg hs]
    split_ifs <;> rfl

/-- The equality of `findIntersection_swap` on the crossing segments
`(0,0)-(2,2)` and `(0,2)-(2,0)`. -/
theorem findIntersection_swap_witness :
    ((0 : ℚ) ≤ 1 / 10000000000 ∧
      NonParallel (1 / 10000000000) ⟨0, 0⟩ ⟨2, 2⟩ ⟨0, 2⟩ ⟨2, 0⟩ ∧
      findIntersection (1 / 10000000000) ⟨0, 2⟩ ⟨2, 0⟩ ⟨0, 0⟩ ⟨2, 2⟩ = .ok [⟨1, 1⟩]) ∧
    findIntersection (1 / 10000000000) ⟨0, 0⟩ ⟨2, 2⟩ ⟨0, 2⟩ ⟨2, 0⟩
      = findIntersection (1 / 10000000000) ⟨0, 2⟩ ⟨2, 0⟩ ⟨0, 0⟩ ⟨2, 2⟩ :=
  ⟨⟨by norm_num, by norm_num [NonParallel, sqrLen, cross, sub], by decide!⟩,
    findIntersection_swap (1 / 10000000000) ⟨0, 0⟩ ⟨2, 2⟩ ⟨0, 2⟩ ⟨2, 0⟩
      (by norm_num) (by norm_num [NonParallel, sqrLen, cross, sub])⟩

/-- C6 as stated fails: with the tolerance `1e-10`, the segments
`A = (0,0)-(3000000,0)` and `B = (1000000,11)-(2000000,20)` fail the
non-parallel test in both orders; with `A` first the distinct-lines test
passes and no point is returned, with `B` first it does not and the two ends
of `B` are returned, in exact arithmetic and in `double` arithmetic alike.
In `double` arithmetic the crossing segments `(2,2)-(0,0)` and `(0,1)-(2,0)`,
which meet at `(2/3, 2/3)`, give two points that differ in the last place of
`x`: `0x1.5555555555556p-1` in one order, `0x1.5555555555555p-1` in the
other. -/
theorem findIntersection_swap_differs :
    findIntersection (1 / 10000000000) ⟨0, 0⟩ ⟨3000000, 0⟩ ⟨1000000, 11⟩ ⟨2000000, 20⟩
      = .ok [] ∧
    findIntersection (1 / 10000000000) ⟨1000000, 11⟩ ⟨2000000, 20⟩ ⟨0, 0⟩ ⟨3000000, 0⟩
      = .ok [⟨1000000, 11⟩, ⟨2000000, 20⟩] ∧
    findIntersectionFl roundDouble (roundDouble (1 / 10000000000))
        ⟨0, 0⟩ ⟨3000000, 0⟩ ⟨1000000, 11⟩ ⟨2000000, 20⟩ = .ok [] ∧
    findIntersectionFl roundDouble (roundDouble (1 / 10000000000))
        ⟨1000000, 11⟩ ⟨2000000, 20⟩ ⟨0, 0⟩ ⟨3000000, 0⟩
      = .ok [⟨1000000, 11⟩, ⟨2000000, 20⟩] ∧
    findIntersectionFl roundDouble (roundDouble (1 / 10000000000))
        ⟨2, 2⟩ ⟨0, 0⟩ ⟨0, 1⟩ ⟨2, 0⟩
      = .ok [⟨6004799503160662 / 9007199254740992, 6004799503160662 / 9007199254740992⟩] ∧
    findIntersectionFl roundDouble (roundDouble (1 / 10000000000))
        ⟨0, 1⟩ ⟨2, 0⟩ ⟨2, 2⟩ ⟨0, 0⟩
      = .ok [⟨6004799503160661 / 9007199254740992, 6004799503160662 / 9007199254740992⟩] := by
  refine ⟨by decide!, by decide!, by decide!, by decide!, by decide!, by decide!⟩

/-! ## The cone test -/

/-- C14: with `edgeL = VM - V0`, `edgeR = VP - V0` and `diff = V1 - V0`,
`segmentInCone` is `diff ^ edgeR > 0 and diff ^ edgeL < 0` when
`edgeR ^ edgeL < 0`, and `diff ^ edgeR > 0 or diff ^ edgeL < 0` when
`edgeR ^ edgeL >= 0`. -/
theorem segmentInCone_cases (V0 V1 VM VP : GLC_Vector2d) :
    (cross (sub VP V0) (sub VM V0) < 0 →
      (segmentInCone V0 V1 VM VP = true ↔
        (cross (sub V1 V0) (sub VP V0) > 0 ∧ cross (sub V1 V0) (sub VM V0) < 0))) ∧
    (cross (sub VP V0) (sub VM V0) ≥ 0 →
      (segmentInCone V0 V1 VM VP = true ↔
        (cross (sub V1 V0) (sub VP V0) > 0 ∨ cross (sub V1 V0) (sub VM V0) < 0))) := by
  constructor
  · intro h
    unfold segmentInCone
    simp only [if_pos h, Bool.and_eq_true, decide_eq_true_eq]
  · intro h
    unfold segmentInCone
    simp only [if_neg (not_lt.mpr h), Bool.or_eq_true, decide_eq_true_eq]

/-- Witness of C14 at the vertex `(0,0)` of the square
`(0,0), (0,1), (1,1), (1,0)`, towards the opposite vertex `(1,1)`. -/
theorem segmentInCone_cases_witness :
    (cross (sub ⟨0, 1⟩ ⟨0, 0⟩) (sub ⟨1, 0⟩ ⟨0, 0⟩) < 0 ∧
      segmentInCone ⟨0, 0⟩ ⟨1, 1⟩ ⟨1, 0⟩ ⟨0, 1⟩ = true) ∧
    (segmentInCone ⟨0, 0⟩ ⟨1, 1⟩ ⟨1, 0⟩ ⟨0, 1⟩ = true ↔
      (cross (sub ⟨1, 1⟩ ⟨0, 0⟩) (sub ⟨0, 1⟩ ⟨0, 0⟩) > 0 ∧
        cross (sub ⟨1, 1⟩ ⟨0, 0⟩) (sub ⟨1, 0⟩ ⟨0, 0⟩) < 0)) :=
  ⟨⟨by decide!, by decide!⟩,
    (segmentInCone_cases ⟨0, 0⟩ ⟨1, 1⟩ ⟨1, 0⟩ ⟨0, 1⟩).1 (by decide!)⟩

/-! ## The assertion of the interval function -/

/-- C20: on the collinear segments `(0,0)-(2,0)` and `(2,0)-(4,0)`, of nonzero
length, the point-returning `findIntersection` reaches the collinear branch
with `s0 = s1 = 1`, so that `sMin = sMax` and the assertion `v0 < v1` of the
interval function fails; `isIntersected`, which adds `s0` to the second
parameter, passes `sMin = 1 < sMax = 2` and returns true. -/
theorem findIntersection_assert_fails :
    (⟨0, 0⟩ : GLC_Vector2d) ≠ ⟨2, 0⟩ ∧ (⟨2, 0⟩ : GLC_Vector2d) ≠ ⟨4, 0⟩ ∧
    ¬ NonParallel (1 / 10000000000) ⟨0, 0⟩ ⟨2, 0⟩ ⟨2, 0⟩ ⟨4, 0⟩ ∧
    ¬ DistinctLines (1 / 10000000000) ⟨0, 0⟩ ⟨2, 0⟩ ⟨2, 0⟩ ∧
    divide (dot (sub ⟨2, 0⟩ ⟨0, 0⟩) (sub ⟨2, 0⟩ ⟨0, 0⟩)) (sqrLen (sub ⟨2, 0⟩ ⟨0, 0⟩))
      = .ok 1 ∧
    divide (dot (sub ⟨2, 0⟩ ⟨0, 0⟩) (sub ⟨4, 0⟩ ⟨2, 0⟩)) (sqrLen (sub ⟨2, 0⟩ ⟨0, 0⟩))
      = .ok 1 ∧
    findIntersectionInterval 0 1 (min 1 1) (max 1 1) = .error .assertFailed ∧
    findIntersection (1 / 10000000000) ⟨0, 0⟩ ⟨2, 0⟩ ⟨2, 0⟩ ⟨4, 0⟩
      = .error .assertFailed ∧
    isIntersected (1 / 10000000000) ⟨0, 0⟩ ⟨2, 0⟩ ⟨2, 0⟩ ⟨4, 0⟩ = .ok true := by
  refine ⟨by decide!, by decide!, ?_, ?_, by decide!, by decide!,
    by decide!, by decide!, by decide!⟩
  · unfold NonParallel
    decide!
  · unfold DistinctLines
    decide!

/-! ## The convexity test -/

/-- An element access at a position of the list, read with a default. -/
theorem elemAt_getD {α : Type} (l : List α) (k : Nat) (d : α) (h : k < l.length) :
    elemAt l (k : Int) = .ok (l.getD k d) := by
  unfold elemAt
  rw [if_neg (by omega), Int.toNat_natCast, List.getElem?_eq_getElem h,
    List.getD_eq_getElem l d h]

/-- The turn at a position `k` that is neither the first nor the last one is
taken between the vertices `k - 1`, `k` and `k + 1`. -/
theorem turnZ_inner (getVertex : Int → GLC_Vector4d) (vertexs : List Int) (k : Nat)
    (h1 : 1 ≤ k) (h2 : k + 1 < vertexs.length) :
    turnZ getVertex vertexs k =
      (GLC_Vector4d.cross
        (GLC_Vector4d.sub (vertexOf getVertex vertexs k) (vertexOf getVertex vertexs (k - 1)))
        (GLC_Vector4d.sub (vertexOf getVertex vertexs (k + 1))
          (vertexOf getVertex vertexs k))).z := by
  unfold turnZ
  have e1 : (k + vertexs.length - 1) % vertexs.length = k - 1 := by
    have : k + vertexs.length - 1 = (k - 1) + vertexs.length := by omega
    rw [this, Nat.add_mod_right, Nat.mod_eq_of_lt (by omega)]
  have e2 : (k + 1) % vertexs.length = k + 1 := Nat.mod_eq_of_lt h2
  rw [e1, e2]

/-- The turn at the last position is taken between the vertices `n - 2`,
`n - 1` and `0`. -/
theorem turnZ_last (getVertex : Int → GLC_Vector4d) (vertexs : List Int)
    (h : 2 ≤ vertexs.length) :
    turnZ getVertex vertexs (vertexs.length - 1) =
      (GLC_Vector4d.cross
        (GLC_Vector4d.sub (vertexOf getVertex vertexs (vertexs.length - 1))
          (vertexOf getVertex vertexs (vertexs.length - 2)))
        (GLC_Vector4d.sub (vertexOf getVertex vertexs 0)
          (vertexOf getVertex vertexs (vertexs.length - 1)))).z := by
  unfold turnZ
  have e1 : (vertexs.length - 1 + vertexs.length - 1) % vertexs.length
      = vertexs.length - 2 := by
    have : vertexs.length - 1 + vertexs.length - 1
        = (vertexs.length - 2) + vertexs.length := by omega
    rw [this, Nat.add_mod_right, Nat.mod_eq_of_lt (by omega)]
  have e2 : (vertexs.length - 1 + 1) % vertexs.length = 0 := by
    have : vertexs.length - 1 + 1 = vertexs.length := by omega
    rw [this, Nat.mod_self]
  rw [e1, e2]

/-- The loop of `polygonIsConvex` entered at position `i` with the edge that
arrives at vertex `i - 1`: it ends with the edge that arrives at the last
vertex when the turns at the positions `i - 1` to `n - 2` all have the sign
`direction`, and returns false at the first one that has not. -/
theorem polygonIsConvexLoop_cases (getVertex : Int → GLC_Vector4d) (vertexs : List Int)
    (direction : Bool) (k i : Nat) (hi : 3 ≤ i) (hk : k + i = vertexs.length) :
    (polygonIsConvexLoop getVertex vertexs direction k i
        (GLC_Vector4d.sub (vertexOf getVertex vertexs (i - 1))
          (vertexOf getVertex vertexs (i - 2)))
        (vertexOf getVertex vertexs (i - 1))
      = .ok (some (GLC_Vector4d.sub (vertexOf getVertex vertexs (vertexs.length - 1))
          (vertexOf getVertex vertexs (vertexs.length - 2)),
          vertexOf getVertex vertexs (vertexs.length - 1))) ∧
      ∀ j, i ≤ j → j < vertexs.length →
        decide (turnZ getVertex vertexs (j - 1) ≥ 0) = direction) ∨
    (polygonIsConvexLoop getVertex vertexs direction k i
        (GLC_Vector4d.sub (vertexOf getVertex vertexs (i - 1))
          (vertexOf getVertex vertexs (i - 2)))
        (vertexOf getVertex vertexs (i - 1))
      = .ok none ∧
      ∃ j, i ≤ j ∧ j < vertexs.length ∧
        decide (turnZ getVertex vertexs (j - 1) ≥ 0) ≠ direction) := by
  induction k generalizing i with
  | zero =>
    left
    have hin : i = vertexs.length := by omega
    subst hin
    exact ⟨rfl, fun j h1 h2 => absurd h2 (by omega)⟩
  | succ k ih =>
    have hlt : i < vertexs.length := by omega
    have hturn := turnZ_inner getVertex vertexs (i - 1) (by omega) (by omega)
    have e1 : i - 1 - 1 = i - 2 := by omega
    have e2 : i - 1 + 1 = i := by omega
    rw [e1, e2] at hturn
    have hstep : polygonIsConvexLoop getVertex vertexs direction (k + 1) i
        (GLC_Vector4d.sub (vertexOf getVertex vertexs (i - 1))
          (vertexOf getVertex vertexs (i - 2)))
        (vertexOf getVertex vertexs (i - 1))
        = if decide (turnZ getVertex vertexs (i - 1) ≥ 0) ≠ direction then .ok none
          else polygonIsConvexLoop getVertex vertexs direction k ((i : Int) + 1)
            (GLC_Vector4d.sub (vertexOf getVertex vertexs i)
              (vertexOf getVertex vertexs (i - 1)))
            (vertexOf getVertex vertexs i) := by
      rw [polygonIsConvexLoop, elemAt_getD vertexs i 0 hlt, hturn]
      rfl
    rw [hstep]
    by_cases hd : decide (turnZ getVertex vertexs (i - 1) ≥ 0) = direction
    · rw [if_neg (not_not.mpr hd)]
      have hrec := ih (i + 1) (by omega) (by omega)
      have e3 : i + 1 - 1 = i := by omega
      have e4 : i + 1 - 2 = i - 1 := by omega
      rw [e3, e4, Nat.cast_add, Nat.cast_one] at hrec
      rcases hrec with ⟨hsome, hall⟩ | ⟨hnone, j, hj1, hj2, hj3⟩
      · left
        refine ⟨hsome, fun j hj1 hj2 => ?_⟩
        by_cases hji : j = i
        · rw [hji]
          exact hd
        · exact hall j (by omega) hj2
      · right
        exact ⟨hnone, j, by omega, hj2, hj3⟩
    · rw [if_pos hd]
      right
      exact ⟨rfl, i, le_rfl, hlt, hd⟩

/-- On at least four vertices `polygonIsConvex` returns a value, and returns
true exactly when the turns at the positions `1` to `n - 1` all have the sign
of the turn at position `1`; the turn at position `0` is not looked at. -/
theorem polygonIsConvex_iff (getVertex : Int → GLC_Vector4d) (vertexs : List Int)
    (hn : 4 ≤ vertexs.length) :
    ∃ b, polygonIsConvex getVertex vertexs = .ok b ∧
      (b = true ↔ ∀ k, 1 ≤ k → k < vertexs.length →
        decide (turnZ getVertex vertexs k ≥ 0) = decide (turnZ getVertex vertexs 1 ≥ 0)) := by
  have hloop := polygonIsConvexLoop_cases getVertex vertexs
    (decide (turnZ getVertex vertexs 1 ≥ 0)) (vertexs.length - 3) 3 le_rfl (by omega)
  simp only [Nat.cast_ofNat, show (3 : ℕ) - 1 = 2 from rfl,
    show (3 : ℕ) - 2 = 1 from rfl] at hloop
  have hlast := turnZ_last getVertex vertexs (by omega)
  have hfirst := turnZ_inner getVertex vertexs 1 le_rfl (by omega)
  have a0 := elemAt_getD vertexs 0 0 (by omega)
  have a1 := elemAt_getD vertexs 1 0 (by omega)
  have a2 := elemAt_getD vertexs 2 0 (by omega)
  rw [Nat.cast_zero] at a0
  rw [Nat.cast_one] at a1
  rw [Nat.cast_ofNat] at a2
  have hrun : polygonIsConvex getVertex vertexs =
      andThen (polygonIsConvexLoop getVertex vertexs (decide (turnZ getVertex vertexs 1 ≥ 0))
        (vertexs.length - 3) 3
        (GLC_Vector4d.sub (vertexOf getVertex vertexs 2) (vertexOf getVertex vertexs 1))
        (vertexOf getVertex vertexs 2)) fun left =>
      match left with
      | none => .ok false
      | some (edge2, vertex2) =>
        if decide ((GLC_Vector4d.cross edge2
            (GLC_Vector4d.sub (vertexOf getVertex vertexs 0) vertex2)).z ≥ 0)
            ≠ decide (turnZ getVertex vertexs 1 ≥ 0) then .ok false
        else .ok true := by
    unfold polygonIsConvex
    simp only [if_neg (not_lt.mpr hn), a0, a1, a2, andThen]
    rw [hfirst]
    rfl
  rw [hrun]
  rcases hloop with ⟨hsome, hall⟩ | ⟨hnone, j, hj1, hj2, hj3⟩
  · rw [hsome]
    simp only [andThen]
    rw [← hlast]
    by_cases hd : decide (turnZ getVertex vertexs (vertexs.length - 1) ≥ 0)
        = decide (turnZ getVertex vertexs 1 ≥ 0)
    · refine ⟨true, by rw [if_neg (not_not.mpr hd)], ?_⟩
      simp only [true_iff]
      intro k hk1 hk2
      by_cases hkl : k = vertexs.length - 1
      · rw [hkl]
        exact hd
      · by_cases hk0 : k = 1
        · rw [hk0]
        · have := hall (k + 1) (by omega) (by omega)
          rw [Nat.add_sub_cancel] at this
          exact this
    · refine ⟨false, by rw [if_pos hd], ?_⟩
      constructor
      · intro h
        exact absurd h (by decide)
      · intro h
        exact absurd (h (vertexs.length - 1) (by omega) (by omega)) hd
  · rw [hnone]
    simp only [andThen]
    refine ⟨false, rfl, ?_⟩
    constructor
    · intro h
      exact absurd h (by decide)
    · intro h
      exact absurd (h (j - 1) (by omega) (by omega)) hj3

/-- C13: on at least four vertices whose turns, around the closed cycle, are
all strictly positive or all strictly negative, `polygonIsConvex` returns
true. -/
theorem polygonIsConvex_of_same_sign (getVertex : Int → GLC_Vector4d) (vertexs : List Int)
    (hn : 4 ≤ vertexs.length)
    (h : (∀ k, k < vertexs.length → 0 < turnZ getVertex vertexs k) ∨
      (∀ k, k < vertexs.length → turnZ getVertex vertexs k < 0)) :
    polygonIsConvex getVertex vertexs = .ok true := by
  obtain ⟨b, hb, hiff⟩ := polygonIsConvex_iff getVertex vertexs hn
  have hall : ∀ k, 1 ≤ k → k < vertexs.length →
      decide (turnZ getVertex vertexs k ≥ 0) = decide (turnZ getVertex vertexs 1 ≥ 0) := by
    intro k _ hk
    rcases h with hpos | hneg
    · rw [decide_eq_true (le_of_lt (hpos k hk)),
        decide_eq_true (le_of_lt (hpos 1 (by omega)))]
    · rw [decide_eq_false (not_le.mpr (hneg k hk)),
        decide_eq_false (not_le.mpr (hneg 1 (by omega)))]
  rw [hb, hiff.mpr hall]

/-- Witness of C13 on the square `(0,0), (1,0), (1,1), (0,1)`. -/
theorem polygonIsConvex_of_same_sign_witness :
    (4 ≤ [(0 : Int), 1, 2, 3].length ∧
      ((∀ k, k < [(0 : Int), 1, 2, 3].length →
          0 < turnZ (planarMesh [(0, 0), (1, 0), (1, 1), (0, 1)]) [0, 1, 2, 3] k) ∨
        (∀ k, k < [(0 : Int), 1, 2, 3].length →
          turnZ (planarMesh [(0, 0), (1, 0), (1, 1), (0, 1)]) [0, 1, 2, 3] k < 0))) ∧
    polygonIsConvex (planarMesh [(0, 0), (1, 0), (1, 1), (0, 1)]) [0, 1, 2, 3] = .ok true :=
  ⟨⟨by decide, Or.inl (fun k hk => by
      simp only [List.length_cons, List.length_nil] at hk
      interval_cases k <;> decide!)⟩,
    polygonIsConvex_of_same_sign (planarMesh [(0, 0), (1, 0), (1, 1), (0, 1)]) [0, 1, 2, 3]
      (by decide) (Or.inl (fun k hk => by
        simp only [List.length_cons, List.length_nil] at hk
        interval_cases k <;> decide!))⟩

/-- C12: on the quadrilateral `(2,1), (4,0), (2,4), (0,0)`, whose one reflex
vertex `(2,1)` comes first in the vertex list (the turn there is `-4`, the
three other turns are `6`, `16` and `6`), `polygonIsConvex` returns true: the
turn at position `0`, between the last edge and the first, is never tested. -/
theorem polygonIsConvex_reflex_first :
    turnZ (planarMesh [(2, 1), (4, 0), (2, 4), (0, 0)]) [0, 1, 2, 3] 0 = -4 ∧
    turnZ (planarMesh [(2, 1), (4, 0), (2, 4), (0, 0)]) [0, 1, 2, 3] 1 = 6 ∧
    turnZ (planarMesh [(2, 1), (4, 0), (2, 4), (0, 0)]) [0, 1, 2, 3] 2 = 16 ∧
    turnZ (planarMesh [(2, 1), (4, 0), (2, 4), (0, 0)]) [0, 1, 2, 3] 3 = 6 ∧
    polygonIsConvex (planarMesh [(2, 1), (4, 0), (2, 4), (0, 0)]) [0, 1, 2, 3] = .ok true ∧
    polygonIsConvex (planarMesh [(0, 0), (2, 1), (4, 0), (2, 4)]) [0, 1, 2, 3] = .ok false := by
  refine ⟨by decide!, by decide!, by decide!, by decide!, by decide!, by decide!⟩

/-! ## The diagonal test -/

/-- The position before `j` in the cycle, for a `j` that is not the first
one. -/
theorem prev_succ (j n : Nat) (h : j + 1 < n) : (j + 1 + n - 1) % n = j := by
  have : j + 1 + n - 1 = j + n := by omega
  rw [this, Nat.add_mod_right, Nat.mod_eq_of_lt (by omega)]

/-- The position before the first one in the cycle is the last one. -/
theorem prev_zero (n : Nat) (h : 1 ≤ n) : (0 + n - 1) % n = n - 1 := by
  rw [Nat.zero_add, Nat.mod_eq_of_lt (by omega)]

/-- An element access at a position of the polygon returns the vertex
there. -/
theorem elemAt_pointAt (polygon : List GLC_Vector2d) (k : Nat) (h : k < polygon.length) :
    elemAt polygon (k : Int) = .ok (pointAt polygon k) :=
  elemAt_getD polygon k ⟨0, 0⟩ h

/-- The edge scan of `isDiagonal` from the edge that arrives at position `j0`
returns true exactly when `isIntersected` is false on every edge from there on
that has no end in common with the segment. -/
theorem isDiagonalLoop_true_iff (EPSILON : ℚ) (polygon : List GLC_Vector2d) (i0 i1 : Nat)
    (hi0 : i0 < polygon.length) (hi1 : i1 < polygon.length) (k j0 : Nat)
    (hk : k + j0 = polygon.length) :
    isDiagonalLoop EPSILON polygon i0 i1 k j0
        (((j0 + polygon.length - 1) % polygon.length : Nat) : Int) = .ok true ↔
      ∀ j, j0 ≤ j → j < polygon.length → j ≠ i0 → j ≠ i1 →
        (j + polygon.length - 1) % polygon.length ≠ i0 →
        (j + polygon.length - 1) % polygon.length ≠ i1 →
        isIntersected EPSILON (pointAt polygon i0) (pointAt polygon i1) (pointAt polygon j)
          (pointAt polygon ((j + polygon.length - 1) % polygon.length)) = .ok false := by
  induction k generalizing j0 with
  | zero =>
    constructor
    · intro _ j h1 h2
      exact absurd h2 (by omega)
    · intro _
      rfl
  | succ k ih =>
    have hj0 : j0 < polygon.length := by omega
    have hp : (j0 + polygon.length - 1) % polygon.length < polygon.length :=
      Nat.mod_lt _ (by omega)
    have hnext : ((j0 : Int) + 1) = ((j0 + 1 : Nat) : Int) := by push_cast; rfl
    have hprev : (j0 : Int)
        = (((j0 + 1 + polygon.length - 1) % polygon.length : Nat) : Int) := by
      have : j0 + 1 + polygon.length - 1 = j0 + polygon.length := by omega
      rw [this, Nat.add_mod_right, Nat.mod_eq_of_lt hj0]
    have hrec := ih (j0 + 1) (by omega)
    rw [← hprev, ← hnext] at hrec
    -- the universal statement from `j0` on splits into the edge at `j0` and the rest
    have hsplit : (∀ j, j0 ≤ j → j < polygon.length → j ≠ i0 → j ≠ i1 →
        (j + polygon.length - 1) % polygon.length ≠ i0 →
        (j + polygon.length - 1) % polygon.length ≠ i1 →
        isIntersected EPSILON (pointAt polygon i0) (pointAt polygon i1) (pointAt polygon j)
          (pointAt polygon ((j + polygon.length - 1) % polygon.length)) = .ok false) ↔
        ((j0 ≠ i0 → j0 ≠ i1 →
          (j0 + polygon.length - 1) % polygon.length ≠ i0 →
          (j0 + polygon.length - 1) % polygon.length ≠ i1 →
          isIntersected EPSILON (pointAt polygon i0) (pointAt polygon i1) (pointAt polygon j0)
            (pointAt polygon ((j0 + polygon.length - 1) % polygon.length)) = .ok false) ∧
        ∀ j, j0 + 1 ≤ j → j < polygon.length → j ≠ i0 → j ≠ i1 →
          (j + polygon.length - 1) % polygon.length ≠ i0 →
          (j + polygon.length - 1) % polygon.length ≠ i1 →
          isIntersected EPSILON (pointAt polygon i0) (pointAt polygon i1) (pointAt polygon j)
            (pointAt polygon ((j + polygon.length - 1) % polygon.length)) = .ok false) := by
      constructor
      · intro h
        exact ⟨h j0 le_rfl hj0, fun j hj => h j (by omega)⟩
      · rintro ⟨h1, h2⟩ j hj hlt
        by_cases hjj : j = j0
        · rw [hjj]
          exact h1
        · exact h2 j (by omega) hlt
    rw [hsplit, ← hrec, isDiagonalLoop]
    by_cases hg : (j0 : Int) ≠ i0 ∧ (j0 : Int) ≠ i1 ∧
        (((j0 + polygon.length - 1) % polygon.length : Nat) : Int) ≠ i0 ∧
        (((j0 + polygon.length - 1) % polygon.length : Nat) : Int) ≠ i1
    · rw [if_pos hg, elemAt_pointAt polygon i0 hi0, elemAt_pointAt polygon i1 hi1,
        elemAt_pointAt polygon j0 hj0, elemAt_pointAt polygon _ hp]
      simp only [andThen]
      have hg2 : j0 ≠ i0 ∧ j0 ≠ i1 ∧ (j0 + polygon.length - 1) % polygon.length ≠ i0 ∧
          (j0 + polygon.length - 1) % polygon.length ≠ i1 := by
        obtain ⟨g1, g2, g3, g4⟩ := hg
        exact ⟨fun h => g1 (by rw [h]), fun h => g2 (by rw [h]), fun h => g3 (by rw [h]),
          fun h => g4 (by rw [h])⟩
      cases hres : isIntersected EPSILON (pointAt polygon i0) (pointAt polygon i1)
          (pointAt polygon j0)
          (pointAt polygon ((j0 + polygon.length - 1) % polygon.length)) with
      | error e =>
        constructor
        · intro h
          exact absurd h (by simp)
        · rintro ⟨h, -⟩
          exact absurd (h hg2.1 hg2.2.1 hg2.2.2.1 hg2.2.2.2) (by simp)
      | ok hit =>
        cases hit
        · simp
        · constructor
          · intro h
            exact absurd h (by simp)
          · rintro ⟨h, -⟩
            exact absurd (h hg2.1 hg2.2.1 hg2.2.2.1 hg2.2.2.2) (by simp)
    · rw [if_neg hg]
      constructor
      · intro h
        refine ⟨fun g1 g2 g3 g4 => ?_, h⟩
        exfalso
        apply hg
        exact ⟨fun h => g1 (by exact_mod_cast h), fun h => g2 (by exact_mod_cast h),
          fun h => g3 (by exact_mod_cast h), fun h => g4 (by exact_mod_cast h)⟩
      · rintro ⟨-, h⟩
        exact h

/-- The edges of a full scan from position `j0` on are the edges that arrive
at the positions `j0`, `j0 + 1`, ..., each of them once. -/
theorem isDiagonalEdges_eq (n k j0 : Nat) (hk : k + j0 = n) :
    isDiagonalEdges k j0 (((j0 + n - 1) % n : Nat) : Int) =
      (List.range' j0 k).map fun j => ((((j + n - 1) % n : Nat) : Int), (j : Int)) := by
  induction k generalizing j0 with
  | zero => rfl
  | succ k ih =>
    have hj0 : j0 < n := by omega
    have hprev : (j0 : Int) = (((j0 + 1 + n - 1) % n : Nat) : Int) := by
      have : j0 + 1 + n - 1 = j0 + n := by omega
      rw [this, Nat.add_mod_right, Nat.mod_eq_of_lt hj0]
    have hnext : ((j0 : Int) + 1) = ((j0 + 1 : Nat) : Int) := by push_cast; rfl
    have hrec := ih (j0 + 1) (by omega)
    rw [← hprev, ← hnext] at hrec
    rw [isDiagonalEdges, hrec, List.range'_succ, List.map_cons]

/-- The predecessor position `iM` that `isDiagonal` computes is the position
before `i` in the cycle. -/
theorem iM_eq (i n : Nat) (hn : 2 ≤ n) (hi : i < n) :
    (if Int.tmod ((i : Int) - 1) n < 0 then (n : Int) - 1 else Int.tmod ((i : Int) - 1) n)
      = (((i + n - 1) % n : Nat) : Int) := by
  by_cases h0 : i = 0
  · subst h0
    have e1 : Int.tmod (((0 : Nat) : Int) - 1) n = -1 := by
      have e0 : (((0 : Nat) : Int) - 1) = -1 := by norm_num
      have e2 : Int.tmod (-1) (n : Int) = -((1 % n : Nat) : Int) := rfl
      rw [e0, e2, Nat.mod_eq_of_lt (by omega)]
      rfl
    rw [e1, if_pos (by norm_num), prev_zero n (by omega)]
    omega
  · have e1 : Int.tmod ((i : Int) - 1) n = (i : Int) - 1 :=
      Int.tmod_eq_of_lt (by omega) (by omega)
    have e2 : (i + n - 1) % n = i - 1 := by
      have : i + n - 1 = (i - 1) + n := by omega
      rw [this, Nat.add_mod_right, Nat.mod_eq_of_lt (by omega)]
    rw [e1, if_neg (by omega), e2]
    omega

/-- The successor position `iP` that `isDiagonal` computes is the position
after `i` in the cycle. -/
theorem iP_eq (i n : Nat) : Int.tmod ((i : Int) + 1) n = (((i + 1) % n : Nat) : Int) := by
  have h1 : (0 : Int) ≤ (i : Int) + 1 := by omega
  rw [Int.tmod_eq_emod h1 (Int.natCast_nonneg n)]
  norm_cast

/-- C11: on a polygon of `n >= 3` vertices and two positions `i0`, `i1`,
`isDiagonal` returns true exactly when `segmentInCone` holds at `i0`, between
the vertices before and after it in the cycle, and `isIntersected` is false on
every one of the `n` edges from position `k - 1 mod n` to position `k` that
has no end at `i0` or `i1`; a full scan goes through these `n` edges, the
wrapping one first, each of them once. -/
theorem isDiagonal_iff (EPSILON : ℚ) (polygon : List GLC_Vector2d) (i0 i1 : Nat)
    (hn : 3 ≤ polygon.length) (hi0 : i0 < polygon.length) (hi1 : i1 < polygon.length) :
    (isDiagonal EPSILON polygon i0 i1 = .ok true ↔
      (segmentInCone (pointAt polygon i0) (pointAt polygon i1)
          (pointAt polygon ((i0 + polygon.length - 1) % polygon.length))
          (pointAt polygon ((i0 + 1) % polygon.length)) = true ∧
        ∀ k, k < polygon.length → k ≠ i0 → k ≠ i1 →
          (k + polygon.length - 1) % polygon.length ≠ i0 →
          (k + polygon.length - 1) % polygon.length ≠ i1 →
          isIntersected EPSILON (pointAt polygon i0) (pointAt polygon i1) (pointAt polygon k)
            (pointAt polygon ((k + polygon.length - 1) % polygon.length)) = .ok false)) ∧
    isDiagonalEdges polygon.length 0 ((polygon.length : Int) - 1) =
      (List.range polygon.length).map fun k =>
        ((((k + polygon.length - 1) % polygon.length : Nat) : Int), (k : Int)) := by
  have hsize : ¬ ((polygon.length : Int) = 0) := by omega
  have hlast : ((polygon.length : Int) - 1)
      = (((0 + polygon.length - 1) % polygon.length : Nat) : Int) := by
    rw [prev_zero _ (by omega)]
    omega
  constructor
  · have hloop := isDiagonalLoop_true_iff EPSILON polygon i0 i1 hi0 hi1 polygon.length 0
      (by omega)
    rw [← hlast, Nat.cast_zero] at hloop
    have hM : (i0 + polygon.length - 1) % polygon.length < polygon.length :=
      Nat.mod_lt _ (by omega)
    have hP : (i0 + 1) % polygon.length < polygon.length := Nat.mod_lt _ (by omega)
    unfold isDiagonal
    simp only [if_neg hsize, iM_eq i0 polygon.length (by omega) hi0, iP_eq,
      elemAt_pointAt polygon i0 hi0, elemAt_pointAt polygon i1 hi1,
      elemAt_pointAt polygon _ hM, elemAt_pointAt polygon _ hP, andThen]
    by_cases hc : segmentInCone (pointAt polygon i0) (pointAt polygon i1)
        (pointAt polygon ((i0 + polygon.length - 1) % polygon.length))
        (pointAt polygon ((i0 + 1) % polygon.length)) = true
    · rw [if_neg (not_not.mpr hc), hloop]
      constructor
      · intro h
        exact ⟨hc, fun k hk => h k (Nat.zero_le _) hk⟩
      · rintro ⟨-, h⟩ k _ hk
        exact h k hk
    · rw [if_pos hc]
      constructor
      · intro h
        exact absurd h (by simp)
      · rintro ⟨h, -⟩
        exact absurd h hc
  · rw [hlast]
    have := isDiagonalEdges_eq polygon.length polygon.length 0 (by omega)
    rw [Nat.cast_zero] at this
    rw [this, List.range_eq_range']

/-- Witness of C11 on the square `(0,0), (0,1), (1,1), (1,0)` and its diagonal
from position `0` to position `2`. -/
theorem isDiagonal_iff_witness :
    (3 ≤ [(⟨0, 0⟩ : GLC_Vector2d), ⟨0, 1⟩, ⟨1, 1⟩, ⟨1, 0⟩].length ∧
      0 < [(⟨0, 0⟩ : GLC_Vector2d), ⟨0, 1⟩, ⟨1, 1⟩, ⟨1, 0⟩].length ∧
      2 < [(⟨0, 0⟩ : GLC_Vector2d), ⟨0, 1⟩, ⟨1, 1⟩, ⟨1, 0⟩].length ∧
      isDiagonal (1 / 10000000000) [⟨0, 0⟩, ⟨0, 1⟩, ⟨1, 1⟩, ⟨1, 0⟩] 0 2 = .ok true ∧
      isDiagonalEdges 4 0 3 = [(3, 0), (0, 1), (1, 2), (2, 3)]) ∧
    ((isDiagonal (1 / 10000000000) [⟨0, 0⟩, ⟨0, 1⟩, ⟨1, 1⟩, ⟨1, 0⟩] (0 : Nat) (2 : Nat)
        = .ok true ↔
      (segmentInCone (pointAt [⟨0, 0⟩, ⟨0, 1⟩, ⟨1, 1⟩, ⟨1, 0⟩] 0)
          (pointAt [⟨0, 0⟩, ⟨0, 1⟩, ⟨1, 1⟩, ⟨1, 0⟩] 2)
          (pointAt [⟨0, 0⟩, ⟨0, 1⟩, ⟨1, 1⟩, ⟨1, 0⟩]
            ((0 + [(⟨0, 0⟩ : GLC_Vector2d), ⟨0, 1⟩, ⟨1, 1⟩, ⟨1, 0⟩].length - 1)
              % [(⟨0, 0⟩ : GLC_Vector2d), ⟨0, 1⟩, ⟨1, 1⟩, ⟨1, 0⟩].length))
          (pointAt [⟨0, 0⟩, ⟨0, 1⟩, ⟨1, 1⟩, ⟨1, 0⟩]
            ((0 + 1) % [(⟨0, 0⟩ : GLC_Vector2d), ⟨0, 1⟩, ⟨1, 1⟩, ⟨1, 0⟩].length)) = true ∧
        ∀ k, k < [(⟨0, 0⟩ : GLC_Vector2d), ⟨0, 1⟩, ⟨1, 1⟩, ⟨1, 0⟩].length → k ≠ 0 → k ≠ 2 →
          (k + [(⟨0, 0⟩ : GLC_Vector2d), ⟨0, 1⟩, ⟨1, 1⟩, ⟨1, 0⟩].length - 1)
            % [(⟨0, 0⟩ : GLC_Vector2d), ⟨0, 1⟩, ⟨1, 1⟩, ⟨1, 0⟩].length ≠ 0 →
          (k + [(⟨0, 0⟩ : GLC_Vector2d), ⟨0, 1⟩, ⟨1, 1⟩, ⟨1, 0⟩].length - 1)
            % [(⟨0, 0⟩ : GLC_Vector2d), ⟨0, 1⟩, ⟨1, 1⟩, ⟨1, 0⟩].length ≠ 2 →
          isIntersected (1 / 10000000000)
            (pointAt [⟨0, 0⟩, ⟨0, 1⟩, ⟨1, 1⟩, ⟨1, 0⟩] 0)
            (pointAt [⟨0, 0⟩, ⟨0, 1⟩, ⟨1, 1⟩, ⟨1, 0⟩] 2)
            (pointAt [⟨0, 0⟩, ⟨0, 1⟩, ⟨1, 1⟩, ⟨1, 0⟩] k)
            (pointAt [⟨0, 0⟩, ⟨0, 1⟩, ⟨1, 1⟩, ⟨1, 0⟩]
              ((k + [(⟨0, 0⟩ : GLC_Vector2d), ⟨0, 1⟩, ⟨1, 1⟩, ⟨1, 0⟩].length - 1)
                % [(⟨0, 0⟩ : GLC_Vector2d), ⟨0, 1⟩, ⟨1, 1⟩, ⟨1, 0⟩].length)) = .ok false)) ∧
      isDiagonalEdges [(⟨0, 0⟩ : GLC_Vector2d), ⟨0, 1⟩, ⟨1, 1⟩, ⟨1, 0⟩].length 0
          (([(⟨0, 0⟩ : GLC_Vector2d), ⟨0, 1⟩, ⟨1, 1⟩, ⟨1, 0⟩].length : Int) - 1) =
        (List.range [(⟨0, 0⟩ : GLC_Vector2d), ⟨0, 1⟩, ⟨1, 1⟩, ⟨1, 0⟩].length).map fun k =>
          ((((k + [(⟨0, 0⟩ : GLC_Vector2d), ⟨0, 1⟩, ⟨1, 1⟩, ⟨1, 0⟩].length - 1)
            % [(⟨0, 0⟩ : GLC_Vector2d), ⟨0, 1⟩, ⟨1, 1⟩, ⟨1, 0⟩].length : Nat) : Int),
            (k : Int))) :=
  ⟨⟨by decide, by decide, by decide, by decide!, by decide⟩,
    isDiagonal_iff (1 / 10000000000) [⟨0, 0⟩, ⟨0, 1⟩, ⟨1, 1⟩, ⟨1, 0⟩] 0 2
      (by decide) (by decide) (by decide)⟩

/-! ## Triangulation: what holds on every polygon -/

/-- A returned value is a run without a fault of range. -/
theorem rangeSafe_ok {α : Type} (a : α) : RangeSafe (Except.ok a : Except Fault α) := by
  intro e h
  exact Except.noConfusion h

/-- Two steps without a fault of range make a run without a fault of range. -/
theorem rangeSafe_andThen {α β : Type} {r : Except Fault α} {f : α → Except Fault β}
    (h1 : RangeSafe r) (h2 : ∀ a, r = .ok a → RangeSafe (f a)) :
    RangeSafe (andThen r f) := by
  cases r with
  | error e =>
    intro e2 h
    simp only [andThen] at h
    rw [← Except.error.inj h]
    exact h1 e rfl
  | ok a => exact h2 a rfl

/-- A division stops on a zero divisor only. -/
theorem divide_rangeSafe (a b : ℚ) : RangeSafe (divide a b) := by
  unfold divide
  split_ifs
  · intro e h
    left
    exact (Except.error.inj h).symm
  · exact rangeSafe_ok _

/-- The interval function stops on its assertion only. -/
theorem findIntersectionInterval_rangeSafe (u0 u1 v0 v1 : ℚ) :
    RangeSafe (findIntersectionInterval u0 u1 v0 v1) := by
  unfold findIntersectionInterval
  split_ifs
  all_goals first
    | exact rangeSafe_ok _
    | (intro e h
       right
       exact (Except.error.inj h).symm)

/-- The segment test `isIntersected` reads no list. -/
theorem isIntersected_rangeSafe (EPSILON : ℚ) (a b c d : GLC_Vector2d) :
    RangeSafe (isIntersected EPSILON a b c d) := by
  unfold isIntersected
  dsimp only
  split_ifs
  · refine rangeSafe_andThen (divide_rangeSafe _ _) (fun s _ => ?_)
    split_ifs
    · exact rangeSafe_ok _
    · refine rangeSafe_andThen (divide_rangeSafe _ _) (fun t _ => ?_)
      split_ifs <;> exact rangeSafe_ok _
  · exact rangeSafe_ok _
  · refine rangeSafe_andThen (divide_rangeSafe _ _) (fun s0 _ => ?_)
    refine rangeSafe_andThen (divide_rangeSafe _ _) (fun d _ => ?_)
    refine rangeSafe_andThen (findIntersectionInterval_rangeSafe _ _ _ _) (fun o _ => ?_)
    split_ifs <;> exact rangeSafe_ok _

/-- The edge scan of `isDiagonal` reads the polygon at positions of the
polygon only. -/
theorem isDiagonalLoop_rangeSafe (EPSILON : ℚ) (polygon : List GLC_Vector2d) (i0 i1 : Nat)
    (hi0 : i0 < polygon.length) (hi1 : i1 < polygon.length) (k j0 j1 : Nat)
    (hk : k + j0 = polygon.length) (hj1 : j1 < polygon.length) :
    RangeSafe (isDiagonalLoop EPSILON polygon i0 i1 k j0 j1) := by
  induction k generalizing j0 j1 with
  | zero => exact rangeSafe_ok _
  | succ k ih =>
    have hj0 : j0 < polygon.length := by omega
    have hrec := ih (j0 + 1) j0 (by omega) hj0
    rw [Nat.cast_add, Nat.cast_one] at hrec
    rw [isDiagonalLoop]
    split_ifs
    · rw [elemAt_pointAt polygon i0 hi0, elemAt_pointAt polygon i1 hi1,
        elemAt_pointAt polygon j0 hj0, elemAt_pointAt polygon j1 hj1]
      simp only [andThen]
      refine rangeSafe_andThen (isIntersected_rangeSafe _ _ _ _ _) (fun hit _ => ?_)
      split_ifs
      · exact rangeSafe_ok _
      · exact hrec
    · exact hrec

/-- On a polygon of at least two vertices `isDiagonal` reads the polygon at
positions of the polygon only. -/
theorem isDiagonal_rangeSafe (EPSILON : ℚ) (polygon : List GLC_Vector2d) (i0 i1 : Nat)
    (hn : 2 ≤ polygon.length) (hi0 : i0 < polygon.length) (hi1 : i1 < polygon.length) :
    RangeSafe (isDiagonal EPSILON polygon i0 i1) := by
  have hsize : ¬ ((polygon.length : Int) = 0) := by omega
  have hM : (i0 + polygon.length - 1) % polygon.length < polygon.length :=
    Nat.mod_lt _ (by omega)
  have hP : (i0 + 1) % polygon.length < polygon.length := Nat.mod_lt _ (by omega)
  have hloop := isDiagonalLoop_rangeSafe EPSILON polygon i0 i1 hi0 hi1 polygon.length 0
    (polygon.length - 1) (by omega) (by omega)
  have hcast : ((polygon.length - 1 : Nat) : Int) = (polygon.length : Int) - 1 := by omega
  rw [Nat.cast_zero, hcast] at hloop
  unfold isDiagonal
  simp only [if_neg hsize, iM_eq i0 polygon.length hn hi0, iP_eq,
    elemAt_pointAt polygon i0 hi0, elemAt_pointAt polygon i1 hi1,
    elemAt_pointAt polygon _ hM, elemAt_pointAt polygon _ hP, andThen]
  split_ifs
  · exact hloop
  · exact rangeSafe_ok _

/-- The position two steps on that `triangulate` computes is the position two
steps on in the cycle. -/
theorem tmod_two_cast (i n : Nat) : Int.tmod ((i : Int) + 2) n = (((i + 2) % n : Nat) : Int) := by
  have h1 : (0 : Int) ≤ (i : Int) + 2 := by omega
  rw [Int.tmod_eq_emod h1 (Int.natCast_nonneg n)]
  norm_cast

/-- On a polygon of at least three vertices the scan of `triangulate` reads
the polygon at positions of the polygon only, and a triple it stops at is
`(j, (j + 1) % size, (j + 2) % size)` for a position `j`. -/
theorem triangulateLoop_sound (EPSILON : ℚ) (polygon : List GLC_Vector2d)
    (hn : 3 ≤ polygon.length) (k i0 : Nat) (hk : k + i0 = polygon.length) :
    RangeSafe (triangulateLoop EPSILON polygon k i0 (Int.tmod (i0 + 1) polygon.length)
      (Int.tmod (i0 + 2) polygon.length)) ∧
    ∀ a b c, triangulateLoop EPSILON polygon k i0 (Int.tmod (i0 + 1) polygon.length)
        (Int.tmod (i0 + 2) polygon.length) = .ok (some (a, b, c)) →
      ∃ j : Nat, j < polygon.length ∧ a = (j : Int) ∧
        b = (((j + 1) % polygon.length : Nat) : Int) ∧
        c = (((j + 2) % polygon.length : Nat) : Int) := by
  induction k generalizing i0 with
  | zero =>
    constructor
    · exact rangeSafe_ok _
    · intro a b c h
      exact absurd h (by simp [triangulateLoop])
  | succ k ih =>
    have hi0 : i0 < polygon.length := by omega
    have h2 : (i0 + 2) % polygon.length < polygon.length := Nat.mod_lt _ (by omega)
    have hdiag := isDiagonal_rangeSafe EPSILON polygon i0 ((i0 + 2) % polygon.length)
      (by omega) hi0 h2
    rw [← tmod_two_cast] at hdiag
    obtain ⟨hrec1, hrec2⟩ := ih (i0 + 1) (by omega)
    rw [Nat.cast_add, Nat.cast_one,
      show ((i0 : Int) + 1 + 2) = (i0 : Int) + 2 + 1 by ring,
      ← tmod_tmod_succ _ _ (by omega) (by omega),
      ← tmod_tmod_succ ((i0 : Int) + 2) _ (by omega) (by omega)] at hrec1 hrec2
    rw [triangulateLoop]
    cases hres : isDiagonal EPSILON polygon i0 (Int.tmod ((i0 : Int) + 2) polygon.length) with
    | error e =>
      constructor
      · intro e2 h
        rw [hres] at hdiag
        simp only [andThen] at h
        rw [← Except.error.inj h]
        exact hdiag e rfl
      · intro a b c h
        exact absurd h (by simp [andThen])
    | ok ear =>
      cases ear
      · simp only [andThen, Bool.false_eq_true, if_false]
        exact ⟨hrec1, hrec2⟩
      · simp only [andThen, if_true]
        constructor
        · exact rangeSafe_ok _
        · intro a b c h
          have h3 := Option.some.inj (Except.ok.inj h)
          simp only [Prod.mk.injEq] at h3
          obtain ⟨ha, hb, hc⟩ := h3
          exact ⟨i0, hi0, ha.symm, by rw [← hb, iP_eq], by rw [← hc, tmod_two_cast]⟩
/-- Removing the same position of two lists removes that position of their
list of pairs. -/
theorem zip_eraseIdx {α β : Type} (l : List α) (l2 : List β) (k : Nat) :
    (l.eraseIdx k).zip (l2.eraseIdx k) = (l.zip l2).eraseIdx k := by
  induction l generalizing l2 k with
  | nil => simp
  | cons a l ih =>
    cases l2 with
    | nil => simp
    | cons b l2 =>
      cases k with
      | zero => simp
      | succ k => simp [ih]

/-- Removing a position of a list is `List.eraseIdx` at that position. -/
theorem removeAt_natCast {α : Type} (l : List α) (k : Nat) (h : k < l.length) :
    removeAt l (k : Int) = l.eraseIdx k := by
  unfold removeAt
  rw [if_pos ⟨by omega, by omega⟩, Int.toNat_natCast]

/-- An element read from a list is an element of the list. -/
theorem elemAt_mem {α : Type} (l : List α) (k : Nat) (h : k < l.length) :
    ∃ a, elemAt l (k : Int) = .ok a ∧ a ∈ l := by
  obtain ⟨a, ea, ga⟩ := elemAt_ok l (k : Int) (by omega) (by omega)
  refine ⟨a, ea, ?_⟩
  obtain ⟨h2, rfl⟩ := List.getElem?_eq_some.mp ga
  exact List.getElem_mem _

/-- On a triangle with three index entries `triangulate` appends the three
entries and returns, whatever the depth it is given. -/
theorem triangulateAux_three (EPSILON : ℚ) (depth : Nat) (polygon : List GLC_Vector2d)
    (index tList : List Int) (h3 : polygon.length = 3) (hi : index.length = 3) :
    ∃ a b c, a ∈ index ∧ b ∈ index ∧ c ∈ index ∧
      triangulateAux EPSILON depth ⟨polygon, index, tList⟩
        = .ok ⟨polygon, index, tList ++ [a, b, c]⟩ := by
  obtain ⟨a, ea, ma⟩ := elemAt_mem index 0 (by omega)
  obtain ⟨b, eb, mb⟩ := elemAt_mem index 1 (by omega)
  obtain ⟨c, ec, mc⟩ := elemAt_mem index 2 (by omega)
  rw [Nat.cast_zero] at ea
  rw [Nat.cast_one] at eb
  rw [Nat.cast_ofNat] at ec
  refine ⟨a, b, c, ma, mb, mc, ?_⟩
  unfold triangulateAux
  simp only [if_pos h3, ea, eb, ec, andThen]

/-- The scan of `triangulate` from the first position, as the code starts
it. -/
theorem triangulateLoop_start (EPSILON : ℚ) (polygon : List GLC_Vector2d)
    (hn : 3 ≤ polygon.length) :
    RangeSafe (triangulateLoop EPSILON polygon polygon.length 0 1 2) ∧
    ∀ a b c, triangulateLoop EPSILON polygon polygon.length 0 1 2 = .ok (some (a, b, c)) →
      ∃ j : Nat, j < polygon.length ∧ a = (j : Int) ∧
        b = (((j + 1) % polygon.length : Nat) : Int) ∧
        c = (((j + 2) % polygon.length : Nat) : Int) := by
  have hloop := triangulateLoop_sound EPSILON polygon hn polygon.length 0 (by omega)
  have e1 : Int.tmod (((0 : Nat) : Int) + 1) polygon.length = 1 := by
    rw [Int.tmod_eq_of_lt (by norm_num) (by push_cast; omega)]
    norm_num
  have e2 : Int.tmod (((0 : Nat) : Int) + 2) polygon.length = 2 := by
    rw [Int.tmod_eq_of_lt (by norm_num) (by push_cast; omega)]
    norm_num
  rw [e1, e2, Nat.cast_zero] at hloop
  exact hloop

/-- The nested call of `triangulate`: from a polygon of at least three
vertices with as many index entries, the same position is removed from both
lists, three entries of the index list are appended, and the call on the
lists `s` is the call on the lists `s2` one level down. -/
theorem recursiveCall_shape (EPSILON : ℚ) (s s2 : Lists) (hn : 3 ≤ s.polygon.length)
    (hi : s.index.length = s.polygon.length) (h : RecursiveCall EPSILON s s2) :
    4 ≤ s.polygon.length ∧
    (∃ k, k < s.polygon.length ∧ s2.polygon = s.polygon.eraseIdx k ∧
      s2.index = s.index.eraseIdx k) ∧
    (∃ a b c, a ∈ s.index ∧ b ∈ s.index ∧ c ∈ s.index ∧ s2.tList = s.tList ++ [a, b, c]) ∧
    ∀ depth, triangulateAux EPSILON (depth + 1) s = triangulateAux EPSILON depth s2 := by
  obtain ⟨polygon, index, tList⟩ := s
  obtain ⟨h3, i0, i1, i2, a, b, c, hL, ea, eb, ec, hs2⟩ := h
  simp only at hn hi h3 hL ea eb ec hs2 ⊢
  obtain ⟨j, hj, rfl, rfl, rfl⟩ := (triangulateLoop_start EPSILON polygon hn).2 i0 i1 i2 hL
  have h1 : (j + 1) % polygon.length < polygon.length := Nat.mod_lt _ (by omega)
  have h2 : (j + 2) % polygon.length < polygon.length := Nat.mod_lt _ (by omega)
  obtain ⟨a2, ea2, ma⟩ := elemAt_mem index j (by omega)
  obtain ⟨b2, eb2, mb⟩ := elemAt_mem index ((j + 1) % polygon.length) (by omega)
  obtain ⟨c2, ec2, mc⟩ := elemAt_mem index ((j + 2) % polygon.length) (by omega)
  rw [ea] at ea2
  rw [eb] at eb2
  rw [ec] at ec2
  have haa := Except.ok.inj ea2
  have hbb := Except.ok.inj eb2
  have hcc := Except.ok.inj ec2
  subst haa hbb hcc
  rw [removeAt_natCast _ _ h1, removeAt_natCast _ _ (by omega)] at hs2
  subst hs2
  refine ⟨by omega, ⟨_, h1, rfl, rfl⟩, ⟨a, b, c, ma, mb, mc, rfl⟩, fun depth => ?_⟩
  rw [triangulateAux]
  simp only [if_neg h3, hL, ea, eb, ec, andThen]
  rw [removeAt_natCast _ _ h1, removeAt_natCast _ _ (by omega)]

/-- The run of `triangulate` on a polygon of at least three vertices with as
many index entries, within the depth it is given: it makes no access outside a
list and does not exhaust the depth; when it returns, the triangle list has
grown by three entries of the index list for each vertex removed, and by three
more when the polygon left is a triangle, and the pairs of a vertex and its
index entry that are left are pairs of the input, in their order. -/
theorem triangulateAux_sound (EPSILON : ℚ) (depth : Nat) (polygon : List GLC_Vector2d)
    (index tList : List Int) (hn : 3 ≤ polygon.length)
    (hdepth : polygon.length ≤ depth + 3) (hi : index.length = polygon.length) :
    RangeSafe (triangulateAux EPSILON depth ⟨polygon, index, tList⟩) ∧
    ∀ r, triangulateAux EPSILON depth ⟨polygon, index, tList⟩ = .ok r →
      ∃ added, r.tList = tList ++ added ∧ 3 ≤ r.polygon.length ∧
        r.polygon.length ≤ polygon.length ∧ r.index.length = r.polygon.length ∧
        added.length = 3 * (polygon.length - r.polygon.length)
          + (if r.polygon.length = 3 then 3 else 0) ∧
        (∀ x ∈ added, x ∈ index) ∧
        (r.polygon.zip r.index).Sublist (polygon.zip index) := by
  induction depth generalizing polygon index tList with
  | zero =>
    have h3 : polygon.length = 3 := by omega
    obtain ⟨a, b, c, ma, mb, mc, hrun⟩ :=
      triangulateAux_three EPSILON 0 polygon index tList h3 (by omega)
    rw [hrun]
    refine ⟨rangeSafe_ok _, fun r hr => ?_⟩
    rw [← Except.ok.inj hr]
    refine ⟨[a, b, c], rfl, hn, le_rfl, hi, by simp [h3], ?_, List.Sublist.refl _⟩
    intro x hx
    simp only [List.mem_cons, List.mem_singleton, List.not_mem_nil, or_false] at hx
    rcases hx with rfl | rfl | rfl <;> assumption
  | succ d ih =>
    by_cases h3 : polygon.length = 3
    · obtain ⟨a, b, c, ma, mb, mc, hrun⟩ :=
        triangulateAux_three EPSILON (d + 1) polygon index tList h3 (by omega)
      rw [hrun]
      refine ⟨rangeSafe_ok _, fun r hr => ?_⟩
      rw [← Except.ok.inj hr]
      refine ⟨[a, b, c], rfl, hn, le_rfl, hi, by simp [h3], ?_, List.Sublist.refl _⟩
      intro x hx
      simp only [List.mem_cons, List.mem_singleton, List.not_mem_nil, or_false] at hx
      rcases hx with rfl | rfl | rfl <;> assumption
    · obtain ⟨hsafe, hshape⟩ := triangulateLoop_start EPSILON polygon hn
      cases hL : triangulateLoop EPSILON polygon polygon.length 0 1 2 with
      | error e =>
        have hrun : triangulateAux EPSILON (d + 1) ⟨polygon, index, tList⟩ = .error e := by
          rw [triangulateAux]
          simp only [if_neg h3, hL, andThen]
        rw [hrun]
        rw [hL] at hsafe
        constructor
        · intro e2 h
          rw [← Except.error.inj h]
          exact hsafe e rfl
        · intro r hr
          exact Except.noConfusion hr
      | ok found =>
        cases found with
        | none =>
          have hrun : triangulateAux EPSILON (d + 1) ⟨polygon, index, tList⟩
              = .ok ⟨polygon, index, tList⟩ := by
            rw [triangulateAux]
            simp only [if_neg h3, hL, andThen]
          rw [hrun]
          refine ⟨rangeSafe_ok _, fun r hr => ?_⟩
          rw [← Except.ok.inj hr]
          exact ⟨[], by simp, hn, le_rfl, hi, by simp [h3], by simp, List.Sublist.refl _⟩
        | some t =>
          obtain ⟨i0, i1, i2⟩ := t
          obtain ⟨j, hj, rfl, rfl, rfl⟩ := hshape _ _ _ hL
          have h1 : (j + 1) % polygon.length < polygon.length := Nat.mod_lt _ (by omega)
          have h2 : (j + 2) % polygon.length < polygon.length := Nat.mod_lt _ (by omega)
          obtain ⟨a, ea, ma⟩ := elemAt_mem index j (by omega)
          obtain ⟨b, eb, mb⟩ := elemAt_mem index ((j + 1) % polygon.length) (by omega)
          obtain ⟨c, ec, mc⟩ := elemAt_mem index ((j + 2) % polygon.length) (by omega)
          have hcall : RecursiveCall EPSILON ⟨polygon, index, tList⟩
              ⟨removeAt polygon (((j + 1) % polygon.length : Nat) : Int),
                removeAt index (((j + 1) % polygon.length : Nat) : Int),
                tList ++ [a, b, c]⟩ :=
            ⟨h3, _, _, _, a, b, c, hL, ea, eb, ec, rfl⟩
          obtain ⟨-, -, -, hstep⟩ := recursiveCall_shape EPSILON _ _ hn hi hcall
          rw [hstep d, removeAt_natCast _ _ h1, removeAt_natCast _ _ (by omega)]
          have hlenP : (polygon.eraseIdx ((j + 1) % polygon.length)).length
              = polygon.length - 1 := by
            rw [List.length_eraseIdx, if_pos h1]
          have hlenI : (index.eraseIdx ((j + 1) % polygon.length)).length
              = index.length - 1 := by
            rw [List.length_eraseIdx, if_pos (by omega)]
          obtain ⟨hs, hr⟩ := ih (polygon.eraseIdx ((j + 1) % polygon.length))
            (index.eraseIdx ((j + 1) % polygon.length)) (tList ++ [a, b, c])
            (by omega) (by omega) (by omega)
          refine ⟨hs, fun r hrr => ?_⟩
          obtain ⟨added, et, hr3, hrle, hri, hadd, hmem, hsub⟩ := hr r hrr
          refine ⟨[a, b, c] ++ added, by rw [et, List.append_assoc], hr3, by omega, hri,
            ?_, ?_, ?_⟩
          · rw [List.length_append, hadd, hlenP]
            simp only [List.length_cons, List.length_nil]
            omega
          · intro x hx
            rcases List.mem_append.mp hx with hx1 | hx2
            · simp only [List.mem_cons, List.mem_singleton, List.not_mem_nil,
                or_false] at hx1
              rcases hx1 with rfl | rfl | rfl <;> assumption
            · exact (List.eraseIdx_sublist _ _).subset (hmem x hx2)
          · rw [zip_eraseIdx] at hsub
            exact hsub.trans (List.eraseIdx_sublist _ _)
/-- What holds of the lists of every nested call of `triangulate`, from lists
`s0` of at least three vertices and as many index entries: the two lists have
the same length, of at least three; the triangle list is the one of `s0`
followed by three entries of the index list of `s0` for each vertex removed;
the pairs of a vertex and its index entry are pairs of `s0`, in their order;
and the call on `s0` is the call on these lists, as many levels down as
vertices were removed. -/
theorem reachable_inv (EPSILON : ℚ) (s0 s : Lists) (hn : 3 ≤ s0.polygon.length)
    (hi : s0.index.length = s0.polygon.length)
    (h : Relation.ReflTransGen (RecursiveCall EPSILON) s0 s) :
    3 ≤ s.polygon.length ∧ s.index.length = s.polygon.length ∧
    s.polygon.length ≤ s0.polygon.length ∧
    (∃ added, s.tList = s0.tList ++ added ∧
      added.length = 3 * (s0.polygon.length - s.polygon.length) ∧
      ∀ x ∈ added, x ∈ s0.index) ∧
    s.index.Sublist s0.index ∧
    (s.polygon.zip s.index).Sublist (s0.polygon.zip s0.index) ∧
    ∀ depth, triangulateAux EPSILON (depth + (s0.polygon.length - s.polygon.length)) s0
      = triangulateAux EPSILON depth s := by
  induction h with
  | refl =>
    refine ⟨hn, hi, le_rfl, ⟨[], by simp, by simp, by simp⟩, List.Sublist.refl _,
      List.Sublist.refl _, fun depth => ?_⟩
    rw [Nat.sub_self, Nat.add_zero]
  | @tail b c _ hbc ih =>
    obtain ⟨hb3, hbi, hble, ⟨added, hadd, haddlen, haddmem⟩, hbsub, hbzip, hbdepth⟩ := ih
    obtain ⟨h4, ⟨k, hk, hcp, hci⟩, ⟨x, y, z, mx, my, mz, hct⟩, hstep⟩ :=
      recursiveCall_shape EPSILON b c hb3 hbi hbc
    have hlenP : c.polygon.length = b.polygon.length - 1 := by
      rw [hcp, List.length_eraseIdx, if_pos hk]
    have hlenI : c.index.length = b.index.length - 1 := by
      rw [hci, List.length_eraseIdx, if_pos (by omega)]
    refine ⟨by omega, by omega, by omega, ⟨added ++ [x, y, z], ?_, ?_, ?_⟩, ?_, ?_, ?_⟩
    · rw [hct, hadd, List.append_assoc]
    · rw [List.length_append, haddlen, hlenP]
      simp only [List.length_cons, List.length_nil]
      omega
    · intro w hw
      rcases List.mem_append.mp hw with hw1 | hw2
      · exact haddmem w hw1
      · simp only [List.mem_cons, List.mem_singleton, List.not_mem_nil, or_false] at hw2
        rcases hw2 with rfl | rfl | rfl
        · exact hbsub.subset mx
        · exact hbsub.subset my
        · exact hbsub.subset mz
    · rw [hci]
      exact (List.eraseIdx_sublist _ _).trans hbsub
    · rw [hcp, hci, zip_eraseIdx]
      exact (List.eraseIdx_sublist _ _).trans hbzip
    · intro depth
      have e : depth + (s0.polygon.length - c.polygon.length)
          = (depth + 1) + (s0.polygon.length - b.polygon.length) := by omega
      rw [e, hbdepth (depth + 1), hstep depth]

/-- A call of `triangulate` on a polygon of at least three vertices with as
many index entries either makes a nested call, or ends in a way that does not
depend on the depth it is given. -/
theorem triangulateAux_cases (EPSILON : ℚ) (s : Lists) (hn : 3 ≤ s.polygon.length)
    (hi : s.index.length = s.polygon.length) :
    (∃ s2, RecursiveCall EPSILON s s2) ∨
    (∀ d1 d2, triangulateAux EPSILON d1 s = triangulateAux EPSILON d2 s) := by
  obtain ⟨polygon, index, tList⟩ := s
  simp only at hn hi
  by_cases h3 : polygon.length = 3
  · right
    intro d1 d2
    rw [triangulateAux, triangulateAux]
    simp only [if_pos h3]
  · cases hL : triangulateLoop EPSILON polygon polygon.length 0 1 2 with
    | error e =>
      right
      intro d1 d2
      rw [triangulateAux, triangulateAux]
      simp only [if_neg h3, hL, andThen]
    | ok found =>
      cases found with
      | none =>
        right
        intro d1 d2
        rw [triangulateAux, triangulateAux]
        simp only [if_neg h3, hL, andThen]
      | some t =>
        left
        obtain ⟨i0, i1, i2⟩ := t
        obtain ⟨j, hj, rfl, rfl, rfl⟩ := (triangulateLoop_start EPSILON polygon hn).2 _ _ _ hL
        have h1 : (j + 1) % polygon.length < polygon.length := Nat.mod_lt _ (by omega)
        have h2 : (j + 2) % polygon.length < polygon.length := Nat.mod_lt _ (by omega)
        obtain ⟨a, ea, -⟩ := elemAt_mem index j (by omega)
        obtain ⟨b, eb, -⟩ := elemAt_mem index ((j + 1) % polygon.length) (by omega)
        obtain ⟨c, ec, -⟩ := elemAt_mem index ((j + 2) % polygon.length) (by omega)
        exact ⟨_, h3, _, _, _, a, b, c, hL, ea, eb, ec, rfl⟩

/-- The depth `n - 3` is enough for a polygon of `n` vertices: with any larger
depth the run of `triangulate` is the same. -/
theorem triangulateAux_depth (EPSILON : ℚ) (depth : Nat) (s : Lists)
    (hn : 3 ≤ s.polygon.length) (hdepth : s.polygon.length ≤ depth + 3)
    (hi : s.index.length = s.polygon.length) (d2 : Nat) (hd2 : depth ≤ d2) :
    triangulateAux EPSILON d2 s = triangulateAux EPSILON depth s := by
  induction depth generalizing s d2 with
  | zero =>
    rcases triangulateAux_cases EPSILON s hn hi with ⟨s2, hcall⟩ | hsame
    · obtain ⟨h4, -⟩ := recursiveCall_shape EPSILON s s2 hn hi hcall
      omega
    · exact hsame _ _
  | succ d ih =>
    rcases triangulateAux_cases EPSILON s hn hi with ⟨s2, hcall⟩ | hsame
    · obtain ⟨h4, ⟨k, hk, hcp, hci⟩, -, hstep⟩ := recursiveCall_shape EPSILON s s2 hn hi hcall
      obtain ⟨e, rfl⟩ : ∃ e, d2 = e + 1 := ⟨d2 - 1, by omega⟩
      have hlenP : s2.polygon.length = s.polygon.length - 1 := by
        rw [hcp, List.length_eraseIdx, if_pos hk]
      have hlenI : s2.index.length = s.index.length - 1 := by
        rw [hci, List.length_eraseIdx, if_pos (by omega)]
      rw [hstep e, hstep d]
      exact ih s2 (by omega) (by omega) (by omega) e (by omega)
    · exact hsame _ _

/-! ## Triangulation: the claims on every polygon -/

/-- C15: on a polygon of `n >= 3` vertices with an index list of length `n`,
whatever the triangle list at the start, the triangle list of every nested
call of `triangulate` and the one it returns are the list at the start
followed by a whole number of triples, all of them entries of the index list
at the start; and it does return when the vertices are different and the
tolerance is in `[0, 1)`. -/
theorem triangulate_appends (EPSILON : ℚ) (polygon : List GLC_Vector2d)
    (index tList : List Int) (hn : 3 ≤ polygon.length)
    (hi : index.length = polygon.length) :
    (∀ s, Relation.ReflTransGen (RecursiveCall EPSILON) ⟨polygon, index, tList⟩ s →
      ∃ added, s.tList = tList ++ added ∧ 3 ∣ added.length ∧ ∀ x ∈ added, x ∈ index) ∧
    (∀ r, triangulate EPSILON polygon index tList = .ok r →
      ∃ added, r.tList = tList ++ added ∧ 3 ∣ added.length ∧ ∀ x ∈ added, x ∈ index) ∧
    (0 ≤ EPSILON → EPSILON < 1 → polygon.Nodup →
      ∃ r, triangulate EPSILON polygon index tList = .ok r) := by
  refine ⟨fun s hs => ?_, fun r hr => ?_, fun h0 h1 hd => ?_⟩
  · obtain ⟨-, -, -, ⟨added, hadd, hlen, hmem⟩, -⟩ :=
      reachable_inv EPSILON ⟨polygon, index, tList⟩ s hn hi hs
    exact ⟨added, hadd, ⟨_, hlen⟩, hmem⟩
  · obtain ⟨added, hadd, -, -, -, hlen, hmem, -⟩ :=
      (triangulateAux_sound EPSILON polygon.length polygon index tList hn (by omega) hi).2 r hr
    refine ⟨added, hadd, ?_, hmem⟩
    rw [hlen]
    split_ifs
    · exact ⟨polygon.length - r.polygon.length + 1, by ring⟩
    · exact ⟨polygon.length - r.polygon.length, by ring⟩
  · obtain ⟨r, added, hr, -⟩ :=
      triangulateAux_spec h0 h1 polygon.length polygon index tList hn (by omega) hi hd
    exact ⟨r, hr⟩

/-- Witness of C15 on the square `(0,0), (0,1), (1,1), (1,0)` with the index
list `10, 11, 12, 13` and the triangle list `7` at the start. -/
theorem triangulate_appends_witness :
    (3 ≤ [(⟨0, 0⟩ : GLC_Vector2d), ⟨0, 1⟩, ⟨1, 1⟩, ⟨1, 0⟩].length ∧
      [(10 : Int), 11, 12, 13].length
        = [(⟨0, 0⟩ : GLC_Vector2d), ⟨0, 1⟩, ⟨1, 1⟩, ⟨1, 0⟩].length ∧
      triangulate (1 / 10000000000) [⟨0, 0⟩, ⟨0, 1⟩, ⟨1, 1⟩, ⟨1, 0⟩] [10, 11, 12, 13] [7]
        = .ok ⟨[⟨0, 0⟩, ⟨1, 1⟩, ⟨1, 0⟩], [10, 12, 13], [7, 10, 11, 12, 10, 12, 13]⟩) ∧
    ((∀ s, Relation.ReflTransGen (RecursiveCall (1 / 10000000000))
        ⟨[⟨0, 0⟩, ⟨0, 1⟩, ⟨1, 1⟩, ⟨1, 0⟩], [10, 11, 12, 13], [7]⟩ s →
      ∃ added, s.tList = [7] ++ added ∧ 3 ∣ added.length ∧
        ∀ x ∈ added, x ∈ [(10 : Int), 11, 12, 13]) ∧
    (∀ r, triangulate (1 / 10000000000) [⟨0, 0⟩, ⟨0, 1⟩, ⟨1, 1⟩, ⟨1, 0⟩] [10, 11, 12, 13] [7]
        = .ok r →
      ∃ added, r.tList = [7] ++ added ∧ 3 ∣ added.length ∧
        ∀ x ∈ added, x ∈ [(10 : Int), 11, 12, 13]) ∧
    ((0 : ℚ) ≤ 1 / 10000000000 → (1 / 10000000000 : ℚ) < 1 →
      [(⟨0, 0⟩ : GLC_Vector2d), ⟨0, 1⟩, ⟨1, 1⟩, ⟨1, 0⟩].Nodup →
      ∃ r, triangulate (1 / 10000000000) [⟨0, 0⟩, ⟨0, 1⟩, ⟨1, 1⟩, ⟨1, 0⟩] [10, 11, 12, 13] [7]
        = .ok r)) :=
  ⟨⟨by decide, rfl, by decide!⟩,
    triangulate_appends (1 / 10000000000) [⟨0, 0⟩, ⟨0, 1⟩, ⟨1, 1⟩, ⟨1, 0⟩] [10, 11, 12, 13] [7]
      (by decide) rfl⟩

/-- C17: from a polygon and an index list of the same length `n >= 3`, at
every nested call of `triangulate` and on return the two lists have the same
length; each nested call is made on the two lists with one and the same
position removed from both, the other elements in their order; so the pairs of
a vertex and its index entry at every call and on return are pairs of the
input, in their order. -/
theorem triangulate_lists_parallel (EPSILON : ℚ) (polygon : List GLC_Vector2d)
    (index tList : List Int) (hn : 3 ≤ polygon.length)
    (hi : index.length = polygon.length) :
    (∀ s, Relation.ReflTransGen (RecursiveCall EPSILON) ⟨polygon, index, tList⟩ s →
      s.index.length = s.polygon.length ∧
      (s.polygon.zip s.index).Sublist (polygon.zip index) ∧
      ∀ s2, RecursiveCall EPSILON s s2 →
        ∃ k, k < s.polygon.length ∧ s2.polygon = s.polygon.eraseIdx k ∧
          s2.index = s.index.eraseIdx k ∧
          s2.polygon.length + 1 = s.polygon.length ∧
          s2.index.length + 1 = s.index.length) ∧
    (∀ r, triangulate EPSILON polygon index tList = .ok r →
      r.index.length = r.polygon.length ∧
      (r.polygon.zip r.index).Sublist (polygon.zip index)) := by
  refine ⟨fun s hs => ?_, fun r hr => ?_⟩
  · obtain ⟨hs3, hsi, -, -, -, hzip, -⟩ :=
      reachable_inv EPSILON ⟨polygon, index, tList⟩ s hn hi hs
    refine ⟨hsi, hzip, fun s2 hcall => ?_⟩
    obtain ⟨h4, ⟨k, hk, hcp, hci⟩, -, -⟩ := recursiveCall_shape EPSILON s s2 hs3 hsi hcall
    refine ⟨k, hk, hcp, hci, ?_, ?_⟩
    · rw [hcp, List.length_eraseIdx, if_pos hk]
      omega
    · rw [hci, List.length_eraseIdx, if_pos (by omega)]
      omega
  · obtain ⟨added, -, -, -, hri, -, -, hzip⟩ :=
      (triangulateAux_sound EPSILON polygon.length polygon index tList hn (by omega) hi).2 r hr
    exact ⟨hri, hzip⟩

/-- Witness of C17 on the square `(0,0), (0,1), (1,1), (1,0)`, from which
position `1` is removed. -/
theorem triangulate_lists_parallel_witness :
    (3 ≤ [(⟨0, 0⟩ : GLC_Vector2d), ⟨0, 1⟩, ⟨1, 1⟩, ⟨1, 0⟩].length ∧
      [(10 : Int), 11, 12, 13].length
        = [(⟨0, 0⟩ : GLC_Vector2d), ⟨0, 1⟩, ⟨1, 1⟩, ⟨1, 0⟩].length ∧
      RecursiveCall (1 / 10000000000)
        ⟨[⟨0, 0⟩, ⟨0, 1⟩, ⟨1, 1⟩, ⟨1, 0⟩], [10, 11, 12, 13], []⟩
        ⟨[⟨0, 0⟩, ⟨1, 1⟩, ⟨1, 0⟩], [10, 12, 13], [10, 11, 12]⟩ ∧
      triangulate (1 / 10000000000) [⟨0, 0⟩, ⟨0, 1⟩, ⟨1, 1⟩, ⟨1, 0⟩] [10, 11, 12, 13] []
        = .ok ⟨[⟨0, 0⟩, ⟨1, 1⟩, ⟨1, 0⟩], [10, 12, 13], [10, 11, 12, 10, 12, 13]⟩) ∧
    ((∀ s, Relation.ReflTransGen (RecursiveCall (1 / 10000000000))
        ⟨[⟨0, 0⟩, ⟨0, 1⟩, ⟨1, 1⟩, ⟨1, 0⟩], [10, 11, 12, 13], []⟩ s →
      s.index.length = s.polygon.length ∧
      (s.polygon.zip s.index).Sublist
        ([(⟨0, 0⟩ : GLC_Vector2d), ⟨0, 1⟩, ⟨1, 1⟩, ⟨1, 0⟩].zip [(10 : Int), 11, 12, 13]) ∧
      ∀ s2, RecursiveCall (1 / 10000000000) s s2 →
        ∃ k, k < s.polygon.length ∧ s2.polygon = s.polygon.eraseIdx k ∧
          s2.index = s.index.eraseIdx k ∧
          s2.polygon.length + 1 = s.polygon.length ∧
          s2.index.length + 1 = s.index.length) ∧
    (∀ r, triangulate (1 / 10000000000) [⟨0, 0⟩, ⟨0, 1⟩, ⟨1, 1⟩, ⟨1, 0⟩] [10, 11, 12, 13] []
        = .ok r →
      r.index.length = r.polygon.length ∧
      (r.polygon.zip r.index).Sublist
        ([(⟨0, 0⟩ : GLC_Vector2d), ⟨0, 1⟩, ⟨1, 1⟩, ⟨1, 0⟩].zip [(10 : Int), 11, 12, 13]))) :=
  ⟨⟨by decide, rfl,
      ⟨by decide, 0, 1, 2, 10, 11, 12, by decide!, by decide!, by decide!, by decide!,
        by decide!⟩,
      by decide!⟩,
    triangulate_lists_parallel (1 / 10000000000) [⟨0, 0⟩, ⟨0, 1⟩, ⟨1, 1⟩, ⟨1, 0⟩]
      [10, 11, 12, 13] [] (by decide) rfl⟩
/-- C18: on every polygon of `n >= 3` vertices with an index list of the same
length `triangulate` ends: each nested call is made on a polygon with exactly
one vertex less, a polygon at any level has at least three vertices, so that
there are at most `n - 3` levels below the first call; the depth `n - 3` is
enough and never exhausted; and at most `n - 2` triangles are appended. -/
theorem triangulate_terminates (EPSILON : ℚ) (polygon : List GLC_Vector2d)
    (index tList : List Int) (hn : 3 ≤ polygon.length)
    (hi : index.length = polygon.length) :
    (∀ s, Relation.ReflTransGen (RecursiveCall EPSILON) ⟨polygon, index, tList⟩ s →
      3 ≤ s.polygon.length ∧
      s.tList.length = tList.length + 3 * (polygon.length - s.polygon.length) ∧
      ∀ s2, RecursiveCall EPSILON s s2 → s2.polygon.length + 1 = s.polygon.length) ∧
    (∀ depth, polygon.length - 3 ≤ depth →
      triangulateAux EPSILON depth ⟨polygon, index, tList⟩
        = triangulateAux EPSILON (polygon.length - 3) ⟨polygon, index, tList⟩) ∧
    triangulateAux EPSILON (polygon.length - 3) ⟨polygon, index, tList⟩
      ≠ .error .stackExhausted ∧
    triangulate EPSILON polygon index tList ≠ .error .stackExhausted ∧
    (∀ r, triangulate EPSILON polygon index tList = .ok r →
      ∃ added, r.tList = tList ++ added ∧ added.length ≤ 3 * (polygon.length - 2)) := by
  have hsound := triangulateAux_sound EPSILON polygon.length polygon index tList hn
    (by omega) hi
  have hsound3 := triangulateAux_sound EPSILON (polygon.length - 3) polygon index tList hn
    (by omega) hi
  refine ⟨fun s hs => ?_, fun depth hdepth => ?_, ?_, ?_, fun r hr => ?_⟩
  · obtain ⟨hs3, hsi, -, ⟨added, hadd, hlen, -⟩, -, -, -⟩ :=
      reachable_inv EPSILON ⟨polygon, index, tList⟩ s hn hi hs
    refine ⟨hs3, ?_, fun s2 hcall => ?_⟩
    · rw [hadd, List.length_append, hlen]
    · obtain ⟨h4, ⟨k, hk, hcp, -⟩, -, -⟩ := recursiveCall_shape EPSILON s s2 hs3 hsi hcall
      rw [hcp, List.length_eraseIdx, if_pos hk]
      omega
  · exact triangulateAux_depth EPSILON (polygon.length - 3) ⟨polygon, index, tList⟩ hn
      (by simp only; omega) hi depth hdepth
  · intro h
    rcases hsound3.1 _ h with h2 | h2 <;> exact Fault.noConfusion h2
  · intro h
    rcases hsound.1 _ h with h2 | h2 <;> exact Fault.noConfusion h2
  · obtain ⟨added, hadd, hr3, hrle, -, hlen, -, -⟩ := hsound.2 r hr
    refine ⟨added, hadd, ?_⟩
    rw [hlen]
    split_ifs <;> omega

/-- Witness of C18 on the square `(0,0), (0,1), (1,1), (1,0)`, which makes one
nested call. -/
theorem triangulate_terminates_witness :
    (3 ≤ [(⟨0, 0⟩ : GLC_Vector2d), ⟨0, 1⟩, ⟨1, 1⟩, ⟨1, 0⟩].length ∧
      [(10 : Int), 11, 12, 13].length
        = [(⟨0, 0⟩ : GLC_Vector2d), ⟨0, 1⟩, ⟨1, 1⟩, ⟨1, 0⟩].length ∧
      RecursiveCall (1 / 10000000000)
        ⟨[⟨0, 0⟩, ⟨0, 1⟩, ⟨1, 1⟩, ⟨1, 0⟩], [10, 11, 12, 13], []⟩
        ⟨[⟨0, 0⟩, ⟨1, 1⟩, ⟨1, 0⟩], [10, 12, 13], [10, 11, 12]⟩ ∧
      triangulateAux (1 / 10000000000) 1
          ⟨[⟨0, 0⟩, ⟨0, 1⟩, ⟨1, 1⟩, ⟨1, 0⟩], [10, 11, 12, 13], []⟩
        = .ok ⟨[⟨0, 0⟩, ⟨1, 1⟩, ⟨1, 0⟩], [10, 12, 13], [10, 11, 12, 10, 12, 13]⟩) ∧
    ((∀ s, Relation.ReflTransGen (RecursiveCall (1 / 10000000000))
        ⟨[⟨0, 0⟩, ⟨0, 1⟩, ⟨1, 1⟩, ⟨1, 0⟩], [10, 11, 12, 13], []⟩ s →
      3 ≤ s.polygon.length ∧
      s.tList.length = ([] : List Int).length
        + 3 * ([(⟨0, 0⟩ : GLC_Vector2d), ⟨0, 1⟩, ⟨1, 1⟩, ⟨1, 0⟩].length - s.polygon.length) ∧
      ∀ s2, RecursiveCall (1 / 10000000000) s s2 →
        s2.polygon.length + 1 = s.polygon.length) ∧
    (∀ depth, [(⟨0, 0⟩ : GLC_Vector2d), ⟨0, 1⟩, ⟨1, 1⟩, ⟨1, 0⟩].length - 3 ≤ depth →
      triangulateAux (1 / 10000000000) depth
          ⟨[⟨0, 0⟩, ⟨0, 1⟩, ⟨1, 1⟩, ⟨1, 0⟩], [10, 11, 12, 13], []⟩
        = triangulateAux (1 / 10000000000)
          ([(⟨0, 0⟩ : GLC_Vector2d), ⟨0, 1⟩, ⟨1, 1⟩, ⟨1, 0⟩].length - 3)
          ⟨[⟨0, 0⟩, ⟨0, 1⟩, ⟨1, 1⟩, ⟨1, 0⟩], [10, 11, 12, 13], []⟩) ∧
    triangulateAux (1 / 10000000000)
        ([(⟨0, 0⟩ : GLC_Vector2d), ⟨0, 1⟩, ⟨1, 1⟩, ⟨1, 0⟩].length - 3)
        ⟨[⟨0, 0⟩, ⟨0, 1⟩, ⟨1, 1⟩, ⟨1, 0⟩], [10, 11, 12, 13], []⟩
      ≠ .error .stackExhausted ∧
    triangulate (1 / 10000000000) [⟨0, 0⟩, ⟨0, 1⟩, ⟨1, 1⟩, ⟨1, 0⟩] [10, 11, 12, 13] []
      ≠ .error .stackExhausted ∧
    (∀ r, triangulate (1 / 10000000000) [⟨0, 0⟩, ⟨0, 1⟩, ⟨1, 1⟩, ⟨1, 0⟩] [10, 11, 12, 13] []
        = .ok r →
      ∃ added, r.tList = [] ++ added ∧
        added.length
          ≤ 3 * ([(⟨0, 0⟩ : GLC_Vector2d), ⟨0, 1⟩, ⟨1, 1⟩, ⟨1, 0⟩].length - 2))) :=
  ⟨⟨by decide, rfl,
      ⟨by decide, 0, 1, 2, 10, 11, 12, by decide!, by decide!, by decide!, by decide!,
        by decide!⟩,
      by decide!⟩,
    triangulate_terminates (1 / 10000000000) [⟨0, 0⟩, ⟨0, 1⟩, ⟨1, 1⟩, ⟨1, 0⟩]
      [10, 11, 12, 13] [] (by decide) rfl⟩

/-- C19: on every polygon of `n >= 3` vertices with an index list of the same
length, no element access of `triangulate` or of the `isDiagonal` calls it
makes leaves its list: the run does not stop on an access out of range, and at
every nested call the position `i1` that is removed is a position of the two
lists, the three entries `index[i0]`, `index[i1]`, `index[i2]` are read, the
triangle case reads `index[0]`, `index[1]`, `index[2]`, and `isDiagonal` makes
no access out of range at any pair of positions. -/
theorem triangulate_in_range (EPSILON : ℚ) (polygon : List GLC_Vector2d)
    (index tList : List Int) (hn : 3 ≤ polygon.length)
    (hi : index.length = polygon.length) :
    triangulate EPSILON polygon index tList ≠ .error .indexOutOfRange ∧
    ∀ s, Relation.ReflTransGen (RecursiveCall EPSILON) ⟨polygon, index, tList⟩ s →
      triangulate EPSILON s.polygon s.index s.tList ≠ .error .indexOutOfRange ∧
      (∀ i0 i1 : Nat, i0 < s.polygon.length → i1 < s.polygon.length →
        isDiagonal EPSILON s.polygon i0 i1 ≠ .error .indexOutOfRange) ∧
      (∀ i0 i1 i2, triangulateLoop EPSILON s.polygon s.polygon.length 0 1 2
          = .ok (some (i0, i1, i2)) →
        (0 ≤ i0 ∧ i0 < s.polygon.length) ∧ (0 ≤ i1 ∧ i1 < s.polygon.length) ∧
        (0 ≤ i2 ∧ i2 < s.polygon.length) ∧
        ∃ a b c, elemAt s.index i0 = .ok a ∧ elemAt s.index i1 = .ok b ∧
          elemAt s.index i2 = .ok c) ∧
      (s.polygon.length = 3 →
        ∃ a b c, elemAt s.index 0 = .ok a ∧ elemAt s.index 1 = .ok b ∧
          elemAt s.index 2 = .ok c) := by
  have hsound := triangulateAux_sound EPSILON polygon.length polygon index tList hn
    (by omega) hi
  constructor
  · intro h
    rcases hsound.1 _ h with h2 | h2 <;> exact Fault.noConfusion h2
  · intro s hs
    obtain ⟨hs3, hsi, hsle, -, -, -, hdepth⟩ :=
      reachable_inv EPSILON ⟨polygon, index, tList⟩ s hn hi hs
    refine ⟨fun h => ?_, fun i0 i1 h0 h1 h => ?_, fun i0 i1 i2 hL => ?_, fun h3 => ?_⟩
    · have hbig := triangulateAux_sound EPSILON s.polygon.length s.polygon s.index
        s.tList hs3 (by omega) hsi
      rcases hbig.1 _ h with h2 | h2 <;> exact Fault.noConfusion h2
    · rcases isDiagonal_rangeSafe EPSILON s.polygon i0 i1 (by omega) h0 h1 _ h with h2 | h2 <;>
        exact Fault.noConfusion h2
    · obtain ⟨j, hj, rfl, rfl, rfl⟩ := (triangulateLoop_start EPSILON s.polygon hs3).2 _ _ _ hL
      have h1 : (j + 1) % s.polygon.length < s.polygon.length := Nat.mod_lt _ (by omega)
      have h2 : (j + 2) % s.polygon.length < s.polygon.length := Nat.mod_lt _ (by omega)
      obtain ⟨a, ea, -⟩ := elemAt_mem s.index j (by omega)
      obtain ⟨b, eb, -⟩ := elemAt_mem s.index ((j + 1) % s.polygon.length) (by omega)
      obtain ⟨c, ec, -⟩ := elemAt_mem s.index ((j + 2) % s.polygon.length) (by omega)
      exact ⟨⟨by omega, by omega⟩, ⟨by omega, by omega⟩, ⟨by omega, by omega⟩,
        a, b, c, ea, eb, ec⟩
    · obtain ⟨a, ea, -⟩ := elemAt_mem s.index 0 (by omega)
      obtain ⟨b, eb, -⟩ := elemAt_mem s.index 1 (by omega)
      obtain ⟨c, ec, -⟩ := elemAt_mem s.index 2 (by omega)
      rw [Nat.cast_zero] at ea
      rw [Nat.cast_one] at eb
      rw [Nat.cast_ofNat] at ec
      exact ⟨a, b, c, ea, eb, ec⟩

/-- Witness of C19 on the square `(0,0), (0,1), (1,1), (1,0)`. -/
theorem triangulate_in_range_witness :
    (3 ≤ [(⟨0, 0⟩ : GLC_Vector2d), ⟨0, 1⟩, ⟨1, 1⟩, ⟨1, 0⟩].length ∧
      [(10 : Int), 11, 12, 13].length
        = [(⟨0, 0⟩ : GLC_Vector2d), ⟨0, 1⟩, ⟨1, 1⟩, ⟨1, 0⟩].length ∧
      RecursiveCall (1 / 10000000000)
        ⟨[⟨0, 0⟩, ⟨0, 1⟩, ⟨1, 1⟩, ⟨1, 0⟩], [10, 11, 12, 13], []⟩
        ⟨[⟨0, 0⟩, ⟨1, 1⟩, ⟨1, 0⟩], [10, 12, 13], [10, 11, 12]⟩) ∧
    (triangulate (1 / 10000000000) [⟨0, 0⟩, ⟨0, 1⟩, ⟨1, 1⟩, ⟨1, 0⟩] [10, 11, 12, 13] []
      ≠ .error .indexOutOfRange ∧
    ∀ s, Relation.ReflTransGen (RecursiveCall (1 / 10000000000))
        ⟨[⟨0, 0⟩, ⟨0, 1⟩, ⟨1, 1⟩, ⟨1, 0⟩], [10, 11, 12, 13], []⟩ s →
      triangulate (1 / 10000000000) s.polygon s.index s.tList ≠ .error .indexOutOfRange ∧
      (∀ i0 i1 : Nat, i0 < s.polygon.length → i1 < s.polygon.length →
        isDiagonal (1 / 10000000000) s.polygon i0 i1 ≠ .error .indexOutOfRange) ∧
      (∀ i0 i1 i2, triangulateLoop (1 / 10000000000) s.polygon s.polygon.length 0 1 2
          = .ok (some (i0, i1, i2)) →
        (0 ≤ i0 ∧ i0 < s.polygon.length) ∧ (0 ≤ i1 ∧ i1 < s.polygon.length) ∧
        (0 ≤ i2 ∧ i2 < s.polygon.length) ∧
        ∃ a b c, elemAt s.index i0 = .ok a ∧ elemAt s.index i1 = .ok b ∧
          elemAt s.index i2 = .ok c) ∧
      (s.polygon.length = 3 →
        ∃ a b c, elemAt s.index 0 = .ok a ∧ elemAt s.index 1 = .ok b ∧
          elemAt s.index 2 = .ok c)) :=
  ⟨⟨by decide, rfl,
      ⟨by decide, 0, 1, 2, 10, 11, 12, by decide!, by decide!, by decide!, by decide!,
        by decide!⟩⟩,
    triangulate_in_range (1 / 10000000000) [⟨0, 0⟩, ⟨0, 1⟩, ⟨1, 1⟩, ⟨1, 0⟩]
      [10, 11, 12, 13] [] (by decide) rfl⟩

/-! ## The projection of a face -/

/-- C16, as the code has it: for every face of at least three vertices whose
normal computed from the first three vertices is `(0,0,1)`, the projection
step of `triangulateMeshPoly` finds `normal ^ AxeZ` null, takes `AxeX` as
reference, turns the face by a quarter turn about the Y axis and drops the X
coordinate: the 2D polygon is, point for point, `(y, -x)` of the vertices of
the face. -/
theorem triangulateMeshPolyPolygon_normal_z (getVertex : Int → GLC_Vector4d)
    (face : List Int) (hnormal : faceNormal (face.map getVertex) = .ok ⟨0, 0, 1⟩) :
    triangulateMeshPolyPolygon getVertex face
      = .ok (face.map fun i => ⟨(getVertex i).y, -(getVertex i).x⟩) := by
  have hframe : (if GLC_Vector4d.isNull (GLC_Vector4d.cross ⟨0, 0, 1⟩ AxeZ) = true then
        if GLC_Vector4d.isNull (GLC_Vector4d.cross ⟨0, 0, 1⟩ AxeX) = true then
          (GLC_Vector4d.cross ⟨0, 0, 1⟩ AxeY, AxeY)
        else (GLC_Vector4d.cross ⟨0, 0, 1⟩ AxeX, AxeX)
      else (GLC_Vector4d.cross ⟨0, 0, 1⟩ AxeZ, AxeZ)) = (⟨0, 1, 0⟩, AxeX) := by decide!
  have hcos : GLC_Vector4d.dot ⟨0, 0, 1⟩ AxeX = 0 := by decide!
  unfold triangulateMeshPolyPolygon
  simp only [hnormal, andThen, hframe, hcos, List.map_map]
  congr 1
  apply List.map_congr_left
  intro i _
  simp only [Function.comp, rotate, GLC_Vector4d.toVector2d, AxeX, GLC_Vector4d.cross,
    GLC_Vector4d.dot]
  norm_num

/-- Witness of C16 as amended, on the unit square of the plane `z = 0`. -/
theorem triangulateMeshPolyPolygon_normal_z_witness :
    faceNormal ([(0 : Int), 1, 2, 3].map
      (listMesh [⟨0, 0, 0⟩, ⟨1, 0, 0⟩, ⟨1, 1, 0⟩, ⟨0, 1, 0⟩])) = .ok ⟨0, 0, 1⟩ ∧
    triangulateMeshPolyPolygon (listMesh [⟨0, 0, 0⟩, ⟨1, 0, 0⟩, ⟨1, 1, 0⟩, ⟨0, 1, 0⟩])
        [0, 1, 2, 3]
      = .ok ([(0 : Int), 1, 2, 3].map fun i =>
          ⟨(listMesh [⟨0, 0, 0⟩, ⟨1, 0, 0⟩, ⟨1, 1, 0⟩, ⟨0, 1, 0⟩] i).y,
            -(listMesh [⟨0, 0, 0⟩, ⟨1, 0, 0⟩, ⟨1, 1, 0⟩, ⟨0, 1, 0⟩] i).x⟩) :=
  ⟨by decide!,
    triangulateMeshPolyPolygon_normal_z (listMesh [⟨0, 0, 0⟩, ⟨1, 0, 0⟩, ⟨1, 1, 0⟩, ⟨0, 1, 0⟩])
      [0, 1, 2, 3] (by decide!)⟩

/-- C16 as stated fails: the unit square `(0,0,0), (1,0,0), (1,1,0), (0,1,0)`
lies in the plane `z = 0` and the normal computed from its first three
vertices is `(0,0,1)`, yet the 2D polygon built is
`(0,0), (0,-1), (1,-1), (1,0)` and not `(0,0), (1,0), (1,1), (0,1)`. -/
theorem triangulateMeshPolyPolygon_not_drop_z :
    faceNormal ([(0 : Int), 1, 2, 3].map
      (listMesh [⟨0, 0, 0⟩, ⟨1, 0, 0⟩, ⟨1, 1, 0⟩, ⟨0, 1, 0⟩])) = .ok ⟨0, 0, 1⟩ ∧
    triangulateMeshPolyPolygon (listMesh [⟨0, 0, 0⟩, ⟨1, 0, 0⟩, ⟨1, 1, 0⟩, ⟨0, 1, 0⟩])
        [0, 1, 2, 3]
      = .ok [⟨0, 0⟩, ⟨0, -1⟩, ⟨1, -1⟩, ⟨1, 0⟩] ∧
    triangulateMeshPolyPolygon (listMesh [⟨0, 0, 0⟩, ⟨1, 0, 0⟩, ⟨1, 1, 0⟩, ⟨0, 1, 0⟩])
        [0, 1, 2, 3]
      ≠ .ok [⟨0, 0⟩, ⟨1, 0⟩, ⟨1, 1⟩, ⟨0, 1⟩] := by
  refine ⟨by decide!, by decide!, by decide!⟩
/-- In the collinear branch of `isIntersected`, on two segments of nonzero
length and with a tolerance below one, the interval passed to the interval
function is not empty: `sMin < sMax`. -/
theorem isIntersected_sMin_lt_sMax {EPSILON : ℚ} {a b c d : GLC_Vector2d}
    (h1 : EPSILON < 1) (hab : a ≠ b) (hcd : c ≠ d)
    (hnp : ¬ NonParallel EPSILON a b c d) :
    min (dot (sub b a) (sub c a) / sqrLen (sub b a))
        (dot (sub b a) (sub c a) / sqrLen (sub b a)
          + dot (sub b a) (sub d c) / sqrLen (sub b a))
      < max (dot (sub b a) (sub c a) / sqrLen (sub b a))
        (dot (sub b a) (sub c a) / sqrLen (sub b a)
          + dot (sub b a) (sub d c) / sqrLen (sub b a)) := by
  have hdd : dot (sub b a) (sub d c) / sqrLen (sub b a) ≠ 0 :=
    div_ne_zero (dot_ne_zero_of_not_nonParallel h1 hab hcd hnp) (sqrLen_sub_ne_zero hab)
  rcases lt_or_gt_of_ne hdd with h | h
  · rw [min_eq_right (by linarith), max_eq_left (by linarith)]
    linarith
  · rw [min_eq_left (by linarith), max_eq_right (by linarith)]
    linarith

/-! ## The divisors of the segment functions -/

/-- The interval function makes no division. -/
theorem findIntersectionInterval_ne_divideByZero (u0 u1 v0 v1 : ℚ) :
    findIntersectionInterval u0 u1 v0 v1 ≠ .error .divideByZero := by
  unfold findIntersectionInterval
  split_ifs <;> simp

/-- With a first segment of nonzero length and a tolerance that is not
negative, the point-returning `findIntersection` does not stop on a zero
divisor. -/
theorem findIntersection_ne_divideByZero {EPSILON : ℚ} {a b c d : GLC_Vector2d}
    (h0 : 0 ≤ EPSILON) (hab : a ≠ b) :
    findIntersection EPSILON a b c d ≠ .error .divideByZero := by
  by_cases hnp : NonParallel EPSILON a b c d
  · rw [findIntersection_eq_of_nonParallel h0 hnp]
    split_ifs <;> simp
  · have hL := sqrLen_sub_ne_zero hab
    unfold NonParallel sqrLen at hnp
    unfold sqrLen at hL
    unfold findIntersection
    by_cases hnd : cross (sub c a) (sub b a) * cross (sub c a) (sub b a)
        > EPSILON * ((sub b a).x * (sub b a).x + (sub b a).y * (sub b a).y)
          * ((sub c a).x * (sub c a).x + (sub c a).y * (sub c a).y)
    · simp only [if_neg hnp, if_pos hnd]
      simp
    · simp only [if_neg hnp, if_neg hnd, divide, if_neg hL, andThen]
      have hI := findIntersectionInterval_ne_divideByZero 0 1
        (min (dot (sub b a) (sub c a) / ((sub b a).x * (sub b a).x + (sub b a).y * (sub b a).y))
          (dot (sub b a) (sub d c) / ((sub b a).x * (sub b a).x + (sub b a).y * (sub b a).y)))
        (max (dot (sub b a) (sub c a) / ((sub b a).x * (sub b a).x + (sub b a).y * (sub b a).y))
          (dot (sub b a) (sub d c) / ((sub b a).x * (sub b a).x + (sub b a).y * (sub b a).y)))
      cases hres : findIntersectionInterval 0 1
        (min (dot (sub b a) (sub c a) / ((sub b a).x * (sub b a).x + (sub b a).y * (sub b a).y))
          (dot (sub b a) (sub d c) / ((sub b a).x * (sub b a).x + (sub b a).y * (sub b a).y)))
        (max (dot (sub b a) (sub c a) / ((sub b a).x * (sub b a).x + (sub b a).y * (sub b a).y))
          (dot (sub b a) (sub d c) / ((sub b a).x * (sub b a).x + (sub b a).y * (sub b a).y)))
        with
      | error e =>
        rw [hres] at hI
        intro h
        exact hI (by rw [Except.error.inj h])
      | ok o => simp

/-- With a first segment of nonzero length and a tolerance that is not
negative, `isIntersected` does not stop on a zero divisor. -/
theorem isIntersected_ne_divideByZero {EPSILON : ℚ} {a b c d : GLC_Vector2d}
    (h0 : 0 ≤ EPSILON) (hab : a ≠ b) :
    isIntersected EPSILON a b c d ≠ .error .divideByZero := by
  by_cases hnp : NonParallel EPSILON a b c d
  · rw [isIntersected_eq_of_nonParallel h0 hnp]
    split_ifs <;> simp
  · have hL := sqrLen_sub_ne_zero hab
    unfold NonParallel sqrLen at hnp
    unfold sqrLen at hL
    unfold isIntersected
    by_cases hnd : cross (sub c a) (sub b a) * cross (sub c a) (sub b a)
        > EPSILON * ((sub b a).x * (sub b a).x + (sub b a).y * (sub b a).y)
          * ((sub c a).x * (sub c a).x + (sub c a).y * (sub c a).y)
    · simp only [if_neg hnp, if_pos hnd]
      simp
    · simp only [if_neg hnp, if_neg hnd, divide, if_neg hL, andThen]
      have hI := findIntersectionInterval_ne_divideByZero 0 1
        (min (dot (sub b a) (sub c a) / ((sub b a).x * (sub b a).x + (sub b a).y * (sub b a).y))
          (dot (sub b a) (sub c a) / ((sub b a).x * (sub b a).x + (sub b a).y * (sub b a).y)
            + dot (sub b a) (sub d c)
              / ((sub b a).x * (sub b a).x + (sub b a).y * (sub b a).y)))
        (max (dot (sub b a) (sub c a) / ((sub b a).x * (sub b a).x + (sub b a).y * (sub b a).y))
          (dot (sub b a) (sub c a) / ((sub b a).x * (sub b a).x + (sub b a).y * (sub b a).y)
            + dot (sub b a) (sub d c)
              / ((sub b a).x * (sub b a).x + (sub b a).y * (sub b a).y)))
      cases hres : findIntersectionInterval 0 1
        (min (dot (sub b a) (sub c a) / ((sub b a).x * (sub b a).x + (sub b a).y * (sub b a).y))
          (dot (sub b a) (sub c a) / ((sub b a).x * (sub b a).x + (sub b a).y * (sub b a).y)
            + dot (sub b a) (sub d c)
              / ((sub b a).x * (sub b a).x + (sub b a).y * (sub b a).y)))
        (max (dot (sub b a) (sub c a) / ((sub b a).x * (sub b a).x + (sub b a).y * (sub b a).y))
          (dot (sub b a) (sub c a) / ((sub b a).x * (sub b a).x + (sub b a).y * (sub b a).y)
            + dot (sub b a) (sub d c)
              / ((sub b a).x * (sub b a).x + (sub b a).y * (sub b a).y)))
        with
      | error e =>
        rw [hres] at hI
        intro h
        exact hI (by rw [Except.error.inj h])
      | ok o =>
        dsimp only
        split_ifs <;> simp

/-- In exact arithmetic, with a first segment of nonzero length and a tolerance
that is not negative, no division of the point-returning `findIntersection` or
of `isIntersected` has a zero divisor: past the non-parallel test `kross` is
not zero and the two quotients by it have a value, `sqrLen0` is not zero and
the two quotients by it have a value, and neither function stops on a division
by zero. -/
theorem segment_divisors_ne_zero (EPSILON : ℚ) (s1p1 s1p2 s2p1 s2p2 : GLC_Vector2d)
    (h0 : 0 ≤ EPSILON) (h1 : s1p1 ≠ s1p2) :
    (NonParallel EPSILON s1p1 s1p2 s2p1 s2p2 →
      cross (sub s1p2 s1p1) (sub s2p2 s2p1) ≠ 0 ∧
      divide (cross (sub s2p1 s1p1) (sub s2p2 s2p1)) (cross (sub s1p2 s1p1) (sub s2p2 s2p1))
        = .ok (cross (sub s2p1 s1p1) (sub s2p2 s2p1)
            / cross (sub s1p2 s1p1) (sub s2p2 s2p1)) ∧
      divide (cross (sub s2p1 s1p1) (sub s1p2 s1p1)) (cross (sub s1p2 s1p1) (sub s2p2 s2p1))
        = .ok (cross (sub s2p1 s1p1) (sub s1p2 s1p1)
            / cross (sub s1p2 s1p1) (sub s2p2 s2p1))) ∧
    (sqrLen (sub s1p2 s1p1) ≠ 0 ∧
      divide (dot (sub s1p2 s1p1) (sub s2p1 s1p1)) (sqrLen (sub s1p2 s1p1))
        = .ok (dot (sub s1p2 s1p1) (sub s2p1 s1p1) / sqrLen (sub s1p2 s1p1)) ∧
      divide (dot (sub s1p2 s1p1) (sub s2p2 s2p1)) (sqrLen (sub s1p2 s1p1))
        = .ok (dot (sub s1p2 s1p1) (sub s2p2 s2p1) / sqrLen (sub s1p2 s1p1))) ∧
    findIntersection EPSILON s1p1 s1p2 s2p1 s2p2 ≠ .error .divideByZero ∧
    isIntersected EPSILON s1p1 s1p2 s2p1 s2p2 ≠ .error .divideByZero := by
  have hL := sqrLen_sub_ne_zero h1
  refine ⟨fun hnp => ?_, ⟨hL, ?_, ?_⟩, findIntersection_ne_divideByZero h0 h1,
    isIntersected_ne_divideByZero h0 h1⟩
  · have hk := kross_ne_zero_of_nonParallel h0 hnp
    refine ⟨hk, ?_, ?_⟩
    · unfold divide
      rw [if_neg hk]
    · unfold divide
      rw [if_neg hk]
  · unfold divide
    rw [if_neg hL]
  · unfold divide
    rw [if_neg hL]

/-- The divisors of `segment_divisors_ne_zero` on the crossing segments
`(0,0)-(2,2)` and `(0,2)-(2,0)`, which pass the non-parallel test with
`kross = -8` and `sqrLen0 = 8`. -/
theorem segment_divisors_ne_zero_witness :
    ((0 : ℚ) ≤ 1 / 10000000000 ∧ (⟨0, 0⟩ : GLC_Vector2d) ≠ ⟨2, 2⟩ ∧
      NonParallel (1 / 10000000000) ⟨0, 0⟩ ⟨2, 2⟩ ⟨0, 2⟩ ⟨2, 0⟩ ∧
      cross (sub ⟨2, 2⟩ ⟨0, 0⟩) (sub ⟨2, 0⟩ ⟨0, 2⟩) = -8 ∧
      sqrLen (sub ⟨2, 2⟩ ⟨0, 0⟩) = 8) ∧
    ((NonParallel (1 / 10000000000) ⟨0, 0⟩ ⟨2, 2⟩ ⟨0, 2⟩ ⟨2, 0⟩ →
      cross (sub ⟨2, 2⟩ ⟨0, 0⟩) (sub ⟨2, 0⟩ ⟨0, 2⟩) ≠ 0 ∧
      divide (cross (sub ⟨0, 2⟩ ⟨0, 0⟩) (sub ⟨2, 0⟩ ⟨0, 2⟩))
          (cross (sub ⟨2, 2⟩ ⟨0, 0⟩) (sub ⟨2, 0⟩ ⟨0, 2⟩))
        = .ok (cross (sub ⟨0, 2⟩ ⟨0, 0⟩) (sub ⟨2, 0⟩ ⟨0, 2⟩)
            / cross (sub ⟨2, 2⟩ ⟨0, 0⟩) (sub ⟨2, 0⟩ ⟨0, 2⟩)) ∧
      divide (cross (sub ⟨0, 2⟩ ⟨0, 0⟩) (sub ⟨2, 2⟩ ⟨0, 0⟩))
          (cross (sub ⟨2, 2⟩ ⟨0, 0⟩) (sub ⟨2, 0⟩ ⟨0, 2⟩))
        = .ok (cross (sub ⟨0, 2⟩ ⟨0, 0⟩) (sub ⟨2, 2⟩ ⟨0, 0⟩)
            / cross (sub ⟨2, 2⟩ ⟨0, 0⟩) (sub ⟨2, 0⟩ ⟨0, 2⟩))) ∧
    (sqrLen (sub ⟨2, 2⟩ ⟨0, 0⟩) ≠ 0 ∧
      divide (dot (sub ⟨2, 2⟩ ⟨0, 0⟩) (sub ⟨0, 2⟩ ⟨0, 0⟩)) (sqrLen (sub ⟨2, 2⟩ ⟨0, 0⟩))
        = .ok (dot (sub ⟨2, 2⟩ ⟨0, 0⟩) (sub ⟨0, 2⟩ ⟨0, 0⟩) / sqrLen (sub ⟨2, 2⟩ ⟨0, 0⟩)) ∧
      divide (dot (sub ⟨2, 2⟩ ⟨0, 0⟩) (sub ⟨2, 0⟩ ⟨0, 2⟩)) (sqrLen (sub ⟨2, 2⟩ ⟨0, 0⟩))
        = .ok (dot (sub ⟨2, 2⟩ ⟨0, 0⟩) (sub ⟨2, 0⟩ ⟨0, 2⟩) / sqrLen (sub ⟨2, 2⟩ ⟨0, 0⟩))) ∧
    findIntersection (1 / 10000000000) ⟨0, 0⟩ ⟨2, 2⟩ ⟨0, 2⟩ ⟨2, 0⟩ ≠ .error .divideByZero ∧
    isIntersected (1 / 10000000000) ⟨0, 0⟩ ⟨2, 2⟩ ⟨0, 2⟩ ⟨2, 0⟩ ≠ .error .divideByZero) :=
  ⟨⟨by norm_num, by decide!, by norm_num [NonParallel, sqrLen, cross, sub], by decide!,
      by decide!⟩,
    segment_divisors_ne_zero (1 / 10000000000) ⟨0, 0⟩ ⟨2, 2⟩ ⟨0, 2⟩ ⟨2, 0⟩
      (by norm_num) (by decide!)⟩

/-! ## The segment functions in rounded arithmetic -/

/-- Without rounding, the rounded point-returning `findIntersection` is the
exact one. -/
theorem findIntersectionFl_id (EPSILON : ℚ) (a b c d : GLC_Vector2d) :
    findIntersectionFl id EPSILON a b c d = findIntersection EPSILON a b c d := rfl

/-- Without rounding, the rounded `isIntersected` is the exact one. -/
theorem isIntersectedFl_id (EPSILON : ℚ) (a b c d : GLC_Vector2d) :
    isIntersectedFl id EPSILON a b c d = isIntersected EPSILON a b c d := rfl

/-- A power of two is positive. -/
theorem pow2_pos (e : Int) : 0 < pow2 e := by
  unfold pow2
  split_ifs <;> positivity

/-- Zero is a `double`. -/
theorem roundDouble_zero : roundDouble 0 = 0 := by
  unfold roundDouble
  rw [if_pos rfl]

/-- Rounding to a `double` keeps the sign. -/
theorem roundDouble_nonneg (q : ℚ) (h : 0 ≤ q) : 0 ≤ roundDouble q := by
  unfold roundDouble
  by_cases hq : q = 0
  · rw [if_pos hq]
  · have hlt : ¬ q < 0 := not_lt.mpr h
    simp only [if_neg hq, if_neg hlt]
    exact mul_nonneg (Nat.cast_nonneg _) (pow2_pos _).le

/-- Rounding to a `double` is symmetric about zero. -/
theorem roundDouble_neg (q : ℚ) : roundDouble (-q) = -roundDouble q := by
  unfold roundDouble
  rcases lt_trichotomy q 0 with h | h | h
  · have h1 : -q ≠ 0 := by
      intro e
      linarith
    have h2 : ¬ (-q < 0) := by linarith
    simp only [if_neg h1, if_neg h2, if_pos h, if_neg (ne_of_lt h), neg_neg]
  · subst h
    simp
  · have h1 : -q ≠ 0 := by
      intro e
      linarith
    have h2 : -q < 0 := by linarith
    have h3 : ¬ q < 0 := by linarith
    simp only [if_neg h1, if_pos h2, if_neg h3, if_neg (ne_of_gt h), neg_neg]

/-- The function `pow2` is the power of two with an integer exponent. -/
theorem pow2_eq_zpow (e : Int) : pow2 e = (2 : ℚ) ^ e := by
  unfold pow2
  split_ifs with h
  · push_cast
    rw [← zpow_natCast, Int.toNat_of_nonneg h]
  · push_cast
    rw [one_div, ← zpow_natCast, Int.toNat_of_nonneg (by omega), zpow_neg, inv_inv]

/-- The powers of two grow with the exponent. -/
theorem pow2_le_pow2 {a b : Int} (h : a ≤ b) : pow2 a ≤ pow2 b := by
  rw [pow2_eq_zpow, pow2_eq_zpow]
  exact zpow_le_zpow_right₀ (by norm_num) h

/-- The count of halvings is the binary exponent. -/
theorem log2Aux_spec (fuel : Nat) : ∀ n, 1 ≤ n → n ≤ fuel →
    2 ^ log2Aux fuel n ≤ n ∧ n < 2 ^ (log2Aux fuel n + 1) := by
  induction fuel with
  | zero =>
    intro n h1 h2
    omega
  | succ fuel ih =>
    intro n h1 h2
    rw [log2Aux]
    by_cases hn : n < 2
    · rw [if_pos hn]
      simp only [pow_zero, zero_add, pow_one]
      omega
    · rw [if_neg hn]
      obtain ⟨ha, hb⟩ := ih (n / 2) (by omega) (by omega)
      rw [pow_succ] at hb ⊢
      rw [pow_succ]
      constructor <;> omega

/-- The binary exponent of a natural number that is not zero. -/
theorem log2Nat_spec (n : Nat) (h : 1 ≤ n) :
    2 ^ log2Nat n ≤ n ∧ n < 2 ^ (log2Nat n + 1) :=
  log2Aux_spec n n h (le_refl n)

/-- The power of two of the binary exponent of a positive rational is at most
the rational. -/
theorem pow2_floorLog2_le (a : ℚ) (ha : 0 < a) : pow2 (floorLog2 a) ≤ a := by
  unfold floorLog2
  simp only
  split_ifs with h
  · exact h
  · have hnum : 0 < a.num := Rat.num_pos.mpr ha
    have hden : 0 < a.den := a.den_pos
    obtain ⟨h1, -⟩ := log2Nat_spec a.num.natAbs (by omega)
    obtain ⟨-, h2⟩ := log2Nat_spec a.den (by omega)
    have hmul : 2 ^ log2Nat a.num.natAbs * a.den ≤ a.num.natAbs * 2 ^ (log2Nat a.den + 1) :=
      Nat.mul_le_mul h1 h2.le
    have hq : ((2 : ℚ) ^ log2Nat a.num.natAbs) * (a.den : ℚ)
        ≤ (a.num.natAbs : ℚ) * (2 : ℚ) ^ (log2Nat a.den + 1) := by
      exact_mod_cast hmul
    have hnat : ((a.num.natAbs : Nat) : ℚ) = (a.num : ℚ) := by
      rw [Nat.cast_natAbs, abs_of_nonneg hnum.le]
    have key : a * (a.den : ℚ) = (a.num : ℚ) := Rat.mul_den_eq_num a
    have hdq : (0 : ℚ) < (a.den : ℚ) := by exact_mod_cast hden
    rw [pow2_eq_zpow]
    have e : (2 : ℚ) ^ ((log2Nat a.num.natAbs : Int) - (log2Nat a.den : Int) - 1)
        = (2 : ℚ) ^ log2Nat a.num.natAbs / (2 : ℚ) ^ (log2Nat a.den + 1) := by
      have : ((log2Nat a.num.natAbs : Int) - (log2Nat a.den : Int) - 1)
          = (log2Nat a.num.natAbs : Int) - ((log2Nat a.den + 1 : Nat) : Int) := by
        push_cast
        ring
      rw [this, zpow_sub₀ (by norm_num), zpow_natCast, zpow_natCast]
    rw [e, div_le_iff₀ (by positivity)]
    rw [hnat, ← key] at hq
    have hq2 : (2 : ℚ) ^ log2Nat a.num.natAbs * (a.den : ℚ)
        ≤ a * (2 : ℚ) ^ (log2Nat a.den + 1) * (a.den : ℚ) := by
      calc (2 : ℚ) ^ log2Nat a.num.natAbs * (a.den : ℚ)
          ≤ a * (a.den : ℚ) * (2 : ℚ) ^ (log2Nat a.den + 1) := hq
        _ = a * (2 : ℚ) ^ (log2Nat a.den + 1) * (a.den : ℚ) := by ring
    exact le_of_mul_le_mul_right hq2 hdq

/-- A rational that is at least one rounds to an integer that is at least
one. -/
theorem one_le_roundHalfEven (m : ℚ) (hm : 1 ≤ m) : 1 ≤ roundHalfEven m := by
  have hden : 0 < m.den := m.den_pos
  have hle : (m.den : Int) ≤ m.num := by
    have h1 : (1 : ℚ) ≤ (m.num : ℚ) / (m.den : ℚ) := by
      rw [Rat.num_div_den]
      exact hm
    rw [le_div_iff₀ (by exact_mod_cast hden), one_mul] at h1
    exact_mod_cast h1
  have hf : 1 ≤ m.num.toNat / m.den := by
    apply Nat.div_pos _ hden
    omega
  unfold roundHalfEven
  simp only
  split_ifs <;> omega

/-- A rational that is at least the least positive `double` rounds to a
`double` that is at least the least positive `double`. -/
theorem pow2_le_roundDouble (x : ℚ) (hx : pow2 (-1074) ≤ x) :
    pow2 (-1074) ≤ roundDouble x := by
  have hpos : 0 < x := lt_of_lt_of_le (pow2_pos _) hx
  unfold roundDouble
  simp only [if_neg (ne_of_gt hpos), if_neg (not_lt.mpr hpos.le)]
  have hq1 : pow2 (-1074) ≤ pow2 (max (floorLog2 x) (-1022) - 52) :=
    pow2_le_pow2 (by
      have := le_max_right (floorLog2 x) (-1022)
      omega)
  have hq2 : pow2 (max (floorLog2 x) (-1022) - 52) ≤ x := by
    rcases le_total (floorLog2 x) (-1022) with h | h
    · rw [max_eq_right h]
      exact hx
    · rw [max_eq_left h]
      exact le_trans (pow2_le_pow2 (by omega)) (pow2_floorLog2_le x hpos)
  have hqpos := pow2_pos (max (floorLog2 x) (-1022) - 52)
  have hn := one_le_roundHalfEven (x / pow2 (max (floorLog2 x) (-1022) - 52))
    (by rw [le_div_iff₀ hqpos, one_mul]; exact hq2)
  have hn2 : (1 : ℚ) ≤ (roundHalfEven (x / pow2 (max (floorLog2 x) (-1022) - 52)) : ℚ) := by
    exact_mod_cast hn
  calc pow2 (-1074) ≤ pow2 (max (floorLog2 x) (-1022) - 52) := hq1
    _ = 1 * pow2 (max (floorLog2 x) (-1022) - 52) := (one_mul _).symm
    _ ≤ _ := mul_le_mul_of_nonneg_right hn2 hqpos.le

/-- In `double` arithmetic the computed squared length of a vector is not zero
when one of its coordinates is at least `2 ^ (-537)` in absolute value: the
square of that coordinate is at least the least positive `double`. -/
theorem sqrLenFl_roundDouble_ne_zero (v : GLC_Vector2d)
    (h : pow2 (-537) ≤ |v.x| ∨ pow2 (-537) ≤ |v.y|) : sqrLenFl roundDouble v ≠ 0 := by
  have hsq : pow2 (-537) * pow2 (-537) = pow2 (-1074) := by
    rw [pow2_eq_zpow, pow2_eq_zpow, ← zpow_add₀ (by norm_num)]
    norm_num
  have hx0 : 0 ≤ roundDouble (v.x * v.x) := roundDouble_nonneg _ (mul_self_nonneg _)
  have hy0 : 0 ≤ roundDouble (v.y * v.y) := roundDouble_nonneg _ (mul_self_nonneg _)
  have hsum : pow2 (-1074) ≤ roundDouble (v.x * v.x) + roundDouble (v.y * v.y) := by
    rcases h with h | h
    · have h2 : pow2 (-1074) ≤ v.x * v.x := by
        rw [← hsq, ← abs_mul_abs_self v.x]
        exact mul_self_le_mul_self (pow2_pos _).le h
      have := pow2_le_roundDouble _ h2
      linarith
    · have h2 : pow2 (-1074) ≤ v.y * v.y := by
        rw [← hsq, ← abs_mul_abs_self v.y]
        exact mul_self_le_mul_self (pow2_pos _).le h
      have := pow2_le_roundDouble _ h2
      linarith
  have := pow2_le_roundDouble _ hsum
  unfold sqrLenFl
  exact ne_of_gt (lt_of_lt_of_le (pow2_pos _) this)

/-- A first fault other than a zero divisor, followed by steps that divide by
no zero, is no zero divisor. -/
theorem andThen_ne_divideByZero {α β : Type} {r : Except Fault α} {f : α → Except Fault β}
    (hr : r ≠ .error .divideByZero) (hf : ∀ a, f a ≠ .error .divideByZero) :
    andThen r f ≠ .error .divideByZero := by
  cases r with
  | error e =>
    intro h
    apply hr
    simp only [andThen] at h
    rw [Except.error.inj h]
  | ok a => exact hf a

/-- A rounded quotient by a divisor that is not zero has a value. -/
theorem divideFl_ne_divideByZero (fl : ℚ → ℚ) (a : ℚ) {b : ℚ} (hb : b ≠ 0) :
    divideFl fl a b ≠ .error .divideByZero := by
  unfold divideFl
  rw [if_neg hb]
  simp

/-- The computed squared length is not negative. -/
theorem sqrLenFl_nonneg {fl : ℚ → ℚ} (hfl : ∀ x, 0 ≤ x → 0 ≤ fl x) (v : GLC_Vector2d) :
    0 ≤ sqrLenFl fl v := by
  unfold sqrLenFl
  exact hfl _ (add_nonneg (hfl _ (mul_self_nonneg _)) (hfl _ (mul_self_nonneg _)))

/-- Past the computed non-parallel test, the computed `kross` is not zero. -/
theorem crossFl_ne_zero_of_nonParallelFl {fl : ℚ → ℚ} {EPSILON : ℚ} {a b c d : GLC_Vector2d}
    (hfl0 : fl 0 = 0) (hfl : ∀ x, 0 ≤ x → 0 ≤ fl x) (h0 : 0 ≤ EPSILON)
    (hnp : NonParallelFl fl EPSILON a b c d) :
    crossFl fl (subFl fl b a) (subFl fl d c) ≠ 0 := by
  intro hk
  unfold NonParallelFl at hnp
  rw [hk, mul_zero, hfl0] at hnp
  have hnn : 0 ≤ fl (fl (EPSILON * sqrLenFl fl (subFl fl b a)) * sqrLenFl fl (subFl fl d c)) :=
    hfl _ (mul_nonneg (hfl _ (mul_nonneg h0 (sqrLenFl_nonneg hfl _))) (sqrLenFl_nonneg hfl _))
  linarith

/-- With a computed `sqrLen0` that is not zero, the rounded point-returning
`findIntersection` does not stop on a zero divisor. -/
theorem findIntersectionFl_ne_divideByZero {fl : ℚ → ℚ} {EPSILON : ℚ} {a b c d : GLC_Vector2d}
    (hfl0 : fl 0 = 0) (hfl : ∀ x, 0 ≤ x → 0 ≤ fl x) (h0 : 0 ≤ EPSILON)
    (hL : sqrLenFl fl (subFl fl b a) ≠ 0) :
    findIntersectionFl fl EPSILON a b c d ≠ .error .divideByZero := by
  by_cases hnp : NonParallelFl fl EPSILON a b c d
  · have hk := crossFl_ne_zero_of_nonParallelFl hfl0 hfl h0 hnp
    unfold NonParallelFl at hnp
    unfold findIntersectionFl
    simp only [if_pos hnp]
    refine andThen_ne_divideByZero (divideFl_ne_divideByZero fl _ hk) fun s => ?_
    split_ifs
    · simp
    · refine andThen_ne_divideByZero (divideFl_ne_divideByZero fl _ hk) fun t => ?_
      split_ifs <;> simp
  · unfold NonParallelFl at hnp
    unfold findIntersectionFl
    simp only [if_neg hnp]
    split_ifs
    · simp
    · refine andThen_ne_divideByZero (divideFl_ne_divideByZero fl _ hL) fun s0 => ?_
      refine andThen_ne_divideByZero (divideFl_ne_divideByZero fl _ hL) fun s1 => ?_
      refine andThen_ne_divideByZero (findIntersectionInterval_ne_divideByZero _ _ _ _)
        fun o => ?_
      simp

/-- With a computed `sqrLen0` that is not zero, the rounded `isIntersected`
does not stop on a zero divisor. -/
theorem isIntersectedFl_ne_divideByZero {fl : ℚ → ℚ} {EPSILON : ℚ} {a b c d : GLC_Vector2d}
    (hfl0 : fl 0 = 0) (hfl : ∀ x, 0 ≤ x → 0 ≤ fl x) (h0 : 0 ≤ EPSILON)
    (hL : sqrLenFl fl (subFl fl b a) ≠ 0) :
    isIntersectedFl fl EPSILON a b c d ≠ .error .divideByZero := by
  by_cases hnp : NonParallelFl fl EPSILON a b c d
  · have hk := crossFl_ne_zero_of_nonParallelFl hfl0 hfl h0 hnp
    unfold NonParallelFl at hnp
    unfold isIntersectedFl
    simp only [if_pos hnp]
    refine andThen_ne_divideByZero (divideFl_ne_divideByZero fl _ hk) fun s => ?_
    split_ifs
    · simp
    · refine andThen_ne_divideByZero (divideFl_ne_divideByZero fl _ hk) fun t => ?_
      split_ifs <;> simp
  · unfold NonParallelFl at hnp
    unfold isIntersectedFl
    simp only [if_neg hnp]
    split_ifs
    · simp
    · refine andThen_ne_divideByZero (divideFl_ne_divideByZero fl _ hL) fun s0 => ?_
      refine andThen_ne_divideByZero (divideFl_ne_divideByZero fl _ hL) fun s1 => ?_
      refine andThen_ne_divideByZero (findIntersectionInterval_ne_divideByZero _ _ _ _)
        fun o => ?_
      split_ifs <;> simp
/-- C21, as the code has it: with any rounding that keeps zero and the sign,
a tolerance that is not negative and a computed `sqrLen0` that is not zero, no
division of the point-returning `findIntersection` or of `isIntersected` has a
zero divisor: past the non-parallel test the computed `kross` is not zero and
the two quotients by it have a value, the two quotients by `sqrLen0` have a
value, and neither function stops on a division by zero.  In exact arithmetic
`sqrLen0` is not zero as soon as `s1p1` and `s1p2` differ; in `double`
arithmetic it is not zero as soon as a coordinate of the computed `D0` is at
least `2 ^ (-537)` in absolute value. -/
theorem segment_divisors_ne_zero_rounded (fl : ℚ → ℚ) (EPSILON : ℚ)
    (s1p1 s1p2 s2p1 s2p2 : GLC_Vector2d)
    (hfl0 : fl 0 = 0) (hfl : ∀ x, 0 ≤ x → 0 ≤ fl x) (h0 : 0 ≤ EPSILON)
    (hL : sqrLenFl fl (subFl fl s1p2 s1p1) ≠ 0) :
    (NonParallelFl fl EPSILON s1p1 s1p2 s2p1 s2p2 →
      crossFl fl (subFl fl s1p2 s1p1) (subFl fl s2p2 s2p1) ≠ 0 ∧
      divideFl fl (crossFl fl (subFl fl s2p1 s1p1) (subFl fl s2p2 s2p1))
          (crossFl fl (subFl fl s1p2 s1p1) (subFl fl s2p2 s2p1))
        = .ok (fl (crossFl fl (subFl fl s2p1 s1p1) (subFl fl s2p2 s2p1)
            / crossFl fl (subFl fl s1p2 s1p1) (subFl fl s2p2 s2p1))) ∧
      divideFl fl (crossFl fl (subFl fl s2p1 s1p1) (subFl fl s1p2 s1p1))
          (crossFl fl (subFl fl s1p2 s1p1) (subFl fl s2p2 s2p1))
        = .ok (fl (crossFl fl (subFl fl s2p1 s1p1) (subFl fl s1p2 s1p1)
            / crossFl fl (subFl fl s1p2 s1p1) (subFl fl s2p2 s2p1)))) ∧
    (divideFl fl (dotFl fl (subFl fl s1p2 s1p1) (subFl fl s2p1 s1p1))
          (sqrLenFl fl (subFl fl s1p2 s1p1))
        = .ok (fl (dotFl fl (subFl fl s1p2 s1p1) (subFl fl s2p1 s1p1)
            / sqrLenFl fl (subFl fl s1p2 s1p1))) ∧
      divideFl fl (dotFl fl (subFl fl s1p2 s1p1) (subFl fl s2p2 s2p1))
          (sqrLenFl fl (subFl fl s1p2 s1p1))
        = .ok (fl (dotFl fl (subFl fl s1p2 s1p1) (subFl fl s2p2 s2p1)
            / sqrLenFl fl (subFl fl s1p2 s1p1)))) ∧
    findIntersectionFl fl EPSILON s1p1 s1p2 s2p1 s2p2 ≠ .error .divideByZero ∧
    isIntersectedFl fl EPSILON s1p1 s1p2 s2p1 s2p2 ≠ .error .divideByZero ∧
    (s1p1 ≠ s1p2 → sqrLenFl id (subFl id s1p2 s1p1) ≠ 0) ∧
    (pow2 (-537) ≤ |(subFl roundDouble s1p2 s1p1).x| ∨
        pow2 (-537) ≤ |(subFl roundDouble s1p2 s1p1).y| →
      sqrLenFl roundDouble (subFl roundDouble s1p2 s1p1) ≠ 0) := by
  refine ⟨fun hnp => ?_, ⟨?_, ?_⟩, findIntersectionFl_ne_divideByZero hfl0 hfl h0 hL,
    isIntersectedFl_ne_divideByZero hfl0 hfl h0 hL, fun hne => sqrLen_sub_ne_zero hne,
    sqrLenFl_roundDouble_ne_zero _⟩
  · have hk := crossFl_ne_zero_of_nonParallelFl hfl0 hfl h0 hnp
    refine ⟨hk, ?_, ?_⟩
    · unfold divideFl
      rw [if_neg hk]
    · unfold divideFl
      rw [if_neg hk]
  · unfold divideFl
    rw [if_neg hL]
  · unfold divideFl
    rw [if_neg hL]

/-- Witness of C21 as amended, in `double` arithmetic, on the crossing segments
`(0,0)-(2,2)` and `(0,2)-(2,0)`, which pass the non-parallel test with
`kross = -8` and `sqrLen0 = 8`. -/
theorem segment_divisors_ne_zero_rounded_witness :
    (roundDouble 0 = 0 ∧ (∀ x, 0 ≤ x → 0 ≤ roundDouble x) ∧
      (0 : ℚ) ≤ roundDouble (1 / 10000000000) ∧
      sqrLenFl roundDouble (subFl roundDouble ⟨2, 2⟩ ⟨0, 0⟩) ≠ 0 ∧
      NonParallelFl roundDouble (roundDouble (1 / 10000000000)) ⟨0, 0⟩ ⟨2, 2⟩ ⟨0, 2⟩ ⟨2, 0⟩ ∧
      crossFl roundDouble (subFl roundDouble ⟨2, 2⟩ ⟨0, 0⟩) (subFl roundDouble ⟨2, 0⟩ ⟨0, 2⟩)
        = -8 ∧
      sqrLenFl roundDouble (subFl roundDouble ⟨2, 2⟩ ⟨0, 0⟩) = 8) ∧
    ((NonParallelFl roundDouble (roundDouble (1 / 10000000000)) ⟨0, 0⟩ ⟨2, 2⟩ ⟨0, 2⟩ ⟨2, 0⟩ →
      crossFl roundDouble (subFl roundDouble ⟨2, 2⟩ ⟨0, 0⟩) (subFl roundDouble ⟨2, 0⟩ ⟨0, 2⟩)
        ≠ 0 ∧
      divideFl roundDouble
          (crossFl roundDouble (subFl roundDouble ⟨0, 2⟩ ⟨0, 0⟩) (subFl roundDouble ⟨2, 0⟩ ⟨0, 2⟩))
          (crossFl roundDouble (subFl roundDouble ⟨2, 2⟩ ⟨0, 0⟩) (subFl roundDouble ⟨2, 0⟩ ⟨0, 2⟩))
        = .ok (roundDouble
          (crossFl roundDouble (subFl roundDouble ⟨0, 2⟩ ⟨0, 0⟩) (subFl roundDouble ⟨2, 0⟩ ⟨0, 2⟩)
            / crossFl roundDouble (subFl roundDouble ⟨2, 2⟩ ⟨0, 0⟩)
                (subFl roundDouble ⟨2, 0⟩ ⟨0, 2⟩))) ∧
      divideFl roundDouble
          (crossFl roundDouble (subFl roundDouble ⟨0, 2⟩ ⟨0, 0⟩) (subFl roundDouble ⟨2, 2⟩ ⟨0, 0⟩))
          (crossFl roundDouble (subFl roundDouble ⟨2, 2⟩ ⟨0, 0⟩) (subFl roundDouble ⟨2, 0⟩ ⟨0, 2⟩))
        = .ok (roundDouble
          (crossFl roundDouble (subFl roundDouble ⟨0, 2⟩ ⟨0, 0⟩) (subFl roundDouble ⟨2, 2⟩ ⟨0, 0⟩)
            / crossFl roundDouble (subFl roundDouble ⟨2, 2⟩ ⟨0, 0⟩)
                (subFl roundDouble ⟨2, 0⟩ ⟨0, 2⟩)))) ∧
    (divideFl roundDouble
          (dotFl roundDouble (subFl roundDouble ⟨2, 2⟩ ⟨0, 0⟩) (subFl roundDouble ⟨0, 2⟩ ⟨0, 0⟩))
          (sqrLenFl roundDouble (subFl roundDouble ⟨2, 2⟩ ⟨0, 0⟩))
        = .ok (roundDouble
          (dotFl roundDouble (subFl roundDouble ⟨2, 2⟩ ⟨0, 0⟩) (subFl roundDouble ⟨0, 2⟩ ⟨0, 0⟩)
            / sqrLenFl roundDouble (subFl roundDouble ⟨2, 2⟩ ⟨0, 0⟩))) ∧
      divideFl roundDouble
          (dotFl roundDouble (subFl roundDouble ⟨2, 2⟩ ⟨0, 0⟩) (subFl roundDouble ⟨2, 0⟩ ⟨0, 2⟩))
          (sqrLenFl roundDouble (subFl roundDouble ⟨2, 2⟩ ⟨0, 0⟩))
        = .ok (roundDouble
          (dotFl roundDouble (subFl roundDouble ⟨2, 2⟩ ⟨0, 0⟩) (subFl roundDouble ⟨2, 0⟩ ⟨0, 2⟩)
            / sqrLenFl roundDouble (subFl roundDouble ⟨2, 2⟩ ⟨0, 0⟩)))) ∧
    findIntersectionFl roundDouble (roundDouble (1 / 10000000000)) ⟨0, 0⟩ ⟨2, 2⟩ ⟨0, 2⟩ ⟨2, 0⟩
      ≠ .error .divideByZero ∧
    isIntersectedFl roundDouble (roundDouble (1 / 10000000000)) ⟨0, 0⟩ ⟨2, 2⟩ ⟨0, 2⟩ ⟨2, 0⟩
      ≠ .error .divideByZero ∧
    ((⟨0, 0⟩ : GLC_Vector2d) ≠ ⟨2, 2⟩ → sqrLenFl id (subFl id ⟨2, 2⟩ ⟨0, 0⟩) ≠ 0) ∧
    (pow2 (-537) ≤ |(subFl roundDouble ⟨2, 2⟩ ⟨0, 0⟩).x| ∨
        pow2 (-537) ≤ |(subFl roundDouble ⟨2, 2⟩ ⟨0, 0⟩).y| →
      sqrLenFl roundDouble (subFl roundDouble ⟨2, 2⟩ ⟨0, 0⟩) ≠ 0)) :=
  ⟨⟨roundDouble_zero, roundDouble_nonneg, by decide!, by decide!,
      by unfold NonParallelFl; decide!, by decide!, by decide!⟩,
    segment_divisors_ne_zero_rounded roundDouble (roundDouble (1 / 10000000000))
      ⟨0, 0⟩ ⟨2, 2⟩ ⟨0, 2⟩ ⟨2, 0⟩ roundDouble_zero roundDouble_nonneg (by decide!) (by decide!)⟩

/-- C21 as stated fails in `double` arithmetic: the first segment
`(0,0)-(2^-600,0)` has two different ends, both of them `double`s, and the
square `2^-1200` of its length underflows to zero, so the computed `sqrLen0`
is zero; against the segment `(1,1)-(2,3)` both tolerance tests fail, and the
collinear branch of the point-returning `findIntersection` and of
`isIntersected` divides by this zero. -/
theorem segment_divisor_zero_underflow :
    (⟨0, 0⟩ : GLC_Vector2d) ≠ ⟨pow2 (-600), 0⟩ ∧
    (0 : ℚ) ≤ roundDouble (1 / 10000000000) ∧
    roundDouble (pow2 (-600)) = pow2 (-600) ∧
    sqrLenFl roundDouble (subFl roundDouble ⟨pow2 (-600), 0⟩ ⟨0, 0⟩) = 0 ∧
    findIntersectionFl roundDouble (roundDouble (1 / 10000000000))
        ⟨0, 0⟩ ⟨pow2 (-600), 0⟩ ⟨1, 1⟩ ⟨2, 3⟩ = .error .divideByZero ∧
    isIntersectedFl roundDouble (roundDouble (1 / 10000000000))
        ⟨0, 0⟩ ⟨pow2 (-600), 0⟩ ⟨1, 1⟩ ⟨2, 3⟩ = .error .divideByZero := by
  refine ⟨by decide!, by decide!, by decide!, by decide!, by decide!, by decide!⟩
/-- With a rounding symmetric about zero, the computed difference of two
points changes sign with their order. -/
theorem subFl_swap {fl : ℚ → ℚ} (hodd : ∀ x, fl (-x) = -fl x) (a c : GLC_Vector2d) :
    subFl fl a c = ⟨-(subFl fl c a).x, -(subFl fl c a).y⟩ := by
  unfold subFl
  simp only
  rw [← hodd, ← hodd, neg_sub, neg_sub]

/-- With a rounding symmetric about zero, the computed cross product changes
sign with the order of its operands. -/
theorem crossFl_swap {fl : ℚ → ℚ} (hodd : ∀ x, fl (-x) = -fl x) (u v : GLC_Vector2d) :
    crossFl fl v u = -crossFl fl u v := by
  unfold crossFl
  rw [← hodd, neg_sub, mul_comm v.x, mul_comm v.y]

/-- With a rounding symmetric about zero, the computed cross product changes
sign with its left operand. -/
theorem crossFl_neg_left {fl : ℚ → ℚ} (hodd : ∀ x, fl (-x) = -fl x) (u v : GLC_Vector2d) :
    crossFl fl ⟨-u.x, -u.y⟩ v = -crossFl fl u v := by
  unfold crossFl
  show fl (fl (-u.x * v.y) - fl (-u.y * v.x)) = -fl (fl (u.x * v.y) - fl (u.y * v.x))
  rw [neg_mul, neg_mul, hodd (u.x * v.y), hodd (u.y * v.x),
    ← hodd (fl (u.x * v.y) - fl (u.y * v.x))]
  congr 1
  ring

/-- Past the computed non-parallel test, what the rounded point-returning
`findIntersection` returns. -/
theorem findIntersectionFl_eq_of_nonParallelFl {fl : ℚ → ℚ} {EPSILON : ℚ}
    {a b c d : GLC_Vector2d}
    (hfl0 : fl 0 = 0) (hfl : ∀ x, 0 ≤ x → 0 ≤ fl x) (h0 : 0 ≤ EPSILON)
    (hnp : NonParallelFl fl EPSILON a b c d) :
    findIntersectionFl fl EPSILON a b c d =
      if fl (crossFl fl (subFl fl c a) (subFl fl d c)
            / crossFl fl (subFl fl b a) (subFl fl d c)) < 0 ∨
          fl (crossFl fl (subFl fl c a) (subFl fl d c)
            / crossFl fl (subFl fl b a) (subFl fl d c)) > 1 then .ok []
      else if fl (crossFl fl (subFl fl c a) (subFl fl b a)
            / crossFl fl (subFl fl b a) (subFl fl d c)) < 0 ∨
          fl (crossFl fl (subFl fl c a) (subFl fl b a)
            / crossFl fl (subFl fl b a) (subFl fl d c)) > 1 then .ok []
      else .ok [addFl fl a (scaleFl fl (subFl fl b a)
        (fl (crossFl fl (subFl fl c a) (subFl fl d c)
            / crossFl fl (subFl fl b a) (subFl fl d c))))] := by
  have hk := crossFl_ne_zero_of_nonParallelFl hfl0 hfl h0 hnp
  unfold NonParallelFl at hnp
  unfold findIntersectionFl
  simp only [if_pos hnp, divideFl, if_neg hk, andThen]

/-- C6, as the code has it: for two segments that pass the non-parallel test
in both orders, with a tolerance that is not negative and any rounding that
keeps zero and the sign and is symmetric about zero, the point-returning
`findIntersection` returns no point in both orders or one point in both
orders; in exact arithmetic, where the test passes in both orders as soon as
it passes in one, the two lists are equal. -/
theorem findIntersection_swap_rounded (fl : ℚ → ℚ) (EPSILON : ℚ)
    (s1p1 s1p2 s2p1 s2p2 : GLC_Vector2d)
    (hfl0 : fl 0 = 0) (hfl : ∀ x, 0 ≤ x → 0 ≤ fl x) (hodd : ∀ x, fl (-x) = -fl x)
    (h0 : 0 ≤ EPSILON)
    (hAB : NonParallelFl fl EPSILON s1p1 s1p2 s2p1 s2p2)
    (hBA : NonParallelFl fl EPSILON s2p1 s2p2 s1p1 s1p2) :
    ((findIntersectionFl fl EPSILON s1p1 s1p2 s2p1 s2p2 = .ok [] ∧
        findIntersectionFl fl EPSILON s2p1 s2p2 s1p1 s1p2 = .ok []) ∨
      ∃ p q, findIntersectionFl fl EPSILON s1p1 s1p2 s2p1 s2p2 = .ok [p] ∧
        findIntersectionFl fl EPSILON s2p1 s2p2 s1p1 s1p2 = .ok [q]) ∧
    (NonParallel EPSILON s1p1 s1p2 s2p1 s2p2 →
      NonParallel EPSILON s2p1 s2p2 s1p1 s1p2 ∧
      findIntersection EPSILON s1p1 s1p2 s2p1 s2p2
        = findIntersection EPSILON s2p1 s2p2 s1p1 s1p2) := by
  refine ⟨?_, fun hnp => ⟨nonParallel_swap hnp, findIntersection_swap EPSILON _ _ _ _ h0 hnp⟩⟩
  have hk := crossFl_ne_zero_of_nonParallelFl hfl0 hfl h0 hAB
  have hk2 : crossFl fl (subFl fl s2p2 s2p1) (subFl fl s1p2 s1p1)
      = -crossFl fl (subFl fl s1p2 s1p1) (subFl fl s2p2 s2p1) := crossFl_swap hodd _ _
  have e1 : crossFl fl (subFl fl s1p1 s2p1) (subFl fl s1p2 s1p1)
      = -crossFl fl (subFl fl s2p1 s1p1) (subFl fl s1p2 s1p1) := by
    rw [subFl_swap hodd s1p1 s2p1]
    exact crossFl_neg_left hodd _ _
  have e2 : crossFl fl (subFl fl s1p1 s2p1) (subFl fl s2p2 s2p1)
      = -crossFl fl (subFl fl s2p1 s1p1) (subFl fl s2p2 s2p1) := by
    rw [subFl_swap hodd s1p1 s2p1]
    exact crossFl_neg_left hodd _ _
  rw [findIntersectionFl_eq_of_nonParallelFl hfl0 hfl h0 hAB,
    findIntersectionFl_eq_of_nonParallelFl hfl0 hfl h0 hBA, hk2, e1, e2,
    neg_div_neg_eq, neg_div_neg_eq]
  by_cases hs : fl (crossFl fl (subFl fl s2p1 s1p1) (subFl fl s2p2 s2p1)
        / crossFl fl (subFl fl s1p2 s1p1) (subFl fl s2p2 s2p1)) < 0 ∨
      fl (crossFl fl (subFl fl s2p1 s1p1) (subFl fl s2p2 s2p1)
        / crossFl fl (subFl fl s1p2 s1p1) (subFl fl s2p2 s2p1)) > 1
  · simp only [if_pos hs, ite_self]
    left
    exact ⟨trivial, trivial⟩
  · by_cases ht : fl (crossFl fl (subFl fl s2p1 s1p1) (subFl fl s1p2 s1p1)
          / crossFl fl (subFl fl s1p2 s1p1) (subFl fl s2p2 s2p1)) < 0 ∨
        fl (crossFl fl (subFl fl s2p1 s1p1) (subFl fl s1p2 s1p1)
          / crossFl fl (subFl fl s1p2 s1p1) (subFl fl s2p2 s2p1)) > 1
    · simp only [if_neg hs, if_pos ht]
      left
      exact ⟨trivial, trivial⟩
    · simp only [if_neg hs, if_neg ht]
      right
      exact ⟨_, _, rfl, rfl⟩

/-- Witness of C6 as amended, in `double` arithmetic, on the crossing segments
`(2,2)-(0,0)` and `(0,1)-(2,0)`: one point in both orders. -/
theorem findIntersection_swap_rounded_witness :
    (roundDouble 0 = 0 ∧ (∀ x, 0 ≤ x → 0 ≤ roundDouble x) ∧
      (∀ x, roundDouble (-x) = -roundDouble x) ∧
      (0 : ℚ) ≤ roundDouble (1 / 10000000000) ∧
      NonParallelFl roundDouble (roundDouble (1 / 10000000000)) ⟨2, 2⟩ ⟨0, 0⟩ ⟨0, 1⟩ ⟨2, 0⟩ ∧
      NonParallelFl roundDouble (roundDouble (1 / 10000000000)) ⟨0, 1⟩ ⟨2, 0⟩ ⟨2, 2⟩ ⟨0, 0⟩ ∧
      NonParallel (roundDouble (1 / 10000000000)) ⟨2, 2⟩ ⟨0, 0⟩ ⟨0, 1⟩ ⟨2, 0⟩ ∧
      findIntersection (roundDouble (1 / 10000000000)) ⟨2, 2⟩ ⟨0, 0⟩ ⟨0, 1⟩ ⟨2, 0⟩
        = .ok [⟨2 / 3, 2 / 3⟩]) ∧
    (((findIntersectionFl roundDouble (roundDouble (1 / 10000000000))
          ⟨2, 2⟩ ⟨0, 0⟩ ⟨0, 1⟩ ⟨2, 0⟩ = .ok [] ∧
        findIntersectionFl roundDouble (roundDouble (1 / 10000000000))
          ⟨0, 1⟩ ⟨2, 0⟩ ⟨2, 2⟩ ⟨0, 0⟩ = .ok []) ∨
      ∃ p q, findIntersectionFl roundDouble (roundDouble (1 / 10000000000))
          ⟨2, 2⟩ ⟨0, 0⟩ ⟨0, 1⟩ ⟨2, 0⟩ = .ok [p] ∧
        findIntersectionFl roundDouble (roundDouble (1 / 10000000000))
          ⟨0, 1⟩ ⟨2, 0⟩ ⟨2, 2⟩ ⟨0, 0⟩ = .ok [q]) ∧
    (NonParallel (roundDouble (1 / 10000000000)) ⟨2, 2⟩ ⟨0, 0⟩ ⟨0, 1⟩ ⟨2, 0⟩ →
      NonParallel (roundDouble (1 / 10000000000)) ⟨0, 1⟩ ⟨2, 0⟩ ⟨2, 2⟩ ⟨0, 0⟩ ∧
      findIntersection (roundDouble (1 / 10000000000)) ⟨2, 2⟩ ⟨0, 0⟩ ⟨0, 1⟩ ⟨2, 0⟩
        = findIntersection (roundDouble (1 / 10000000000)) ⟨0, 1⟩ ⟨2, 0⟩ ⟨2, 2⟩ ⟨0, 0⟩)) :=
  ⟨⟨roundDouble_zero, roundDouble_nonneg, roundDouble_neg, by decide!,
      by unfold NonParallelFl; decide!, by unfold NonParallelFl; decide!,
      by unfold NonParallel; decide!, by decide!⟩,
    findIntersection_swap_rounded roundDouble (roundDouble (1 / 10000000000))
      ⟨2, 2⟩ ⟨0, 0⟩ ⟨0, 1⟩ ⟨2, 0⟩ roundDouble_zero roundDouble_nonneg roundDouble_neg
      (by decide!) (by unfold NonParallelFl; decide!) (by unfold NonParallelFl; decide!)⟩
/-! ## Triangulation of a polygon seen clockwise from its first vertex -/

/-- A strictly convex polygon listed clockwise is seen clockwise from its
first vertex. -/
theorem clockwiseFromFirst_of_strictlyConvexClockwise {polygon : List GLC_Vector2d}
    (h : StrictlyConvexClockwise polygon) : ClockwiseFromFirst polygon :=
  fun j k hj hjk hk => h 0 j k (by omega) hjk hk

/-- A polygon of at most four vertices is clear of its diagonals: no edge is
tested against the diagonal from position `0` to position `2`. -/
theorem clearOfDiagonals_of_length_le_four (EPSILON : ℚ) (polygon : List GLC_Vector2d)
    (h : polygon.length ≤ 4) : ClearOfDiagonals EPSILON polygon := by
  intro u v hu huv hv
  omega

/-- With the tolerance zero, a polygon seen clockwise from its first vertex is
clear of its diagonals. -/
theorem clearOfDiagonals_zero_of_clockwise {polygon : List GLC_Vector2d}
    (hcw : ClockwiseFromFirst polygon) : ClearOfDiagonals 0 polygon := by
  intro u v hu huv hv
  have h := hcw u v (by omega) (by omega) hv
  unfold DistinctLines
  simp only [cross] at h ⊢
  nlinarith

end glc
